import Mathlib

/-!
# AlloLib playground tutorials: file reader, keyboard handlers, parameter tables, axes

A shallow embedding of the repository's own code (the text-file reader of the
map tutorials, the keyboard handlers, the voice parameter declarations, the
wavetable / spectrum / envelope bookkeeping of the FM tutorial and the axis
helpers), with the properties claimed of it.

Library code the tutorials call (`std::stof`, `asciiToMIDI`, `asciiToIndex`,
`RtMidiIn`, `gam::STFT`, `gam::ADSR`) is not part of the repository; the
embedding takes it as a parameter or states what it assumes of it.  Strings are
lists of characters.  In the axis helpers a `float` is a rational number
(exact arithmetic) and a loop is run with fuel: it yields `none` when the fuel
runs out before the loop condition fails.
-/

namespace AlloPlayground

/-! ## The text-file reader (`split`, `readPoints`) -/

/-- One call `getline(ss, item, delim)` on a stream whose unread characters are
the argument.  The call fails (`none`) when no character at all can be
extracted; otherwise it yields the item read, the delimiter being extracted
and discarded, together with the characters left unread. -/
def getline (delim : Char) : List Char → Option (List Char × List Char)
  | [] => none
  | c :: cs =>
    if c = delim then some ([], cs)
    else
      match getline delim cs with
      | none => some ([c], [])
      | some (item, rest) => some (c :: item, rest)

/-- The loop `while (getline(ss, item, delim)) result.push_back(item);`, run
for at most `fuel` iterations. -/
def splitLoop (delim : Char) : Nat → List Char → List (List Char)
  | 0, _ => []
  | fuel + 1, ss =>
    match getline delim ss with
    | none => []
    | some (item, rest) => item :: splitLoop delim fuel rest

/-- `split(s, delim)` of `eq_01.cpp`, `world_map_earthquakes.cpp` and
`us_map.cpp` (the three texts differ in white space only).  Every successful
`getline` consumes at least one character, so `s.length + 1` iterations are
enough for the loop to reach its exit. -/
def split (s : List Char) (delim : Char) : List (List Char) :=
  splitLoop delim (s.length + 1) s

/-- `Vec3f`, over an arbitrary type of numbers. -/
structure Vec3f (ν : Type) where
  x : ν
  y : ν
  z : ν
deriving DecidableEq, Repr

/-- The ways `readPoints` can fail: `parts[i]` read past the end of `parts`,
or `std::stof` rejecting its argument (it throws, and nothing catches). -/
inductive ReadError where
  | outOfRange (i : Nat)
  | stofThrows (field : List Char)
deriving DecidableEq, Repr

deriving instance DecidableEq for Except

/-- The line `<coordinates>`. -/
def openTag : List Char := "<coordinates>".toList

/-- The line `</coordinates>`. -/
def closeTag : List Char := "</coordinates>".toList

/-- The element access `parts[i]`; reading past the end is a failure. -/
def partAt (parts : List (List Char)) (i : Nat) : Except ReadError (List Char) :=
  match parts.get? i with
  | some p => .ok p
  | none => .error (.outOfRange i)

/-- The call `std::stof(field)`: `stof` is the library function, `none`
standing for a thrown exception. -/
def callStof {ν : Type} (stof : List Char → Option ν) (field : List Char) :
    Except ReadError ν :=
  match stof field with
  | some v => .ok v
  | none => .error (.stofThrows field)

namespace Eq01

/-- The last four statements of the loop body of `readPoints` in `eq_01.cpp`:
the point a data line contributes. -/
def parseLine {ν : Type} [Zero ν] (stof : List Char → Option ν) (line : List Char) :
    Except ReadError (Vec3f ν) := do
  let parts := split line ','
  let x ← callStof stof (← partAt parts 0)
  let y ← callStof stof (← partAt parts 1)
  pure ⟨x, y, 0⟩

/-- The `while (std::getline(infile, line))` loop of `readPoints` in
`eq_01.cpp`, over the lines still to be read, with the current values of
`points` and `thisShape`. -/
def readLoop {ν : Type} [Zero ν] (stof : List Char → Option ν) :
    List (List Char) → List (List (Vec3f ν)) → List (Vec3f ν) →
      Except ReadError (List (List (Vec3f ν)))
  | [], points, _ => .ok points
  | line :: rest, points, thisShape =>
    if line = openTag then readLoop stof rest points thisShape
    else if line = closeTag then readLoop stof rest (points ++ [thisShape]) []
    else
      match parseLine stof line with
      | .error e => .error e
      | .ok p => readLoop stof rest points (thisShape ++ [p])

/-- `readPoints` of `eq_01.cpp` on a file holding `content`, the global
`points` holding `points` before the call; the result is `points` after it.
`std::getline(infile, line)` reads the file as `getline` with delimiter
`'\n'` reads a string stream. -/
def readPoints {ν : Type} [Zero ν] (stof : List Char → Option ν) (content : List Char)
    (points : List (List (Vec3f ν))) : Except ReadError (List (List (Vec3f ν))) :=
  readLoop stof (split content '\n') points []

end Eq01

namespace WorldMap

/-- The last four statements of the loop body of `readPoints` in
`world_map_earthquakes.cpp`. -/
def parseLine {ν : Type} [Zero ν] (stof : List Char → Option ν) (line : List Char) :
    Except ReadError (Vec3f ν) := do
  let parts := split line ','
  let x ← callStof stof (← partAt parts 0)
  let y ← callStof stof (← partAt parts 1)
  pure ⟨x, y, 0⟩

/-- The reading loop of `readPoints` in `world_map_earthquakes.cpp`. -/
def readLoop {ν : Type} [Zero ν] (stof : List Char → Option ν) :
    List (List Char) → List (List (Vec3f ν)) → List (Vec3f ν) →
      Except ReadError (List (List (Vec3f ν)))
  | [], points, _ => .ok points
  | line :: rest, points, thisShape =>
    if line = openTag then readLoop stof rest points thisShape
    else if line = closeTag then readLoop stof rest (points ++ [thisShape]) []
    else
      match parseLine stof line with
      | .error e => .error e
      | .ok p => readLoop stof rest points (thisShape ++ [p])

/-- `readPoints` of `world_map_earthquakes.cpp`: the value of `points` when
the loop is left. -/
def readPoints {ν : Type} [Zero ν] (stof : List Char → Option ν) (content : List Char)
    (points : List (List (Vec3f ν))) : Except ReadError (List (List (Vec3f ν))) :=
  readLoop stof (split content '\n') points []

end WorldMap

namespace UsMap

/-- The last five statements of the loop body of `readPoints` in `us_map.cpp`:
a data line holds a trio `x,y,z`. -/
def parseLine {ν : Type} (stof : List Char → Option ν) (line : List Char) :
    Except ReadError (Vec3f ν) := do
  let parts := split line ','
  let x ← callStof stof (← partAt parts 0)
  let y ← callStof stof (← partAt parts 1)
  let z ← callStof stof (← partAt parts 2)
  pure ⟨x, y, z⟩

/-- The reading loop of `readPoints` in `us_map.cpp`. -/
def readLoop {ν : Type} (stof : List Char → Option ν) :
    List (List Char) → List (List (Vec3f ν)) → List (Vec3f ν) →
      Except ReadError (List (List (Vec3f ν)))
  | [], points, _ => .ok points
  | line :: rest, points, thisShape =>
    if line = openTag then readLoop stof rest points thisShape
    else if line = closeTag then readLoop stof rest (points ++ [thisShape]) []
    else
      match parseLine stof line with
      | .error e => .error e
      | .ok p => readLoop stof rest points (thisShape ++ [p])

/-- `readPoints` of `us_map.cpp`: the value of `points` when the loop is
left. -/
def readPoints {ν : Type} (stof : List Char → Option ν) (content : List Char)
    (points : List (List (Vec3f ν))) : Except ReadError (List (List (Vec3f ν))) :=
  readLoop stof (split content '\n') points []

end UsMap

/-! ### The input format of `readPoints` -/

/-- A data line `x,y`: the texts of its two fields and the numbers they
hold. -/
structure PairLine (ν : Type) where
  xText : List Char
  yText : List Char
  x : ν
  y : ν

/-- The text of a data line: the two fields with a comma between them. -/
def PairLine.text {ν : Type} (p : PairLine ν) : List Char :=
  p.xText ++ ',' :: p.yText

/-- The field `text` holds the number `v`: it is not empty, has no comma and
no line break in it, and `std::stof` reads `v` from it. -/
def HoldsNumber {ν : Type} (stof : List Char → Option ν) (text : List Char) (v : ν) : Prop :=
  text ≠ [] ∧ ',' ∉ text ∧ '\n' ∉ text ∧ stof text = some v

/-- A data line of two numbers. -/
def PairLine.WellFormed {ν : Type} (stof : List Char → Option ν) (p : PairLine ν) : Prop :=
  HoldsNumber stof p.xText p.x ∧ HoldsNumber stof p.yText p.y

instance {ν : Type} [DecidableEq ν] (stof : List Char → Option ν) (text : List Char) (v : ν) :
    Decidable (HoldsNumber stof text v) := by
  unfold HoldsNumber; infer_instance

instance {ν : Type} [DecidableEq ν] (stof : List Char → Option ν) (p : PairLine ν) :
    Decidable (p.WellFormed stof) := by
  unfold PairLine.WellFormed; infer_instance

/-- The lines of one block: `<coordinates>`, the data lines, `</coordinates>`. -/
def blockLines {ν : Type} (b : List (PairLine ν)) : List (List Char) :=
  openTag :: (b.map PairLine.text ++ [closeTag])

/-- The lines of a file made of the given blocks, in order. -/
def blocksLines {ν : Type} : List (List (PairLine ν)) → List (List Char)
  | [] => []
  | b :: bs => blockLines b ++ blocksLines bs

/-- The shape a block stands for: its points in line order, as `(x, y, 0)`. -/
def blockShape {ν : Type} [Zero ν] (b : List (PairLine ν)) : List (Vec3f ν) :=
  b.map fun p => ⟨p.x, p.y, 0⟩

/-- The content of a file whose lines are each ended by a line break. -/
def fileText : List (List Char) → List Char
  | [] => []
  | line :: rest => line ++ '\n' :: fileText rest

/-- The content of a file whose last line is not ended by a line break. -/
def fileTextNoEol : List (List Char) → List Char
  | [] => []
  | [line] => line
  | line :: rest => line ++ '\n' :: fileTextNoEol rest

/-- The content of a file with the given lines, its last line ended by a line
break or not. -/
def fileOf (finalEol : Bool) (lines : List (List Char)) : List Char :=
  if finalEol then fileText lines else fileTextNoEol lines

/-- The line splits on `','` into at least `n` fields and `std::stof` accepts
each of the first `n`, the fields `readPoints` converts. -/
def FieldsAccepted {ν : Type} (stof : List Char → Option ν) (n : Nat) (line : List Char) : Prop :=
  n ≤ (split line ',').length ∧ ∀ f ∈ (split line ',').take n, (stof f).isSome = true

/-- A sample `stof` for concrete runs: it accepts the non-empty strings of
decimal digits and returns the number they write. -/
def digitsStof (s : List Char) : Option Nat :=
  if s ≠ [] ∧ s.all Char.isDigit then
    some (s.foldl (fun n c => 10 * n + (c.toNat - '0'.toNat)) 0)
  else none

/-! ## Keyboard handlers -/

/-- A `float` value, kept as the expression the program computes it by. -/
inductive FloatExpr where
  | lit (q : ℚ)
  | ofInt (n : Int)
  | var (name : String)
  | add (a b : FloatExpr)
  | sub (a b : FloatExpr)
  | mul (a b : FloatExpr)
  | div (a b : FloatExpr)
  | pow (a b : FloatExpr)
  | tanh (a : FloatExpr)
deriving DecidableEq, Repr

/-- The expression `::pow(2.f, (midiNote - 69.f) / 12.f) * 432.f` of the key
and MIDI handlers. -/
def noteFrequency (midiNote : Int) : FloatExpr :=
  .mul (.pow (.lit 2) (.div (.sub (.ofInt midiNote) (.lit 69)) (.lit 12))) (.lit 432)

/-- The calls a key handler makes on the synth manager, its voice and the
standard output, in the order made. -/
inductive Call where
  | setInternalParameterValue (name : String) (value : FloatExpr)
  | triggerOn (midiNote : Int)
  | triggerOff (midiNote : Int)
  | recallPreset (presetNumber : Int)
  | playSequenceA
  | playSequenceB
  | print (text : String)
deriving DecidableEq, Repr

/-- The part of `Keyboard` the handlers read: `k.key()` and `k.shift()`. -/
structure Keyboard where
  key : Int
  shift : Bool
deriving DecidableEq, Repr

/-- What a handler returns and the calls it made. -/
structure Handled where
  ret : Bool
  calls : List Call
deriving DecidableEq, Repr

/-- The calls trigger a voice. -/
def TriggersVoice (calls : List Call) : Prop :=
  ∃ midiNote, Call.triggerOn midiNote ∈ calls

/-- The calls trigger note `n` after setting the parameter `name` to the
frequency of note `n`. -/
def SetsThenTriggers (name : String) (n : Int) (calls : List Call) : Prop :=
  ∃ before after, calls = before ++ Call.triggerOn n :: after ∧
    Call.setInternalParameterValue name (noteFrequency n) ∈ before

/-- A sample key map for concrete runs: the letters `a` to `z` give the notes
60 to 85, every other key gives 0.  (The table of the library function
`asciiToMIDI` is not part of the repository.) -/
def sampleAsciiToMIDI (key : Int) : Int :=
  if 97 ≤ key ∧ key ≤ 122 then key - 37 else 0

/-- A sample preset map for concrete runs: the digits `0` to `9` give their
value, every other key gives 0. -/
def sampleAsciiToIndex (key : Int) : Int :=
  if 48 ≤ key ∧ key ≤ 57 then key - 48 else 0

namespace Eq01

/-- `MyApp::onKeyDown` of `eq_01.cpp`; `usingKeyboard` is the value of
`ParameterGUI::usingKeyboard()`. -/
def onKeyDown (asciiToMIDI asciiToIndex : Int → Int) (usingKeyboard : Bool) (k : Keyboard) :
    Handled :=
  if usingKeyboard then ⟨true, []⟩
  else if k.shift then
    let presetNumber := asciiToIndex k.key
    ⟨true, [.recallPreset presetNumber]⟩
  else
    let midiNote := asciiToMIDI k.key
    if midiNote > 0 then
      ⟨true, [.setInternalParameterValue "frequency" (noteFrequency midiNote),
        .triggerOn midiNote]⟩
    else ⟨true, []⟩

/-- `MyApp::onKeyUp` of `eq_01.cpp`. -/
def onKeyUp (asciiToMIDI : Int → Int) (k : Keyboard) : Handled :=
  let midiNote := asciiToMIDI k.key
  if midiNote > 0 then ⟨true, [.triggerOff midiNote]⟩ else ⟨true, []⟩

end Eq01

namespace SineEnvXY

/-- `MyApp::onKeyDown` of `01_SineEnv-xy.cpp`. -/
def onKeyDown (asciiToMIDI asciiToIndex : Int → Int) (usingKeyboard : Bool) (k : Keyboard) :
    Handled :=
  if usingKeyboard then ⟨true, []⟩
  else if k.shift then
    let presetNumber := asciiToIndex k.key
    ⟨true, [.recallPreset presetNumber]⟩
  else
    let midiNote := asciiToMIDI k.key
    if midiNote > 0 then
      ⟨true, [.setInternalParameterValue "frequency" (noteFrequency midiNote),
        .triggerOn midiNote]⟩
    else ⟨true, []⟩

/-- `MyApp::onKeyUp` of `01_SineEnv-xy.cpp`. -/
def onKeyUp (asciiToMIDI : Int → Int) (k : Keyboard) : Handled :=
  let midiNote := asciiToMIDI k.key
  if midiNote > 0 then ⟨true, [.triggerOff midiNote]⟩ else ⟨true, []⟩

end SineEnvXY

namespace SinePlay

/-- `MyApp::onKeyDown` of `002_SinePlay.cpp`; `playSequenceA()` and
`playSequenceB()` are recorded as one call each. -/
def onKeyDown (usingKeyboard : Bool) (k : Keyboard) : Handled :=
  if usingKeyboard then ⟨true, []⟩
  else if k.key = 'a'.toNat then ⟨false, [.print "a pressed!\n", .playSequenceA]⟩
  else if k.key = 'b'.toNat then ⟨false, [.print "b pressed!\n", .playSequenceB]⟩
  else ⟨true, []⟩

/-- `MyApp::onKeyUp` of `002_SinePlay.cpp`. -/
def onKeyUp (asciiToMIDI : Int → Int) (k : Keyboard) : Handled :=
  let midiNote := asciiToMIDI k.key
  if midiNote > 0 then ⟨true, [.triggerOff midiNote]⟩ else ⟨true, []⟩

end SinePlay

namespace FMVib

/-- The members of `MyApp` in `04_FMVib_wavetable_visual_HELP.cpp` that the key
handlers read or write; `mtable` is `fmwt.mtable`. -/
structure MyApp where
  showGUI : Bool
  showSpectro : Bool
  navi : Bool
  tscale : FloatExpr
  mtable : Int
deriving DecidableEq, Repr

/-- The members as their initialisers leave them (`fmwt.mtable` has none; 0 is
taken). -/
def MyApp.initial : MyApp :=
  ⟨true, true, false, .lit 1, 0⟩

/-- The first part of `MyApp::onKeyDown`, `if (!navi) { ... }`: preset recall
or note trigger. -/
def noteCalls (asciiToMIDI asciiToIndex : Int → Int) (k : Keyboard) (app : MyApp) : List Call :=
  if !app.navi then
    if k.shift then
      let presetNumber := asciiToIndex k.key
      [.recallPreset presetNumber]
    else
      let midiNote := asciiToMIDI k.key - 12
      if midiNote > 0 then
        [.setInternalParameterValue "freq" (noteFrequency midiNote),
          .setInternalParameterValue "table" (.ofInt app.mtable),
          .triggerOn midiNote]
      else []
  else []

/-- The second part of `MyApp::onKeyDown`, `switch (k.key()) { ... }`. -/
def switchKey (key : Int) (app : MyApp) : MyApp :=
  if key = ']'.toNat then { app with showGUI := !app.showGUI }
  else if key = '['.toNat then { app with showSpectro := !app.showSpectro }
  else if key = '-'.toNat then { app with tscale := .sub app.tscale (.lit 0.1) }
  else if key = '+'.toNat then { app with tscale := .add app.tscale (.lit 0.1) }
  else if key = '='.toNat then { app with navi := !app.navi }
  else app

/-- `MyApp::onKeyDown` of `04_FMVib_wavetable_visual_HELP.cpp`: what it returns
and calls, and the members after it. -/
def onKeyDown (asciiToMIDI asciiToIndex : Int → Int) (usingKeyboard : Bool) (k : Keyboard)
    (app : MyApp) : Handled × MyApp :=
  if usingKeyboard then (⟨true, []⟩, app)
  else (⟨true, noteCalls asciiToMIDI asciiToIndex k app⟩, switchKey k.key app)

/-- `MyApp::onKeyUp` of `04_FMVib_wavetable_visual_HELP.cpp`. -/
def onKeyUp (asciiToMIDI : Int → Int) (k : Keyboard) : Handled :=
  let midiNote := asciiToMIDI k.key - 12
  if midiNote > 0 then ⟨true, [.triggerOff midiNote]⟩ else ⟨true, []⟩

end FMVib

/-! ## Voice parameters -/

/-- One call `createInternalTriggerParameter(name, default, min, max)`. -/
structure ParamDecl where
  name : String
  defaultValue : ℚ
  min : ℚ
  max : ℚ
deriving DecidableEq, Repr

/-- The range is well formed: `min < max` and `min <= default <= max`. -/
def ParamDecl.WellFormed (p : ParamDecl) : Prop :=
  p.min < p.max ∧ p.min ≤ p.defaultValue ∧ p.defaultValue ≤ p.max

/-- The parameters `SineWav::init` declares in `002_SinePlay.cpp`, in order. -/
def SinePlay.SineWav.parameters : List ParamDecl :=
  [⟨"frequency", 440, 20, 5000⟩,
   ⟨"amplitude", 0.8, 0.0, 1.0⟩,
   ⟨"attackTime", 0.05, 0.01, 3.0⟩,
   ⟨"decayTime", 0.05, 0.01, 3.0⟩,
   ⟨"releaseTime", 0.5, 0.1, 10.0⟩,
   ⟨"pan", 0.0, -1.0, 1.0⟩,
   ⟨"startPitch", 220.0, 10.0, 4000.0⟩]

/-- The parameters `SineEnv::init` declares in `eq_01.cpp`, in order. -/
def Eq01.SineEnv.parameters : List ParamDecl :=
  [⟨"amplitude", 0.3, 0.0, 1.0⟩,
   ⟨"frequency", 60, 20, 5000⟩,
   ⟨"attackTime", 1.0, 0.01, 3.0⟩,
   ⟨"releaseTime", 3.0, 0.1, 10.0⟩,
   ⟨"pan", 0.0, -1.0, 1.0⟩,
   ⟨"x", 0.0, -180.0, 180.0⟩,
   ⟨"y", 0.0, -90.0, 90.0⟩]

/-- The parameters `SineEnv::init` declares in `world_map_earthquakes.cpp`. -/
def WorldMap.SineEnv.parameters : List ParamDecl :=
  [⟨"amplitude", 0.3, 0.0, 1.0⟩,
   ⟨"frequency", 60, 20, 5000⟩,
   ⟨"attackTime", 1.0, 0.01, 3.0⟩,
   ⟨"releaseTime", 3.0, 0.1, 10.0⟩,
   ⟨"pan", 0.0, -1.0, 1.0⟩,
   ⟨"x", 0.0, -180, 180.0⟩,
   ⟨"y", 0.0, -90.0, 90.0⟩]

/-- The parameters `SineEnv::init` declares in `01_SineEnv-xy.cpp`. -/
def SineEnvXY.SineEnv.parameters : List ParamDecl :=
  [⟨"amplitude", 0.3, 0.0, 1.0⟩,
   ⟨"frequency", 60, 20, 5000⟩,
   ⟨"attackTime", 1.0, 0.01, 3.0⟩,
   ⟨"releaseTime", 3.0, 0.1, 10.0⟩,
   ⟨"pan", 0.0, -1.0, 1.0⟩,
   ⟨"x", 0.0, -100, 100.0⟩,
   ⟨"y", 0.0, -100.0, 100.0⟩]

/-- The parameters `FMWT::init` declares in
`04_FMVib_wavetable_visual_HELP.cpp`, in order. -/
def FMVib.FMWT.parameters : List ParamDecl :=
  [⟨"freq", 440, 10, 4000.0⟩,
   ⟨"amplitude", 0.1, 0.0, 1.0⟩,
   ⟨"attackTime", 0.1, 0.01, 3.0⟩,
   ⟨"releaseTime", 0.3, 0.1, 10.0⟩,
   ⟨"sustain", 0.65, 0.1, 1.0⟩,
   ⟨"idx1", 0.01, 0.0, 10.0⟩,
   ⟨"idx2", 7, 0.0, 10.0⟩,
   ⟨"idx3", 5, 0.0, 10.0⟩,
   ⟨"carMul", 1, 0.0, 20.0⟩,
   ⟨"modMul", 1.0007, 0.0, 20.0⟩,
   ⟨"vibRate1", 0.01, 0.0, 10.0⟩,
   ⟨"vibRate2", 0.5, 0.0, 10.0⟩,
   ⟨"vibRise", 0, 0.0, 10.0⟩,
   ⟨"vibDepth", 0, 0.0, 10.0⟩,
   ⟨"pan", 0.0, -1.0, 1.0⟩,
   ⟨"table", 0, 0, 8⟩]

instance (p : ParamDecl) : Decidable p.WellFormed := by
  unfold ParamDecl.WellFormed; infer_instance

/-- Every declared range is well formed and no name is declared twice. -/
def ParamsWellFormed (ps : List ParamDecl) : Prop :=
  (∀ p ∈ ps, p.WellFormed) ∧ (ps.map fun p => p.name).Nodup

/-- The declaration of the parameter `name`, the first if several. -/
def findParam (ps : List ParamDecl) (name : String) : Option ParamDecl :=
  ps.find? fun p => p.name == name

/-! ## The FM tutorial: start-up, wavetables, spectrum -/

/-- The conversion of a `float` to `int`: the fractional part is dropped
(the quotient of numerator by denominator, rounded toward zero). -/
def toInt (v : ℚ) : Int :=
  v.num.tdiv v.den

namespace FMVib

/-- The macro `FFT_SIZE`. -/
def FFT_SIZE : Nat := 4048

/-- The nine global wavetables. -/
inductive Wavetable where
  | tbSaw | tbSqr | tbImp | tbSin | tbPls | tb__1 | tb__2 | tb__3 | tb__4
deriving DecidableEq, Repr

/-- The wavetables in the order of their declaration. -/
def wavetables : List Wavetable :=
  [.tbSaw, .tbSqr, .tbImp, .tbSin, .tbPls, .tb__1, .tb__2, .tb__3, .tb__4]

/-- `FMWT::numb_waveform`. -/
def FMWT.numb_waveform : Nat := 9

/-- `FMWT::updateWaveform`: `table` is the value of the parameter `table`,
`source` the table the carrier reads before the call (`none` when it is none
of the nine); the result is the table it reads after the call. -/
def FMWT.updateWaveform (table : ℚ) (source : Option Wavetable) : Option Wavetable :=
  let n := toInt table
  if n = 0 then some .tbSaw
  else if n = 1 then some .tbSqr
  else if n = 2 then some .tbImp
  else if n = 3 then some .tbSin
  else if n = 4 then some .tbPls
  else if n = 5 then some .tb__1
  else if n = 6 then some .tb__2
  else if n = 7 then some .tb__3
  else if n = 8 then some .tb__4
  else source

/-- The index `shape` of `FMWT::onProcess(Graphics&)`:
`int shape = getInternalParameterValue("table")`. -/
def FMWT.shape (table : ℚ) : Int :=
  toInt table

/-- The element `mMesh[shape]` drawn by `FMWT::onProcess(Graphics&)`, `none`
when the index is outside the array. -/
def FMWT.drawnMesh {μ : Type} (mMesh : List μ) (table : ℚ) : Option μ :=
  if 0 ≤ FMWT.shape table then mMesh.get? (FMWT.shape table).toNat else none

/-- The calls `MyApp::onInit` makes, in the order made. -/
inductive InitCall where
  | imguiInit
  | navControlActive (active : Bool)
  | sampleRate
  | bindTo
  | openPort (port : Nat)
  | printf (text : String)
deriving DecidableEq, Repr

/-- `spectrum.resize(n)`: the first `n` entries are kept, zeros are appended
up to `n` entries. -/
def resize (n : Nat) (spectrum : List FloatExpr) : List FloatExpr :=
  spectrum.take n ++ List.replicate (n - spectrum.length) (.lit 0)

/-- `MyApp::onInit`: `getPortCount` is the value of `midiIn.getPortCount()`
(an `unsigned int`), `getPortName` the function `midiIn.getPortName`,
`spectrum` the vector before the call; the result is the calls made and
`spectrum` after it.  `getPortCount() - 1` is computed in `unsigned int`. -/
def onInit (getPortCount : Nat) (getPortName : Nat → String) (spectrum : List FloatExpr) :
    List InitCall × List FloatExpr :=
  let midi : List InitCall :=
    if getPortCount > 0 then
      let port := (getPortCount + 2 ^ 32 - 1) % 2 ^ 32
      [.bindTo, .openPort port, .printf ("Opened port to " ++ getPortName port ++ "\n")]
    else [.printf "Error: No MIDI devices found.\n"]
  ([.imguiInit, .navControlActive false, .sampleRate] ++ midi,
    resize (FFT_SIZE / 2 + 1) spectrum)

/-- The vertices and colours of a `Mesh`; a colour `HSV(h)` is kept as `h`. -/
structure Mesh where
  vertices : List (Vec3f FloatExpr)
  colors : List FloatExpr
deriving DecidableEq, Repr

/-- `Mesh::reset()`: every buffer of the mesh is emptied. -/
def Mesh.reset (_ : Mesh) : Mesh :=
  ⟨[], []⟩

/-- The loop `for (int i = 0; i < FFT_SIZE / 2; i++)` of `MyApp::onDraw`, from
index `i` for `count` more iterations; `none` when `spectrum[i]` is read past
the end of `spectrum`. -/
def spectrogramLoop (spectrum : List FloatExpr) : Nat → Nat → Mesh → Option Mesh
  | 0, _, m => some m
  | count + 1, i, m =>
    match spectrum.get? i with
    | none => none
    | some v =>
      spectrogramLoop spectrum count (i + 1)
        ⟨m.vertices ++ [⟨.ofInt i, v, .lit 0.0⟩],
          m.colors ++ [.sub (.lit 0.5) (.mul v (.lit 100))]⟩

/-- The spectrum part of `MyApp::onDraw`: the mesh `mSpectrogram` after the
call. -/
def onDraw (showSpectro : Bool) (spectrum : List FloatExpr) (mSpectrogram : Mesh) :
    Option Mesh :=
  let m := mSpectrogram.reset
  if showSpectro then spectrogramLoop spectrum (FFT_SIZE / 2) 0 m else some m

/-- The loop `for (unsigned k = 0; k < stft.numBins(); ++k)` of
`MyApp::onSound`, from index `k` for `count` more iterations; `binReal k` is
`stft.bin(k).real()`; `none` when `spectrum[k]` is written past the end. -/
def binsLoop (binReal : Nat → FloatExpr) : Nat → Nat → List FloatExpr → Option (List FloatExpr)
  | 0, _, spectrum => some spectrum
  | count + 1, k, spectrum =>
    if k < spectrum.length then
      binsLoop binReal count (k + 1) (spectrum.set k (.tanh (.pow (binReal k) (.lit 1.3))))
    else none

/-- The body of `if (stft(io.out(0)))` in `MyApp::onSound`: `spectrum` after
one pass over the bins. -/
def onSoundBins (numBins : Nat) (binReal : Nat → FloatExpr) (spectrum : List FloatExpr) :
    Option (List FloatExpr) :=
  binsLoop binReal numBins 0 spectrum

end FMVib

/-- Successive calls of `MyApp::onDraw` in the FM tutorial, one entry per
frame: the value of `showSpectro` and the content of `spectrum` at that frame;
the result is `mSpectrogram` after the last frame. -/
def FMVib.onDrawFrames : List (Bool × List FloatExpr) → FMVib.Mesh → Option FMVib.Mesh
  | [], m => some m
  | (showSpectro, spectrum) :: rest, m =>
    match FMVib.onDraw showSpectro spectrum m with
    | none => none
    | some m2 => FMVib.onDrawFrames rest m2

/-! ### The three copies of `split`, and files of trios -/

/-- `split` as `eq_01.cpp` defines it. -/
def Eq01.split (s : List Char) (delim : Char) : List (List Char) :=
  splitLoop delim (s.length + 1) s

/-- `split` as `world_map_earthquakes.cpp` defines it. -/
def WorldMap.split (s : List Char) (delim : Char) : List (List Char) :=
  splitLoop delim (s.length + 1) s

/-- `split` as `us_map.cpp` defines it. -/
def UsMap.split (s : List Char) (delim : Char) : List (List Char) :=
  splitLoop delim (s.length + 1) s

/-- A data line `x,y,z`: the texts of its three fields and the numbers they
hold. -/
structure TrioLine (ν : Type) where
  xText : List Char
  yText : List Char
  zText : List Char
  x : ν
  y : ν
  z : ν

/-- The text of a data line of three fields. -/
def TrioLine.text {ν : Type} (t : TrioLine ν) : List Char :=
  t.xText ++ ',' :: (t.yText ++ ',' :: t.zText)

/-- A data line of three numbers. -/
def TrioLine.WellFormed {ν : Type} (stof : List Char → Option ν) (t : TrioLine ν) : Prop :=
  HoldsNumber stof t.xText t.x ∧ HoldsNumber stof t.yText t.y ∧ HoldsNumber stof t.zText t.z

instance {ν : Type} [DecidableEq ν] (stof : List Char → Option ν) (t : TrioLine ν) :
    Decidable (t.WellFormed stof) := by
  unfold TrioLine.WellFormed; infer_instance

/-- Every line of the file other than `<coordinates>` and `</coordinates>`
holds a trio `x,y,z` of numbers. -/
def HoldsTrios {ν : Type} (stof : List Char → Option ν) (lines : List (List Char)) : Prop :=
  ∀ line ∈ lines, line ≠ openTag → line ≠ closeTag →
    ∃ t : TrioLine ν, t.WellFormed stof ∧ line = t.text

/-- The point with the same `x` and `y`, and 0 for `z`. -/
def Vec3f.withZeroZ {ν : Type} [Zero ν] (p : Vec3f ν) : Vec3f ν :=
  ⟨p.x, p.y, 0⟩

/-! ### The envelopes of the FM voice -/

/-- Modelled from the spec: `gam::ADSR` belongs to the Gamma library, which is
not part of the repository; it is an envelope of three segments (attack,
decay, release), so `lengths()` has three elements. -/
def FMVib.ADSR.numLengths : Nat := 3

/-- Modelled from the spec: `gam::ADSR` has four levels, so `levels()` has four
elements. -/
def FMVib.ADSR.numLevels : Nat := 4

/-- The three envelopes of `FMWT`. -/
inductive FMVib.Envelope where
  | mAmpEnv | mModEnv | mVibEnv
deriving DecidableEq, Repr

/-- The statements of `FMWT::updateFromParameters`: an assignment
`env.lengths()[index] = value` or `env.levels()[index] = value`, or a call of a
setter. -/
inductive FMVib.UpdateStep where
  | setLength (env : FMVib.Envelope) (index : Nat) (value : FloatExpr)
  | setLevel (env : FMVib.Envelope) (index : Nat) (value : FloatExpr)
  | attack (env : FMVib.Envelope) (value : FloatExpr)
  | release (env : FMVib.Envelope) (value : FloatExpr)
  | sustain (env : FMVib.Envelope) (value : FloatExpr)
  | levels (env : FMVib.Envelope) (a b c d : FloatExpr)
  | setVibDepth (value : FloatExpr)
  | panPos (value : FloatExpr)
deriving DecidableEq, Repr

/-- The element written is inside its array: a `lengths()` index is below the
number of segments, a `levels()` index below the number of levels. -/
def FMVib.UpdateStep.InRange : FMVib.UpdateStep → Prop
  | .setLength _ index _ => index < FMVib.ADSR.numLengths
  | .setLevel _ index _ => index < FMVib.ADSR.numLevels
  | _ => True

instance (s : FMVib.UpdateStep) : Decidable s.InRange := by
  cases s <;> unfold FMVib.UpdateStep.InRange <;> infer_instance

/-- `FMWT::updateFromParameters`: its statements in order,
`getInternalParameterValue` giving the value of each parameter. -/
def FMVib.FMWT.updateFromParameters (getInternalParameterValue : String → FloatExpr) :
    List FMVib.UpdateStep :=
  [.setLevel .mModEnv 0 (getInternalParameterValue "idx1"),
   .setLevel .mModEnv 1 (getInternalParameterValue "idx2"),
   .setLevel .mModEnv 2 (getInternalParameterValue "idx2"),
   .setLevel .mModEnv 3 (getInternalParameterValue "idx3"),
   .attack .mAmpEnv (getInternalParameterValue "attackTime"),
   .release .mAmpEnv (getInternalParameterValue "releaseTime"),
   .sustain .mAmpEnv (getInternalParameterValue "sustain"),
   .setLength .mModEnv 0 (getInternalParameterValue "attackTime"),
   .setLength .mModEnv 3 (getInternalParameterValue "releaseTime"),
   .levels .mVibEnv (getInternalParameterValue "vibRate1") (getInternalParameterValue "vibRate2")
     (getInternalParameterValue "vibRate2") (getInternalParameterValue "vibRate1"),
   .setLength .mVibEnv 0 (getInternalParameterValue "vibRise"),
   .setLength .mVibEnv 1 (getInternalParameterValue "vibRise"),
   .setLength .mVibEnv 3 (getInternalParameterValue "vibRise"),
   .setVibDepth (getInternalParameterValue "vibDepth"),
   .panPos (getInternalParameterValue "pan")]

/-- The statements of `SineEnv::onProcess(AudioIOData&)` in `eq_01.cpp` that
write the envelope `gam::Env<3> mAmpEnv`: attack is segment 0, release is
segment 2. -/
def Eq01.SineEnv.envelopeWrites (getInternalParameterValue : String → FloatExpr) :
    List FMVib.UpdateStep :=
  [.setLength .mAmpEnv 0 (getInternalParameterValue "attackTime"),
   .setLength .mAmpEnv 2 (getInternalParameterValue "releaseTime")]

/-! ## Axes (exact arithmetic: a `float` is a rational number) -/

/-- The loop `for (float v = start; cond(v); v = next(v)) body(v);` run from
the value `v` in the state `s`, for at most `fuel` tests of the condition;
`none` when the fuel runs out before the condition fails. -/
def forLoop {σ : Type} (cond : ℚ → Bool) (next : ℚ → ℚ) (body : ℚ → σ → σ) :
    Nat → ℚ → σ → Option σ
  | 0, _, _ => none
  | fuel + 1, v, s =>
    if cond v then forLoop cond next body fuel (next v) (body v s) else some s

/-- The number of times the loop `for (float v = 0; cond(v); v = next(v))` runs
its body, `none` when the fuel runs out first. -/
def loopIterations (cond : ℚ → Bool) (next : ℚ → ℚ) (fuel : Nat) : Option Nat :=
  forLoop cond next (fun _ count => count + 1) fuel 0 0

/-- A piece of the text a label is written from: a string, or a number put
through `std::fixed` with precision 1. -/
inductive TextPiece where
  | str (s : String)
  | num (v : ℚ)
deriving DecidableEq, Repr

/-- The alignment set on the font renderer. -/
inductive Align where
  | center
  | left
deriving DecidableEq, Repr

/-- The calls made on the graphics context and the font renderer; a label is
one call, with the alignment, text and size it was written with and the
position it is rendered at; `draw` holds the vertices of the mesh drawn. -/
inductive GCall where
  | clear
  | cameraIdentity
  | scale (x y z : ℚ)
  | color (r g b : ℚ)
  | renderAt (align : Align) (text : List TextPiece) (fontSize : ℚ) (position : Vec3f ℚ)
  | draw (vertices : List (Vec3f ℚ))
deriving DecidableEq, Repr

/-- The axis meshes of `MyApp` (their vertices, in order) and the calls made
so far. -/
structure AxisApp where
  xAxis : List (Vec3f ℚ)
  yAxis : List (Vec3f ℚ)
  zAxis : List (Vec3f ℚ)
  calls : List GCall
deriving DecidableEq, Repr

/-- The application as constructed: empty meshes, no call made. -/
def AxisApp.initial : AxisApp :=
  ⟨[], [], [], []⟩

namespace UsMap

/-- `MyApp::drawLabelX` of `us_map.cpp`. -/
def drawLabelX (x labelOffset fontSize : ℚ) (app : AxisApp) : AxisApp :=
  { app with calls := app.calls ++
      [.renderAt .center [.str "x=", .num x] fontSize ⟨x, labelOffset, 0.0⟩] }

/-- `MyApp::drawLabelY` of `us_map.cpp`. -/
def drawLabelY (y labelOffset fontSize : ℚ) (app : AxisApp) : AxisApp :=
  { app with calls := app.calls ++
      [.renderAt .left [.str "y=", .num y] fontSize ⟨labelOffset, y - fontSize * 0.2, 0.0⟩] }

/-- The body of the two tick loops of `drawXAxis` in `us_map.cpp`. -/
def xTickBody (tickSize labelOffset fontSize x : ℚ) (app : AxisApp) : AxisApp :=
  drawLabelX x labelOffset fontSize
    { app with xAxis := app.xAxis ++
        [⟨x, 0, 0⟩, ⟨x, tickSize, 0⟩, ⟨x, -tickSize, 0⟩, ⟨x, 0, 0⟩] }

/-- The body of the two tick loops of `drawYAxis` in `us_map.cpp`. -/
def yTickBody (tickSize labelOffset fontSize y : ℚ) (app : AxisApp) : AxisApp :=
  drawLabelY y labelOffset fontSize
    { app with
      yAxis := app.yAxis ++ [⟨0, y, 0⟩, ⟨tickSize, y, 0⟩, ⟨-tickSize, y, 0⟩, ⟨0, y, 0⟩]
      calls := app.calls ++ [.color 1 1 1] }

/-- `MyApp::drawXAxis` of `us_map.cpp`, each loop run with the given fuel. -/
def drawXAxis (fuel : Nat) (minX maxX tickIncrement tickSize labelOffset fontSize : ℚ)
    (app : AxisApp) : Option AxisApp :=
  let app1 := { app with xAxis := app.xAxis ++ [⟨minX, 0, 0⟩, ⟨maxX, 0, 0⟩] }
  match forLoop (fun x => decide (x < maxX)) (fun x => x + tickIncrement)
      (xTickBody tickSize labelOffset fontSize) fuel 0 app1 with
  | none => none
  | some app2 =>
    match forLoop (fun x => decide (x ≥ minX)) (fun x => x - tickIncrement)
        (xTickBody tickSize labelOffset fontSize) fuel 0 app2 with
    | none => none
    | some app3 => some { app3 with calls := app3.calls ++ [.color 1 1 0, .draw app3.xAxis] }

/-- `MyApp::drawYAxis` of `us_map.cpp`, each loop run with the given fuel. -/
def drawYAxis (fuel : Nat) (minY maxY tickIncrement tickSize labelOffset fontSize : ℚ)
    (app : AxisApp) : Option AxisApp :=
  let app1 := { app with yAxis := app.yAxis ++ [⟨0, minY, 0⟩, ⟨0, maxY, 0⟩] }
  match forLoop (fun y => decide (y ≤ maxY)) (fun y => y + tickIncrement)
      (yTickBody tickSize labelOffset fontSize) fuel 0 app1 with
  | none => none
  | some app2 =>
    match forLoop (fun y => decide (y ≥ minY)) (fun y => y - tickIncrement)
        (yTickBody tickSize labelOffset fontSize) fuel 0 app2 with
    | none => none
    | some app3 => some { app3 with calls := app3.calls ++ [.color 0 1 1, .draw app3.yAxis] }

/-- `MyApp::drawUnitedStates` of `us_map.cpp`: one local mesh drawn per shape
of the global `points`. -/
def drawUnitedStates (points : List (List (Vec3f ℚ))) (app : AxisApp) : AxisApp :=
  points.foldl (fun a shape => { a with calls := a.calls ++ [.color 1 1 1, .draw shape] }) app

/-- `MyApp::onDraw` of `us_map.cpp`. -/
def onDraw (fuel : Nat) (points : List (List (Vec3f ℚ))) (app : AxisApp) : Option AxisApp :=
  let app1 := { app with calls := app.calls ++
    [.clear, .cameraIdentity, .scale (1.0 / 180.0) (1.0 / 90.0) 1.0] }
  match drawYAxis fuel (-90) 90 30.0 5.0 5.0 10.0 app1 with
  | none => none
  | some app2 =>
    match drawXAxis fuel (-180) 180 30.0 5.0 5.0 10.0 app2 with
    | none => none
    | some app3 => some (drawUnitedStates points app3)

/-- The first `n` calls of `MyApp::onDraw` of `us_map.cpp`, one per frame. -/
def onDrawFrames (fuel : Nat) (points : List (List (Vec3f ℚ))) : Nat → AxisApp → Option AxisApp
  | 0, app => some app
  | n + 1, app =>
    match onDraw fuel points app with
    | none => none
    | some app2 => onDrawFrames fuel points n app2

end UsMap

namespace WorldMap

/-- `MyApp::drawLabelX` of `world_map_earthquakes.cpp`. -/
def drawLabelX (x labelOffset fontSize : ℚ) (app : AxisApp) : AxisApp :=
  { app with calls := app.calls ++
      [.renderAt .center [.str "x=", .num x] fontSize ⟨x, labelOffset, 0.0⟩] }

/-- `MyApp::drawLabelY` of `world_map_earthquakes.cpp`. -/
def drawLabelY (y labelOffset fontSize : ℚ) (app : AxisApp) : AxisApp :=
  { app with calls := app.calls ++
      [.renderAt .left [.str "y=", .num y] fontSize ⟨labelOffset, y - fontSize * 0.2, 0.0⟩] }

/-- The body of the two tick loops of `drawXAxis` in `world_map_earthquakes.cpp`. -/
def xTickBody (tickSize labelOffset fontSize x : ℚ) (app : AxisApp) : AxisApp :=
  drawLabelX x labelOffset fontSize
    { app with xAxis := app.xAxis ++
        [⟨x, 0, 0⟩, ⟨x, tickSize, 0⟩, ⟨x, -tickSize, 0⟩, ⟨x, 0, 0⟩] }

/-- The body of the two tick loops of `drawYAxis` in `world_map_earthquakes.cpp`. -/
def yTickBody (tickSize labelOffset fontSize y : ℚ) (app : AxisApp) : AxisApp :=
  drawLabelY y labelOffset fontSize
    { app with
      yAxis := app.yAxis ++ [⟨0, y, 0⟩, ⟨tickSize, y, 0⟩, ⟨-tickSize, y, 0⟩, ⟨0, y, 0⟩]
      calls := app.calls ++ [.color 1 1 1] }

/-- `MyApp::drawXAxis` of `world_map_earthquakes.cpp`, each loop run with the given fuel. -/
def drawXAxis (fuel : Nat) (minX maxX tickIncrement tickSize labelOffset fontSize : ℚ)
    (app : AxisApp) : Option AxisApp :=
  let app1 := { app with xAxis := app.xAxis ++ [⟨minX, 0, 0⟩, ⟨maxX, 0, 0⟩] }
  match forLoop (fun x => decide (x < maxX)) (fun x => x + tickIncrement)
      (xTickBody tickSize labelOffset fontSize) fuel 0 app1 with
  | none => none
  | some app2 =>
    match forLoop (fun x => decide (x ≥ minX)) (fun x => x - tickIncrement)
        (xTickBody tickSize labelOffset fontSize) fuel 0 app2 with
    | none => none
    | some app3 => some { app3 with calls := app3.calls ++ [.color 1 1 0, .draw app3.xAxis] }

/-- `MyApp::drawYAxis` of `world_map_earthquakes.cpp`, each loop run with the given fuel. -/
def drawYAxis (fuel : Nat) (minY maxY tickIncrement tickSize labelOffset fontSize : ℚ)
    (app : AxisApp) : Option AxisApp :=
  let app1 := { app with yAxis := app.yAxis ++ [⟨0, minY, 0⟩, ⟨0, maxY, 0⟩] }
  match forLoop (fun y => decide (y ≤ maxY)) (fun y => y + tickIncrement)
      (yTickBody tickSize labelOffset fontSize) fuel 0 app1 with
  | none => none
  | some app2 =>
    match forLoop (fun y => decide (y ≥ minY)) (fun y => y - tickIncrement)
        (yTickBody tickSize labelOffset fontSize) fuel 0 app2 with
    | none => none
    | some app3 => some { app3 with calls := app3.calls ++ [.color 0 1 1, .draw app3.yAxis] }

end WorldMap

namespace Eq01

/-- `MyApp::drawLabelX` of `eq_01.cpp`. -/
def drawLabelX (x labelOffset fontSize : ℚ) (app : AxisApp) : AxisApp :=
  { app with calls := app.calls ++
      [.renderAt .center [.str "x=", .num x] fontSize ⟨x, labelOffset, 0.0⟩] }

/-- `MyApp::drawLabelY` of `eq_01.cpp`. -/
def drawLabelY (y labelOffset fontSize : ℚ) (app : AxisApp) : AxisApp :=
  { app with calls := app.calls ++
      [.renderAt .left [.str "y=", .num y] fontSize ⟨labelOffset, y - fontSize * 0.2, 0.0⟩] }

/-- The body of the two tick loops of `drawXAxis` in `eq_01.cpp`. -/
def xTickBody (tickSize labelOffset fontSize x : ℚ) (app : AxisApp) : AxisApp :=
  drawLabelX x labelOffset fontSize
    { app with xAxis := app.xAxis ++
        [⟨x, 0, 0⟩, ⟨x, tickSize, 0⟩, ⟨x, -tickSize, 0⟩, ⟨x, 0, 0⟩] }

/-- The body of the two tick loops of `drawYAxis` in `eq_01.cpp`. -/
def yTickBody (tickSize labelOffset fontSize y : ℚ) (app : AxisApp) : AxisApp :=
  drawLabelY y labelOffset fontSize
    { app with
      yAxis := app.yAxis ++ [⟨0, y, 0⟩, ⟨tickSize, y, 0⟩, ⟨-tickSize, y, 0⟩, ⟨0, y, 0⟩]
      calls := app.calls ++ [.color 1 1 1] }

/-- `MyApp::drawXAxis` of `eq_01.cpp`, each loop run with the given fuel. -/
def drawXAxis (fuel : Nat) (minX maxX tickIncrement tickSize labelOffset fontSize : ℚ)
    (app : AxisApp) : Option AxisApp :=
  let app1 := { app with xAxis := app.xAxis ++ [⟨minX, 0, 0⟩, ⟨maxX, 0, 0⟩] }
  match forLoop (fun x => decide (x < maxX)) (fun x => x + tickIncrement)
      (xTickBody tickSize labelOffset fontSize) fuel 0 app1 with
  | none => none
  | some app2 =>
    match forLoop (fun x => decide (x ≥ minX)) (fun x => x - tickIncrement)
        (xTickBody tickSize labelOffset fontSize) fuel 0 app2 with
    | none => none
    | some app3 => some { app3 with calls := app3.calls ++ [.color 1 1 0, .draw app3.xAxis] }

/-- `MyApp::drawYAxis` of `eq_01.cpp`, each loop run with the given fuel. -/
def drawYAxis (fuel : Nat) (minY maxY tickIncrement tickSize labelOffset fontSize : ℚ)
    (app : AxisApp) : Option AxisApp :=
  let app1 := { app with yAxis := app.yAxis ++ [⟨0, minY, 0⟩, ⟨0, maxY, 0⟩] }
  match forLoop (fun y => decide (y ≤ maxY)) (fun y => y + tickIncrement)
      (yTickBody tickSize labelOffset fontSize) fuel 0 app1 with
  | none => none
  | some app2 =>
    match forLoop (fun y => decide (y ≥ minY)) (fun y => y - tickIncrement)
        (yTickBody tickSize labelOffset fontSize) fuel 0 app2 with
    | none => none
    | some app3 => some { app3 with calls := app3.calls ++ [.color 0 1 1, .draw app3.yAxis] }

end Eq01

namespace AxisDemo

/-- `MyApp::drawLabelAbove` of `2D-axis-demo.cpp`. -/
def drawLabelAbove (x y labelOffset fontSize : ℚ) (app : AxisApp) : AxisApp :=
  { app with calls := app.calls ++
      [.renderAt .center [.str "(", .num x, .str ",", .num y, .str ")"] fontSize
        ⟨x, y + labelOffset, 0.0⟩] }

/-- `MyApp::drawLabelRight` of `2D-axis-demo.cpp`. -/
def drawLabelRight (x y labelOffset fontSize : ℚ) (app : AxisApp) : AxisApp :=
  { app with calls := app.calls ++
      [.renderAt .left [.str "(", .num x, .str ",", .num y, .str ")"] fontSize
        ⟨x + labelOffset, y - fontSize * 0.2, 0.0⟩] }

/-- The body of the two X tick loops of `drawAxes`. -/
def xTickBody (tickSize labelOffset fontSize x : ℚ) (app : AxisApp) : AxisApp :=
  drawLabelAbove x 0 labelOffset fontSize
    { app with xAxis := app.xAxis ++
        [⟨x, 0, 0⟩, ⟨x, tickSize, 0⟩, ⟨x, -tickSize, 0⟩, ⟨x, 0, 0⟩] }

/-- The body of the two Y tick loops of `drawAxes`. -/
def yTickBody (tickSize labelOffset fontSize y : ℚ) (app : AxisApp) : AxisApp :=
  drawLabelRight 0 y labelOffset fontSize
    { app with
      yAxis := app.yAxis ++ [⟨0, y, 0⟩, ⟨tickSize, y, 0⟩, ⟨-tickSize, y, 0⟩, ⟨0, y, 0⟩]
      calls := app.calls ++ [.color 1 1 1] }

/-- `MyApp::drawAxes` of `2D-axis-demo.cpp`, each loop run with the given
fuel. -/
def drawAxes (fuel : Nat) (minX maxX minY maxY tickIncrement tickSize labelOffset fontSize : ℚ)
    (app : AxisApp) : Option AxisApp :=
  let app1 := { app with
    xAxis := app.xAxis ++ [⟨minX, 0, 0⟩, ⟨maxX, 0, 0⟩]
    yAxis := app.yAxis ++ [⟨0, minY, 0⟩, ⟨0, maxY, 0⟩] }
  match forLoop (fun x => decide (x < maxX)) (fun x => x + tickIncrement)
      (xTickBody tickSize labelOffset fontSize) fuel 0 app1 with
  | none => none
  | some app2 =>
    match forLoop (fun x => decide (x ≥ minX)) (fun x => x - tickIncrement)
        (xTickBody tickSize labelOffset fontSize) fuel 0 app2 with
    | none => none
    | some app3 =>
      match forLoop (fun y => decide (y ≤ maxY)) (fun y => y + tickIncrement)
          (yTickBody tickSize labelOffset fontSize) fuel 0 app3 with
      | none => none
      | some app4 =>
        match forLoop (fun y => decide (y ≥ minY)) (fun y => y - tickIncrement)
            (yTickBody tickSize labelOffset fontSize) fuel 0 app4 with
        | none => none
        | some app5 =>
          some { app5 with calls := app5.calls ++
            [.color 1 1 0, .draw app5.xAxis, .color 0 1 1, .draw app5.yAxis] }

end AxisDemo

namespace Axes3D

/-- `MyApp::drawLabelXAxis` of `3D-axes.cpp`. -/
def drawLabelXAxis (x labelOffset fontSize : ℚ) (app : AxisApp) : AxisApp :=
  { app with calls := app.calls ++
      [.renderAt .center [.str "x=", .num x] fontSize ⟨x, labelOffset, 0.0⟩] }

/-- `MyApp::drawLabelYAxis` of `3D-axes.cpp`. -/
def drawLabelYAxis (y labelOffset fontSize : ℚ) (app : AxisApp) : AxisApp :=
  { app with calls := app.calls ++
      [.renderAt .left [.str "y=", .num y] fontSize ⟨labelOffset, y - fontSize * 0.2, 0.0⟩] }

/-- `MyApp::drawLabelZAxis` of `3D-axes.cpp`. -/
def drawLabelZAxis (z labelOffset fontSize : ℚ) (app : AxisApp) : AxisApp :=
  { app with calls := app.calls ++
      [.renderAt .left [.str "z=", .num z] fontSize ⟨labelOffset, -(fontSize * 0.2), z⟩] }

/-- The body of the two X tick loops of `draw3DAxes`. -/
def xTickBody (tickSize labelOffset fontSize x : ℚ) (app : AxisApp) : AxisApp :=
  drawLabelXAxis x labelOffset fontSize
    { app with xAxis := app.xAxis ++
        [⟨x, 0, 0⟩, ⟨x, tickSize, 0⟩, ⟨x, -tickSize, 0⟩, ⟨x, 0, 0⟩] }

/-- The body of the two Y tick loops of `draw3DAxes`. -/
def yTickBody (tickSize labelOffset fontSize y : ℚ) (app : AxisApp) : AxisApp :=
  drawLabelYAxis y labelOffset fontSize
    { app with
      yAxis := app.yAxis ++ [⟨0, y, 0⟩, ⟨tickSize, y, 0⟩, ⟨-tickSize, y, 0⟩, ⟨0, y, 0⟩]
      calls := app.calls ++ [.color 0 1 0] }

/-- The body of the two Z tick loops of `draw3DAxes`. -/
def zTickBody (tickSize labelOffset fontSize z : ℚ) (app : AxisApp) : AxisApp :=
  drawLabelZAxis z labelOffset fontSize
    { app with
      zAxis := app.zAxis ++ [⟨0, 0, z⟩, ⟨tickSize, 0, z⟩, ⟨-tickSize, 0, z⟩, ⟨0, 0, z⟩]
      calls := app.calls ++ [.color 0 0 1] }

/-- The six tick loops of `draw3DAxes`, in order, each run with the given
fuel. -/
def tickLoops (fuel : Nat) (dim tickIncrement tickSize labelOffset fontSize : ℚ)
    (app : AxisApp) : Option AxisApp :=
  match forLoop (fun x => decide (x < dim)) (fun x => x + tickIncrement)
      (xTickBody tickSize labelOffset fontSize) fuel 0 app with
  | none => none
  | some app2 =>
    match forLoop (fun x => decide (x ≥ -dim)) (fun x => x - tickIncrement)
        (xTickBody tickSize labelOffset fontSize) fuel 0 app2 with
    | none => none
    | some app3 =>
      match forLoop (fun y => decide (y ≤ dim)) (fun y => y + tickIncrement)
          (yTickBody tickSize labelOffset fontSize) fuel 0 app3 with
      | none => none
      | some app4 =>
        match forLoop (fun y => decide (y ≥ -dim)) (fun y => y - tickIncrement)
            (yTickBody tickSize labelOffset fontSize) fuel 0 app4 with
        | none => none
        | some app5 =>
          match forLoop (fun z => decide (z ≤ dim)) (fun z => z + tickIncrement)
              (zTickBody tickSize labelOffset fontSize) fuel 0 app5 with
          | none => none
          | some app6 =>
            forLoop (fun z => decide (z ≥ -dim)) (fun z => z - tickIncrement)
              (zTickBody tickSize labelOffset fontSize) fuel 0 app6

/-- `MyApp::draw3DAxes` of `3D-axes.cpp`. -/
def draw3DAxes (fuel : Nat) (dim tickIncrement tickSize labelOffset fontSize : ℚ)
    (app : AxisApp) : Option AxisApp :=
  let app1 := { app with
    xAxis := app.xAxis ++ [⟨-dim, 0, 0⟩, ⟨dim, 0, 0⟩]
    yAxis := app.yAxis ++ [⟨0, -dim, 0⟩, ⟨0, dim, 0⟩]
    zAxis := app.zAxis ++ [⟨0, 0, -dim⟩, ⟨0, 0, dim⟩] }
  match tickLoops fuel dim tickIncrement tickSize labelOffset fontSize app1 with
  | none => none
  | some app7 =>
    some { app7 with calls := app7.calls ++
      [.color 1 0 0, .draw app7.xAxis, .color 0 1 0, .draw app7.yAxis,
        .color 0 0 1, .draw app7.zAxis] }

end Axes3D

/-! ### Ticks, as the claims describe them -/

/-- The number of runs claimed of the loop `x = 0; x < maxX; x += inc`:
`ceil(maxX / inc)` when `maxX > 0`, 0 otherwise. -/
def upCountLt (maxX inc : ℚ) : Nat :=
  if 0 < maxX then ⌈maxX / inc⌉.toNat else 0

/-- The number of runs of the loop `y = 0; y <= maxY; y += inc`:
`floor(maxY / inc) + 1` when `maxY >= 0`, 0 otherwise. -/
def upCountLe (maxY inc : ℚ) : Nat :=
  if 0 ≤ maxY then ⌊maxY / inc⌋.toNat + 1 else 0

/-- The number of runs claimed of the loop `x = 0; x >= minX; x -= inc`:
`floor(-minX / inc) + 1` when `minX <= 0`, 0 otherwise. -/
def downCount (minX inc : ℚ) : Nat :=
  if minX ≤ 0 then ⌊-minX / inc⌋.toNat + 1 else 0

/-- The values `0, d, 2d, ...`, `n` of them. -/
def multiples (n : Nat) (d : ℚ) : List ℚ :=
  (List.range n).map fun (k : Nat) => (k : ℚ) * d

/-- The positions ticked on an X axis: the multiples `k * inc < maxX`, then the
multiples `-k * inc >= minX`, `k = 0, 1, ...`. -/
def xTicks (minX maxX inc : ℚ) : List ℚ :=
  multiples (upCountLt maxX inc) inc ++ multiples (downCount minX inc) (-inc)

/-- The positions ticked on a Y (or Z) axis: the multiples `k * inc <= maxY`,
then the multiples `-k * inc >= minY`. -/
def yTicks (minY maxY inc : ℚ) : List ℚ :=
  multiples (upCountLe maxY inc) inc ++ multiples (downCount minY inc) (-inc)

/-- The four vertices of the tick at `x` on the X axis. -/
def xTickVertices (tickSize x : ℚ) : List (Vec3f ℚ) :=
  [⟨x, 0, 0⟩, ⟨x, tickSize, 0⟩, ⟨x, -tickSize, 0⟩, ⟨x, 0, 0⟩]

/-- The four vertices of the tick at `y` on the Y axis. -/
def yTickVertices (tickSize y : ℚ) : List (Vec3f ℚ) :=
  [⟨0, y, 0⟩, ⟨tickSize, y, 0⟩, ⟨-tickSize, y, 0⟩, ⟨0, y, 0⟩]

/-- The four vertices of the tick at `z` on the Z axis. -/
def zTickVertices (tickSize z : ℚ) : List (Vec3f ℚ) :=
  [⟨0, 0, z⟩, ⟨tickSize, 0, z⟩, ⟨-tickSize, 0, z⟩, ⟨0, 0, z⟩]

/-- The lists `g t`, for `t` along `ticks`, one after the other. -/
def concatMap {α : Type} (g : ℚ → List α) : List ℚ → List α
  | [] => []
  | t :: ts => g t ++ concatMap g ts

/-- The label `drawLabelX` renders at `x`. -/
def xLabel (labelOffset fontSize x : ℚ) : GCall :=
  .renderAt .center [.str "x=", .num x] fontSize ⟨x, labelOffset, 0.0⟩

/-- The calls one Y tick makes: the colour, then the label `drawLabelY`
renders at `y`. -/
def yLabelCalls (labelOffset fontSize y : ℚ) : List GCall :=
  [.color 1 1 1,
    .renderAt .left [.str "y=", .num y] fontSize ⟨labelOffset, y - fontSize * 0.2, 0.0⟩]

/-- The values `v, v + d, v + 2d, ...`, `n` of them: what the loop variable
holds at the successive runs of a loop that adds `d`. -/
def progression : Nat → ℚ → ℚ → List ℚ
  | 0, _, _ => []
  | n + 1, v, d => v :: progression n (v + d) d

/-! ## Lemmas on `getline` and `split` -/

theorem getline_length_lt (d : Char) :
    ∀ (s item rest : List Char), getline d s = some (item, rest) → rest.length < s.length := by
  intro s
  induction s with
  | nil => intro item rest h; simp [getline] at h
  | cons c cs ih =>
    intro item rest h
    unfold getline at h
    split at h
    · simp only [Option.some.injEq, Prod.mk.injEq] at h
      rw [← h.2]; simp
    · cases hg : getline d cs with
      | none =>
        rw [hg] at h
        simp only [Option.some.injEq, Prod.mk.injEq] at h
        rw [← h.2]; simp
      | some pr =>
        obtain ⟨i, r⟩ := pr
        rw [hg] at h
        simp only [Option.some.injEq, Prod.mk.injEq] at h
        have := ih i r hg
        rw [← h.2]; simp only [List.length_cons]; omega

theorem splitLoop_fuel (d : Char) :
    ∀ (n m : Nat) (s : List Char), s.length < n → s.length < m →
      splitLoop d n s = splitLoop d m s := by
  intro n
  induction n with
  | zero => intro m s h; omega
  | succ n ih =>
    intro m s hn hm
    cases m with
    | zero => omega
    | succ m =>
      unfold splitLoop
      cases hg : getline d s with
      | none => rfl
      | some pr =>
        obtain ⟨item, rest⟩ := pr
        have hl := getline_length_lt d s item rest hg
        simp only
        rw [ih m rest (by omega) (by omega)]

theorem split_eq_splitLoop (d : Char) (s : List Char) (n : Nat) (h : s.length < n) :
    split s d = splitLoop d n s :=
  splitLoop_fuel d _ _ s (Nat.lt_succ_self _) h

theorem split_nil (d : Char) : split [] d = [] := rfl

theorem getline_line (d : Char) (rest : List Char) :
    ∀ line : List Char, d ∉ line → getline d (line ++ d :: rest) = some (line, rest) := by
  intro line
  induction line with
  | nil => intro _; simp [getline]
  | cons c cs ih =>
    intro h
    have hc : c ≠ d := fun e => h (by simp [e])
    have hcs : d ∉ cs := fun e => h (by simp [e])
    simp [getline, hc, ih hcs]

theorem getline_last (d : Char) :
    ∀ line : List Char, d ∉ line → line ≠ [] → getline d line = some (line, []) := by
  intro line
  induction line with
  | nil => intro _ h; exact absurd rfl h
  | cons c cs ih =>
    intro h _
    have hc : c ≠ d := fun e => h (by simp [e])
    have hcs : d ∉ cs := fun e => h (by simp [e])
    cases cs with
    | nil => simp [getline, hc]
    | cons c2 cs2 =>
      have := ih hcs (by simp)
      unfold getline
      simp [hc, this]

/-- A line free of the delimiter and followed by it is the first item. -/
theorem split_line_cons (d : Char) (line rest : List Char) (h : d ∉ line) :
    split (line ++ d :: rest) d = line :: split rest d := by
  unfold split
  rw [splitLoop, getline_line d rest line h]
  simp only
  rw [← split_eq_splitLoop d rest _ (by simp only [List.length_append, List.length_cons]; omega)]
  rfl

/-- A non-empty text free of the delimiter is its own single item. -/
theorem split_single (d : Char) (line : List Char) (h : d ∉ line) (hne : line ≠ []) :
    split line d = [line] := by
  unfold split
  rw [splitLoop, getline_last d line h hne]
  simp only
  cases line <;> simp [splitLoop, getline]

/-- The items `split` yields on some short texts: a trailing delimiter adds no
item, an empty text has none, a leading or doubled delimiter gives an empty
item. -/
theorem split_sample_values :
    split "a,b,".toList ',' = ["a".toList, "b".toList] ∧
      split [] ',' = [] ∧
      split ",".toList ',' = [[]] ∧
      split "a,,b".toList ',' = ["a".toList, [], "b".toList] ∧
      split "1,2\n\n3".toList '\n' = ["1,2".toList, [], "3".toList] := by
  decide

/-- Runs of `readPoints` on short files: an empty line has no field, a pair
has no third field, a trio is read by `us_map.cpp`, a field that is no number
makes `std::stof` throw. -/
theorem readPoints_sample_runs :
    Eq01.readPoints digitsStof "<coordinates>\n1,2\n\n</coordinates>\n".toList [] =
        .error (.outOfRange 0) ∧
      UsMap.readPoints digitsStof "<coordinates>\n1,2\n</coordinates>\n".toList [] =
        .error (.outOfRange 2) ∧
      UsMap.readPoints digitsStof "<coordinates>\n1,2,3\n</coordinates>\n".toList [] =
        .ok [[⟨1, 2, 3⟩]] ∧
      Eq01.readPoints digitsStof "<coordinates>\n1,x\n</coordinates>\n".toList [] =
        .error (.stofThrows "x".toList) := by
  decide

/-! ## Reading a file of blocks -/

theorem split_fileText :
    ∀ lines : List (List Char), (∀ l ∈ lines, '\n' ∉ l) → split (fileText lines) '\n' = lines := by
  intro lines
  induction lines with
  | nil => intro _; rfl
  | cons l ls ih =>
    intro h
    rw [fileText, split_line_cons _ _ _ (h l (by simp)), ih (fun x hx => h x (by simp [hx]))]

theorem split_fileTextNoEol :
    ∀ lines : List (List Char), (∀ l ∈ lines, '\n' ∉ l ∧ l ≠ []) →
      split (fileTextNoEol lines) '\n' = lines := by
  intro lines
  induction lines with
  | nil => intro _; rfl
  | cons l ls ih =>
    intro h
    cases ls with
    | nil => exact split_single _ _ (h l (by simp)).1 (h l (by simp)).2
    | cons l2 ls2 =>
      have e : fileTextNoEol (l :: l2 :: ls2) = l ++ '\n' :: fileTextNoEol (l2 :: ls2) := rfl
      rw [e, split_line_cons _ _ _ (h l (by simp)).1,
        ih (fun x hx => h x (List.mem_cons_of_mem _ hx))]

theorem split_fileOf (eol : Bool) (lines : List (List Char))
    (h : ∀ l ∈ lines, '\n' ∉ l ∧ l ≠ []) : split (fileOf eol lines) '\n' = lines := by
  cases eol
  · exact split_fileTextNoEol lines h
  · exact split_fileText lines (fun l hl => (h l hl).1)

theorem openTag_no_comma : ',' ∉ openTag := by decide

theorem closeTag_no_comma : ',' ∉ closeTag := by decide

theorem PairLine.text_ne_tags {ν : Type} (p : PairLine ν) :
    p.text ≠ openTag ∧ p.text ≠ closeTag := by
  have hm : ',' ∈ p.text := by simp [PairLine.text]
  exact ⟨fun e => openTag_no_comma (e ▸ hm), fun e => closeTag_no_comma (e ▸ hm)⟩

theorem split_pairLine {ν : Type} (stof : List Char → Option ν) (p : PairLine ν)
    (h : p.WellFormed stof) : split p.text ',' = [p.xText, p.yText] := by
  rw [PairLine.text, split_line_cons _ _ _ h.1.2.1, split_single _ _ h.2.2.1 h.2.1]

theorem Eq01.parseLine_pairLine {ν : Type} [Zero ν] (stof : List Char → Option ν)
    (p : PairLine ν) (h : p.WellFormed stof) :
    Eq01.parseLine stof p.text = .ok ⟨p.x, p.y, 0⟩ := by
  simp only [Eq01.parseLine, split_pairLine stof p h, partAt, List.get?, callStof,
    h.1.2.2.2, h.2.2.2.2, bind, Except.bind, pure, Except.pure]

theorem Eq01.readLoop_open {ν : Type} [Zero ν] (stof : List Char → Option ν)
    (rest : List (List Char)) (points : List (List (Vec3f ν))) (thisShape : List (Vec3f ν)) :
    Eq01.readLoop stof (openTag :: rest) points thisShape =
      Eq01.readLoop stof rest points thisShape := by
  simp [Eq01.readLoop]

theorem Eq01.readLoop_close {ν : Type} [Zero ν] (stof : List Char → Option ν)
    (rest : List (List Char)) (points : List (List (Vec3f ν))) (thisShape : List (Vec3f ν)) :
    Eq01.readLoop stof (closeTag :: rest) points thisShape =
      Eq01.readLoop stof rest (points ++ [thisShape]) [] := by
  have hne : closeTag ≠ openTag := by decide
  simp [Eq01.readLoop, hne]

theorem Eq01.readLoop_data {ν : Type} [Zero ν] (stof : List Char → Option ν)
    (line : List Char) (rest : List (List Char)) (points : List (List (Vec3f ν)))
    (thisShape : List (Vec3f ν)) (h1 : line ≠ openTag) (h2 : line ≠ closeTag) :
    Eq01.readLoop stof (line :: rest) points thisShape =
      match Eq01.parseLine stof line with
      | .error e => .error e
      | .ok p => Eq01.readLoop stof rest points (thisShape ++ [p]) := by
  simp [Eq01.readLoop, h1, h2]

theorem Eq01.readLoop_dataLines {ν : Type} [Zero ν] (stof : List Char → Option ν)
    (rest : List (List Char)) (points : List (List (Vec3f ν))) :
    ∀ (b : List (PairLine ν)) (thisShape : List (Vec3f ν)),
      (∀ p ∈ b, p.WellFormed stof) →
      Eq01.readLoop stof (b.map PairLine.text ++ rest) points thisShape =
        Eq01.readLoop stof rest points (thisShape ++ blockShape b) := by
  intro b
  induction b with
  | nil => intro thisShape _; simp [blockShape]
  | cons p ps ih =>
    intro thisShape h
    have hp := h p (by simp)
    rw [List.map_cons, List.cons_append, Eq01.readLoop_data stof _ _ _ _
      (PairLine.text_ne_tags p).1 (PairLine.text_ne_tags p).2,
      Eq01.parseLine_pairLine stof p hp]
    simp only
    rw [ih _ (fun q hq => h q (List.mem_cons_of_mem _ hq))]
    simp [blockShape]

theorem Eq01.readLoop_blocks {ν : Type} [Zero ν] (stof : List Char → Option ν) :
    ∀ (blocks : List (List (PairLine ν))) (points : List (List (Vec3f ν))),
      (∀ b ∈ blocks, ∀ p ∈ b, p.WellFormed stof) →
      Eq01.readLoop stof (blocksLines blocks) points [] =
        .ok (points ++ blocks.map blockShape) := by
  intro blocks
  induction blocks with
  | nil => intro points _; simp [blocksLines, Eq01.readLoop]
  | cons b bs ih =>
    intro points h
    rw [blocksLines, blockLines, List.cons_append, List.append_assoc, Eq01.readLoop_open,
      Eq01.readLoop_dataLines stof _ _ b [] (h b (by simp)), List.singleton_append,
      Eq01.readLoop_close, ih _ (fun c hc => h c (List.mem_cons_of_mem _ hc))]
    simp

theorem WorldMap.readLoop_eq {ν : Type} [Zero ν] (stof : List Char → Option ν) :
    ∀ (lines : List (List Char)) (points : List (List (Vec3f ν))) (thisShape : List (Vec3f ν)),
      WorldMap.readLoop stof lines points thisShape =
        Eq01.readLoop stof lines points thisShape := by
  intro lines
  induction lines with
  | nil => intro _ _; rfl
  | cons l ls ih =>
    intro points thisShape
    have hp : WorldMap.parseLine stof l = Eq01.parseLine stof l := rfl
    simp only [WorldMap.readLoop, Eq01.readLoop, ih, hp]

theorem blocksLines_lines {ν : Type} (stof : List Char → Option ν) :
    ∀ blocks : List (List (PairLine ν)), (∀ b ∈ blocks, ∀ p ∈ b, p.WellFormed stof) →
      ∀ l ∈ blocksLines blocks, '\n' ∉ l ∧ l ≠ [] := by
  intro blocks
  induction blocks with
  | nil => intro _ l hl; simp [blocksLines] at hl
  | cons b bs ih =>
    intro h l hl
    simp only [blocksLines, blockLines, List.cons_append, List.append_assoc, List.mem_cons,
      List.mem_append, List.mem_map, List.mem_singleton, List.nil_append] at hl
    rcases hl with rfl | ⟨p, hp, rfl⟩ | rfl | hl
    · decide
    · have hw := h b (by simp) p hp
      refine ⟨?_, by simp [PairLine.text]⟩
      simp only [PairLine.text, List.mem_append, List.mem_cons, not_or]
      exact ⟨hw.1.2.2.1, by decide, hw.2.2.2.1⟩
    · decide
    · exact ih (fun c hc => h c (List.mem_cons_of_mem _ hc)) l hl

/-- C1: on a file made of zero or more blocks, each a line `<coordinates>`,
then data lines `x,y` of two numbers, then a line `</coordinates>` (the last
line of the file ended by a line break or not), `readPoints` of `eq_01.cpp`
and of `world_map_earthquakes.cpp` completes and leaves in `points` what it
held before followed by exactly one shape per block, in file order, each shape
holding exactly the points of its block, in line order, as `(x, y, 0)`. -/
theorem readPoints_one_shape_per_block {ν : Type} [Zero ν] (stof : List Char → Option ν)
    (blocks : List (List (PairLine ν))) (points : List (List (Vec3f ν))) (finalEol : Bool)
    (h : ∀ b ∈ blocks, ∀ p ∈ b, p.WellFormed stof) :
    Eq01.readPoints stof (fileOf finalEol (blocksLines blocks)) points =
        .ok (points ++ blocks.map blockShape) ∧
      WorldMap.readPoints stof (fileOf finalEol (blocksLines blocks)) points =
        .ok (points ++ blocks.map blockShape) := by
  have hs := split_fileOf finalEol (blocksLines blocks) (blocksLines_lines stof blocks h)
  refine ⟨?_, ?_⟩
  · rw [Eq01.readPoints, hs]
    exact Eq01.readLoop_blocks stof blocks points h
  · rw [WorldMap.readPoints, hs, WorldMap.readLoop_eq]
    exact Eq01.readLoop_blocks stof blocks points h

/-- C1 at a file of three blocks (two points, none, one point), `points`
holding one shape before the call. -/
theorem readPoints_one_shape_per_block_witness :
    (∀ b ∈ [[(⟨"10".toList, "20".toList, 10, 20⟩ : PairLine Nat),
              ⟨"3".toList, "4".toList, 3, 4⟩], [], [⟨"5".toList, "6".toList, 5, 6⟩]],
        ∀ p ∈ b, p.WellFormed digitsStof) ∧
      Eq01.readPoints digitsStof
          ("<coordinates>\n10,20\n3,4\n</coordinates>\n<coordinates>\n</coordinates>\n" ++
            "<coordinates>\n5,6\n</coordinates>").toList [[⟨7, 8, 9⟩]] =
        .ok [[⟨7, 8, 9⟩], [⟨10, 20, 0⟩, ⟨3, 4, 0⟩], [], [⟨5, 6, 0⟩]] ∧
      WorldMap.readPoints digitsStof
          ("<coordinates>\n10,20\n3,4\n</coordinates>\n<coordinates>\n</coordinates>\n" ++
            "<coordinates>\n5,6\n</coordinates>").toList [[⟨7, 8, 9⟩]] =
        .ok [[⟨7, 8, 9⟩], [⟨10, 20, 0⟩, ⟨3, 4, 0⟩], [], [⟨5, 6, 0⟩]] :=
  ⟨by decide,
    readPoints_one_shape_per_block digitsStof
      [[⟨"10".toList, "20".toList, 10, 20⟩, ⟨"3".toList, "4".toList, 3, 4⟩], [],
        [⟨"5".toList, "6".toList, 5, 6⟩]] [[⟨7, 8, 9⟩]] false (by decide)⟩

/-! ## Failure of `readPoints` -/

theorem Eq01.parseLine_ok_iff {ν : Type} [Zero ν] (stof : List Char → Option ν)
    (line : List Char) :
    (∃ p, Eq01.parseLine stof line = .ok p) ↔ FieldsAccepted stof 2 line := by
  unfold Eq01.parseLine FieldsAccepted
  rcases AlloPlayground.split line ',' with _ | ⟨a, _ | ⟨b, rest⟩⟩
  · simp [partAt, bind, Except.bind]
  · cases ha : stof a <;> simp [partAt, callStof, bind, Except.bind, ha]
  · cases ha : stof a <;> cases hb : stof b <;>
      simp [partAt, callStof, bind, Except.bind, pure, Except.pure, ha, hb]

theorem UsMap.parseLine3_ok_iff {ν : Type} (stof : List Char → Option ν) (line : List Char) :
    (∃ p, UsMap.parseLine stof line = .ok p) ↔ FieldsAccepted stof 3 line := by
  unfold UsMap.parseLine FieldsAccepted
  rcases AlloPlayground.split line ',' with _ | ⟨a, _ | ⟨b, _ | ⟨c, rest⟩⟩⟩
  · simp [partAt, bind, Except.bind]
  · cases ha : stof a <;> simp [partAt, callStof, bind, Except.bind, ha]
  · cases ha : stof a <;> cases hb : stof b <;>
      simp [partAt, callStof, bind, Except.bind, ha, hb]
  · cases ha : stof a <;> cases hb : stof b <;> cases hc : stof c <;>
      simp [partAt, callStof, bind, Except.bind, pure, Except.pure, ha, hb, hc]

theorem Eq01.readLoop_ok_iff {ν : Type} [Zero ν] (stof : List Char → Option ν) :
    ∀ (lines : List (List Char)) (points : List (List (Vec3f ν))) (thisShape : List (Vec3f ν)),
      (∃ r, Eq01.readLoop stof lines points thisShape = .ok r) ↔
        ∀ line ∈ lines, line ≠ openTag → line ≠ closeTag → FieldsAccepted stof 2 line := by
  intro lines
  induction lines with
  | nil => intro points thisShape; simp [Eq01.readLoop]
  | cons l ls ih =>
    intro points thisShape
    by_cases h1 : l = openTag
    · subst h1
      rw [Eq01.readLoop_open, ih]
      simp
    · by_cases h2 : l = closeTag
      · subst h2
        rw [Eq01.readLoop_close, ih]
        simp
      · rw [Eq01.readLoop_data stof l ls points thisShape h1 h2]
        have hp := Eq01.parseLine_ok_iff stof l
        cases hl : Eq01.parseLine stof l with
        | error e =>
          rw [hl] at hp
          have hn : ¬ FieldsAccepted stof 2 l := fun hf => by simpa using hp.2 hf
          simp only [List.mem_cons, forall_eq_or_imp]
          constructor
          · intro ⟨r, hr⟩; cases hr
          · intro h; exact absurd (h.1 h1 h2) hn
        | ok q =>
          rw [hl] at hp
          have hy : FieldsAccepted stof 2 l := hp.1 ⟨q, rfl⟩
          simp only [List.mem_cons, forall_eq_or_imp]
          rw [ih]
          constructor
          · intro h; exact ⟨fun _ _ => hy, h⟩
          · intro h; exact h.2

theorem UsMap.readLoop3_ok_iff {ν : Type} (stof : List Char → Option ν) :
    ∀ (lines : List (List Char)) (points : List (List (Vec3f ν))) (thisShape : List (Vec3f ν)),
      (∃ r, UsMap.readLoop stof lines points thisShape = .ok r) ↔
        ∀ line ∈ lines, line ≠ openTag → line ≠ closeTag → FieldsAccepted stof 3 line := by
  intro lines
  induction lines with
  | nil => intro points thisShape; simp [UsMap.readLoop]
  | cons l ls ih =>
    intro points thisShape
    have hne : closeTag ≠ openTag := by decide
    by_cases h1 : l = openTag
    · subst h1
      simp only [UsMap.readLoop, if_true]
      rw [ih]
      simp
    · by_cases h2 : l = closeTag
      · subst h2
        simp only [UsMap.readLoop, hne, if_true, if_false]
        rw [ih]
        simp
      · simp only [UsMap.readLoop, h1, h2, if_false]
        have hp := UsMap.parseLine3_ok_iff stof l
        cases hl : UsMap.parseLine stof l with
        | error e =>
          rw [hl] at hp
          have hn : ¬ FieldsAccepted stof 3 l := fun hf => by simpa using hp.2 hf
          simp only [List.mem_cons, forall_eq_or_imp]
          constructor
          · intro ⟨r, hr⟩; cases hr
          · intro h; exact absurd (h.1 h1 h2) hn
        | ok q =>
          rw [hl] at hp
          have hy : FieldsAccepted stof 3 l := hp.1 ⟨q, rfl⟩
          simp only [List.mem_cons, forall_eq_or_imp]
          rw [ih]
          constructor
          · intro h; exact ⟨fun _ _ => hy, h⟩
          · intro h; exact h.2

/-- C2: `readPoints` does not recover from a bad parse.  It completes if and
only if every line other than `<coordinates>` and `</coordinates>` splits on
`','` into at least two fields (three in `us_map.cpp`) and `std::stof` accepts
each field converted; a failure of one line is the failure of the whole call.
On an empty line `split` yields no field, and the access `parts[0]` is out of
range. -/
theorem readPoints_completes_iff {ν : Type} [Zero ν] (stof : List Char → Option ν)
    (content : List Char) (points : List (List (Vec3f ν))) :
    ((∃ r, Eq01.readPoints stof content points = .ok r) ↔
        ∀ line ∈ split content '\n', line ≠ openTag → line ≠ closeTag →
          FieldsAccepted stof 2 line) ∧
      ((∃ r, WorldMap.readPoints stof content points = .ok r) ↔
        ∀ line ∈ split content '\n', line ≠ openTag → line ≠ closeTag →
          FieldsAccepted stof 2 line) ∧
      ((∃ r, UsMap.readPoints stof content points = .ok r) ↔
        ∀ line ∈ split content '\n', line ≠ openTag → line ≠ closeTag →
          FieldsAccepted stof 3 line) ∧
      split [] ',' = [] ∧
      Eq01.parseLine stof [] = .error (.outOfRange 0) ∧
      WorldMap.parseLine stof [] = .error (.outOfRange 0) ∧
      UsMap.parseLine stof [] = .error (.outOfRange 0) := by
  refine ⟨?_, ?_, ?_, rfl, rfl, rfl, rfl⟩
  · exact Eq01.readLoop_ok_iff stof _ points []
  · rw [WorldMap.readPoints, WorldMap.readLoop_eq]
    exact Eq01.readLoop_ok_iff stof _ points []
  · exact UsMap.readLoop3_ok_iff stof _ points []

/-! ## Key down, key up -/

theorem triggersVoice_nil : ¬ TriggersVoice [] := by
  intro ⟨_, h⟩; simp at h

theorem setsThenTriggers_nil (name : String) (n : Int) : ¬ SetsThenTriggers name n [] := by
  rintro ⟨before, after, h, _⟩
  cases before <;> simp at h

theorem setsThenTriggers_pair (name : String) (n : Int) :
    SetsThenTriggers name n [.setInternalParameterValue name (noteFrequency n), .triggerOn n] :=
  ⟨[.setInternalParameterValue name (noteFrequency n)], [], rfl, by simp⟩

theorem setsThenTriggers_triple (name : String) (n : Int) (c : Call) :
    SetsThenTriggers name n
      [.setInternalParameterValue name (noteFrequency n), c, .triggerOn n] :=
  ⟨[.setInternalParameterValue name (noteFrequency n), c], [], rfl, by simp⟩

/-- C3, as stated, fails for `04_FMVib_wavetable_visual_HELP.cpp`: with the GUI
not using the keyboard, shift not held and `navi` false, the key `a` (note 60
of the sample key map, 48 after the offset) triggers note 48, and the calls
made are the setting of `freq`, the setting of `table` and the trigger; no
parameter `frequency` is set. -/
theorem fmvib_keyDown_sets_freq_not_frequency :
    (FMVib.onKeyDown sampleAsciiToMIDI sampleAsciiToIndex false ⟨97, false⟩
        FMVib.MyApp.initial).1.calls =
      [.setInternalParameterValue "freq" (noteFrequency 48),
        .setInternalParameterValue "table" (.ofInt 0), .triggerOn 48] ∧
    ¬ SetsThenTriggers "frequency" 48
      (FMVib.onKeyDown sampleAsciiToMIDI sampleAsciiToIndex false ⟨97, false⟩
        FMVib.MyApp.initial).1.calls := by
  have hc : (FMVib.onKeyDown sampleAsciiToMIDI sampleAsciiToIndex false ⟨97, false⟩
        FMVib.MyApp.initial).1.calls =
      [.setInternalParameterValue "freq" (noteFrequency 48),
        .setInternalParameterValue "table" (.ofInt 0), .triggerOn 48] := by decide
  refine ⟨hc, ?_⟩
  rw [hc]
  rintro ⟨before, after, heq, hmem⟩
  have hsub : ∀ c ∈ before, c ∈ [Call.setInternalParameterValue "freq" (noteFrequency 48),
      .setInternalParameterValue "table" (.ofInt 0), .triggerOn 48] := by
    intro c hc'
    rw [heq]
    exact List.mem_append_left _ hc'
  have := hsub _ hmem
  revert this
  decide

/-- C3, amended: with the GUI not using the keyboard and shift not held,
`onKeyDown` of `eq_01.cpp` and of `01_SineEnv-xy.cpp` triggers a voice if and
only if `n = asciiToMIDI(key)` is greater than 0, and then its calls are the
setting of `frequency` to `2^((n-69)/12) * 432` followed by the trigger of
note `n`.  In `04_FMVib_wavetable_visual_HELP.cpp`, while `navi` is false, the
same holds with `n = asciiToMIDI(key) - 12` and the parameter named `freq`
(`table` being set to `fmwt.mtable` between the two calls); while `navi` is
true no voice is triggered. -/
theorem onKeyDown_triggers_iff_note_pos (asciiToMIDI asciiToIndex : Int → Int) (key : Int)
    (showGUI showSpectro : Bool) (tscale : FloatExpr) (mtable : Int) :
    ((TriggersVoice (Eq01.onKeyDown asciiToMIDI asciiToIndex false ⟨key, false⟩).calls ↔
          0 < asciiToMIDI key) ∧
        (SetsThenTriggers "frequency" (asciiToMIDI key)
            (Eq01.onKeyDown asciiToMIDI asciiToIndex false ⟨key, false⟩).calls ↔
          0 < asciiToMIDI key) ∧
        (Eq01.onKeyDown asciiToMIDI asciiToIndex false ⟨key, false⟩).calls =
          if 0 < asciiToMIDI key then
            [.setInternalParameterValue "frequency" (noteFrequency (asciiToMIDI key)),
              .triggerOn (asciiToMIDI key)]
          else []) ∧
      ((TriggersVoice (SineEnvXY.onKeyDown asciiToMIDI asciiToIndex false ⟨key, false⟩).calls ↔
          0 < asciiToMIDI key) ∧
        (SetsThenTriggers "frequency" (asciiToMIDI key)
            (SineEnvXY.onKeyDown asciiToMIDI asciiToIndex false ⟨key, false⟩).calls ↔
          0 < asciiToMIDI key) ∧
        (SineEnvXY.onKeyDown asciiToMIDI asciiToIndex false ⟨key, false⟩).calls =
          if 0 < asciiToMIDI key then
            [.setInternalParameterValue "frequency" (noteFrequency (asciiToMIDI key)),
              .triggerOn (asciiToMIDI key)]
          else []) ∧
      ((TriggersVoice (FMVib.onKeyDown asciiToMIDI asciiToIndex false ⟨key, false⟩
            ⟨showGUI, showSpectro, false, tscale, mtable⟩).1.calls ↔
          0 < asciiToMIDI key - 12) ∧
        (SetsThenTriggers "freq" (asciiToMIDI key - 12)
            (FMVib.onKeyDown asciiToMIDI asciiToIndex false ⟨key, false⟩
              ⟨showGUI, showSpectro, false, tscale, mtable⟩).1.calls ↔
          0 < asciiToMIDI key - 12) ∧
        (FMVib.onKeyDown asciiToMIDI asciiToIndex false ⟨key, false⟩
            ⟨showGUI, showSpectro, false, tscale, mtable⟩).1.calls =
          if 0 < asciiToMIDI key - 12 then
            [.setInternalParameterValue "freq" (noteFrequency (asciiToMIDI key - 12)),
              .setInternalParameterValue "table" (.ofInt mtable),
              .triggerOn (asciiToMIDI key - 12)]
          else []) ∧
      ¬ TriggersVoice (FMVib.onKeyDown asciiToMIDI asciiToIndex false ⟨key, false⟩
            ⟨showGUI, showSpectro, true, tscale, mtable⟩).1.calls := by
  have e1 : (Eq01.onKeyDown asciiToMIDI asciiToIndex false ⟨key, false⟩).calls =
      if 0 < asciiToMIDI key then
        [.setInternalParameterValue "frequency" (noteFrequency (asciiToMIDI key)),
          .triggerOn (asciiToMIDI key)]
      else [] := by
    by_cases h : 0 < asciiToMIDI key <;> simp [Eq01.onKeyDown, h]
  have e2 : (SineEnvXY.onKeyDown asciiToMIDI asciiToIndex false ⟨key, false⟩).calls =
      if 0 < asciiToMIDI key then
        [.setInternalParameterValue "frequency" (noteFrequency (asciiToMIDI key)),
          .triggerOn (asciiToMIDI key)]
      else [] := by
    by_cases h : 0 < asciiToMIDI key <;> simp [SineEnvXY.onKeyDown, h]
  have e3 : (FMVib.onKeyDown asciiToMIDI asciiToIndex false ⟨key, false⟩
        ⟨showGUI, showSpectro, false, tscale, mtable⟩).1.calls =
      if 0 < asciiToMIDI key - 12 then
        [.setInternalParameterValue "freq" (noteFrequency (asciiToMIDI key - 12)),
          .setInternalParameterValue "table" (.ofInt mtable),
          .triggerOn (asciiToMIDI key - 12)]
      else [] := by
    by_cases h : 0 < asciiToMIDI key - 12 <;> simp [FMVib.onKeyDown, FMVib.noteCalls, h]
  have e4 : (FMVib.onKeyDown asciiToMIDI asciiToIndex false ⟨key, false⟩
        ⟨showGUI, showSpectro, true, tscale, mtable⟩).1.calls = [] := by
    simp [FMVib.onKeyDown, FMVib.noteCalls]
  refine ⟨⟨?_, ?_, e1⟩, ⟨?_, ?_, e2⟩, ⟨?_, ?_, e3⟩, ?_⟩
  · rw [e1]
    by_cases h : 0 < asciiToMIDI key
    · simp only [h, if_true, iff_true]
      exact ⟨asciiToMIDI key, by simp⟩
    · simpa [h] using triggersVoice_nil
  · rw [e1]
    by_cases h : 0 < asciiToMIDI key
    · simp only [h, if_true, iff_true]
      exact setsThenTriggers_pair _ _
    · simpa [h] using setsThenTriggers_nil _ _
  · rw [e2]
    by_cases h : 0 < asciiToMIDI key
    · simp only [h, if_true, iff_true]
      exact ⟨asciiToMIDI key, by simp⟩
    · simpa [h] using triggersVoice_nil
  · rw [e2]
    by_cases h : 0 < asciiToMIDI key
    · simp only [h, if_true, iff_true]
      exact setsThenTriggers_pair _ _
    · simpa [h] using setsThenTriggers_nil _ _
  · rw [e3]
    by_cases h : 0 < asciiToMIDI key - 12
    · simp only [h, if_true, iff_true]
      exact ⟨asciiToMIDI key - 12, by simp⟩
    · simpa [h] using triggersVoice_nil
  · rw [e3]
    by_cases h : 0 < asciiToMIDI key - 12
    · simp only [h, if_true, iff_true]
      exact setsThenTriggers_triple _ _ _
    · simpa [h] using setsThenTriggers_nil _ _
  · rw [e4]
    exact triggersVoice_nil

/-- C4: in `eq_01.cpp`, `01_SineEnv-xy.cpp` and
`04_FMVib_wavetable_visual_HELP.cpp`, whenever `onKeyDown(k)` triggers note
`n` on, `onKeyUp(k)` triggers note `n` off. -/
theorem onKeyUp_releases_note_of_onKeyDown (asciiToMIDI asciiToIndex : Int → Int)
    (usingKeyboard : Bool) (k : Keyboard) (app : FMVib.MyApp) (n : Int) :
    (Call.triggerOn n ∈ (Eq01.onKeyDown asciiToMIDI asciiToIndex usingKeyboard k).calls →
        Call.triggerOff n ∈ (Eq01.onKeyUp asciiToMIDI k).calls) ∧
      (Call.triggerOn n ∈ (SineEnvXY.onKeyDown asciiToMIDI asciiToIndex usingKeyboard k).calls →
        Call.triggerOff n ∈ (SineEnvXY.onKeyUp asciiToMIDI k).calls) ∧
      (Call.triggerOn n ∈
          (FMVib.onKeyDown asciiToMIDI asciiToIndex usingKeyboard k app).1.calls →
        Call.triggerOff n ∈ (FMVib.onKeyUp asciiToMIDI k).calls) := by
  refine ⟨?_, ?_, ?_⟩
  · intro h
    unfold Eq01.onKeyDown at h
    unfold Eq01.onKeyUp
    by_cases hp : 0 < asciiToMIDI k.key
    · cases usingKeyboard <;> cases hs : k.shift <;> simp [hs, hp] at h ⊢
      exact h
    · cases usingKeyboard <;> cases hs : k.shift <;> simp [hs, hp] at h
  · intro h
    unfold SineEnvXY.onKeyDown at h
    unfold SineEnvXY.onKeyUp
    by_cases hp : 0 < asciiToMIDI k.key
    · cases usingKeyboard <;> cases hs : k.shift <;> simp [hs, hp] at h ⊢
      exact h
    · cases usingKeyboard <;> cases hs : k.shift <;> simp [hs, hp] at h
  · intro h
    unfold FMVib.onKeyDown FMVib.noteCalls at h
    unfold FMVib.onKeyUp
    by_cases hp : 0 < asciiToMIDI k.key - 12
    · cases usingKeyboard <;> cases hs : k.shift <;> cases hn : app.navi <;>
        simp [hs, hp, hn] at h ⊢
      exact h
    · cases usingKeyboard <;> cases hs : k.shift <;> cases hn : app.navi <;>
        simp [hs, hp, hn] at h

/-- C4 at the key `a` of the sample key map: note 60 in `eq_01.cpp` and
`01_SineEnv-xy.cpp`, note 48 in the FM tutorial. -/
theorem onKeyUp_releases_note_of_onKeyDown_witness :
    (Call.triggerOn 60 ∈
        (Eq01.onKeyDown sampleAsciiToMIDI sampleAsciiToIndex false ⟨97, false⟩).calls ∧
      Call.triggerOff 60 ∈ (Eq01.onKeyUp sampleAsciiToMIDI ⟨97, false⟩).calls) ∧
    (Call.triggerOn 60 ∈
        (SineEnvXY.onKeyDown sampleAsciiToMIDI sampleAsciiToIndex false ⟨97, false⟩).calls ∧
      Call.triggerOff 60 ∈ (SineEnvXY.onKeyUp sampleAsciiToMIDI ⟨97, false⟩).calls) ∧
    (Call.triggerOn 48 ∈
        (FMVib.onKeyDown sampleAsciiToMIDI sampleAsciiToIndex false ⟨97, false⟩
          FMVib.MyApp.initial).1.calls ∧
      Call.triggerOff 48 ∈ (FMVib.onKeyUp sampleAsciiToMIDI ⟨97, false⟩).calls) :=
  ⟨⟨by decide,
      (onKeyUp_releases_note_of_onKeyDown sampleAsciiToMIDI sampleAsciiToIndex false
        ⟨97, false⟩ FMVib.MyApp.initial 60).1 (by decide)⟩,
    ⟨by decide,
      (onKeyUp_releases_note_of_onKeyDown sampleAsciiToMIDI sampleAsciiToIndex false
        ⟨97, false⟩ FMVib.MyApp.initial 60).2.1 (by decide)⟩,
    ⟨by decide,
      (onKeyUp_releases_note_of_onKeyDown sampleAsciiToMIDI sampleAsciiToIndex false
        ⟨97, false⟩ FMVib.MyApp.initial 48).2.2 (by decide)⟩⟩

/-- C5: while `ParameterGUI::usingKeyboard()` is true, `onKeyDown` of
`002_SinePlay.cpp`, `eq_01.cpp`, `01_SineEnv-xy.cpp` and
`04_FMVib_wavetable_visual_HELP.cpp` returns true and makes no call at all (no
voice triggered, no preset recalled, no sequence played), for every key; in
the FM tutorial the members `showGUI`, `showSpectro`, `navi`, `tscale` keep
their values. -/
theorem onKeyDown_ignored_while_gui_uses_keyboard (asciiToMIDI asciiToIndex : Int → Int)
    (k : Keyboard) (app : FMVib.MyApp) :
    SinePlay.onKeyDown true k = ⟨true, []⟩ ∧
      Eq01.onKeyDown asciiToMIDI asciiToIndex true k = ⟨true, []⟩ ∧
      SineEnvXY.onKeyDown asciiToMIDI asciiToIndex true k = ⟨true, []⟩ ∧
      FMVib.onKeyDown asciiToMIDI asciiToIndex true k app = (⟨true, []⟩, app) :=
  ⟨rfl, rfl, rfl, rfl⟩

/-! ## Voice parameters -/

/-- C6: every parameter declared by `SineWav::init` (`002_SinePlay.cpp`),
`SineEnv::init` (`eq_01.cpp`, `world_map_earthquakes.cpp`,
`01_SineEnv-xy.cpp`) and `FMWT::init` (`04_FMVib_wavetable_visual_HELP.cpp`)
has `min < max` and `min <= default <= max`, and no voice declares a name
twice. -/
theorem parameters_well_formed :
    ParamsWellFormed SinePlay.SineWav.parameters ∧
      ParamsWellFormed Eq01.SineEnv.parameters ∧
      ParamsWellFormed WorldMap.SineEnv.parameters ∧
      ParamsWellFormed SineEnvXY.SineEnv.parameters ∧
      ParamsWellFormed FMVib.FMWT.parameters := by
  refine ⟨⟨?_, ?_⟩, ⟨?_, ?_⟩, ⟨?_, ?_⟩, ⟨?_, ?_⟩, ⟨?_, ?_⟩⟩
  all_goals first
    | decide
    | (simp only [SinePlay.SineWav.parameters, Eq01.SineEnv.parameters,
        WorldMap.SineEnv.parameters, SineEnvXY.SineEnv.parameters, FMVib.FMWT.parameters,
        List.forall_mem_cons, ParamDecl.WellFormed]
       norm_num)

/-! ## Start-up of the FM tutorial -/

theorem FMVib.resize_length (n : Nat) (spectrum : List FloatExpr) :
    (FMVib.resize n spectrum).length = n := by
  simp only [FMVib.resize, List.length_append, List.length_take, List.length_replicate]
  omega

/-- C7: a missing MIDI device is handled by printing a message and going on.
When `midiIn.getPortCount()` is 0, `MyApp::onInit` binds no handler and opens
no port, prints `Error: No MIDI devices found.`, and still resizes `spectrum`
to `FFT_SIZE / 2 + 1` entries; when the count `c` is greater than 0 the port
opened is `c - 1`, computed without wrapping below zero and less than `c`. -/
theorem onInit_midi_ports (c : Nat) (getPortName : Nat → String) (spectrum : List FloatExpr)
    (hc : c < 2 ^ 32) :
    (FMVib.onInit 0 getPortName spectrum).1 =
        [.imguiInit, .navControlActive false, .sampleRate,
          .printf "Error: No MIDI devices found.\n"] ∧
      FMVib.InitCall.bindTo ∉ (FMVib.onInit 0 getPortName spectrum).1 ∧
      (∀ port, FMVib.InitCall.openPort port ∉ (FMVib.onInit 0 getPortName spectrum).1) ∧
      (FMVib.onInit 0 getPortName spectrum).2.length = FMVib.FFT_SIZE / 2 + 1 ∧
      (0 < c →
        (FMVib.onInit c getPortName spectrum).1 =
            [.imguiInit, .navControlActive false, .sampleRate, .bindTo, .openPort (c - 1),
              .printf ("Opened port to " ++ getPortName (c - 1) ++ "\n")] ∧
          c - 1 < c ∧ (c + 2 ^ 32 - 1) % 2 ^ 32 = c - 1 ∧
          (FMVib.onInit c getPortName spectrum).2.length = FMVib.FFT_SIZE / 2 + 1) := by
  refine ⟨rfl, by simp [FMVib.onInit], by simp [FMVib.onInit], ?_, ?_⟩
  · exact FMVib.resize_length _ _
  · intro h0
    have hp : (c + 2 ^ 32 - 1) % 2 ^ 32 = c - 1 := by omega
    refine ⟨?_, by omega, hp, FMVib.resize_length _ _⟩
    simp only [FMVib.onInit, gt_iff_lt, h0, if_true, hp]
    rfl

/-- C7 with three MIDI ports: port 2 is opened. -/
theorem onInit_midi_ports_witness :
    (3 < 2 ^ 32) ∧
      (FMVib.onInit 3 (fun _ => "port") []).1 =
        [.imguiInit, .navControlActive false, .sampleRate, .bindTo, .openPort 2,
          .printf "Opened port to port\n"] ∧
      (FMVib.onInit 3 (fun _ => "port") []).2.length = 2025 :=
  ⟨by decide,
    ((onInit_midi_ports 3 (fun _ => "port") [] (by decide)).2.2.2.2 (by decide)).1,
    ((onInit_midi_ports 3 (fun _ => "port") [] (by decide)).2.2.2.2 (by decide)).2.2.2⟩

/-! ## Wavetable selection -/

/-- C8: `FMWT::updateWaveform` maps the table number to the table in memory.
For every value `t` of the parameter `table` with `0 <= int(t) <= 8` the
carrier reads, after the call, the `int(t)`-th of the nine tables `tbSaw`,
`tbSqr`, `tbImp`, `tbSin`, `tbPls`, `tb__1`, `tb__2`, `tb__3`, `tb__4`
(counted from 0), distinct numbers selecting distinct tables; for every other
value the carrier keeps the table it read before. -/
theorem updateWaveform_maps_table_number (t t2 : ℚ) (source source2 : Option FMVib.Wavetable) :
    (0 ≤ toInt t → toInt t ≤ 8 →
        FMVib.FMWT.updateWaveform t source = FMVib.wavetables.get? (toInt t).toNat ∧
          (FMVib.FMWT.updateWaveform t source).isSome = true) ∧
      (0 ≤ toInt t → toInt t ≤ 8 → 0 ≤ toInt t2 → toInt t2 ≤ 8 → toInt t ≠ toInt t2 →
        FMVib.FMWT.updateWaveform t source ≠ FMVib.FMWT.updateWaveform t2 source2) ∧
      (¬ (0 ≤ toInt t ∧ toInt t ≤ 8) → FMVib.FMWT.updateWaveform t source = source) ∧
      FMVib.wavetables.length = 9 ∧ FMVib.wavetables.Nodup := by
  have key : ∀ (n : Int) (src : Option FMVib.Wavetable), 0 ≤ n → n ≤ 8 →
      (if n = 0 then some FMVib.Wavetable.tbSaw
        else if n = 1 then some .tbSqr
        else if n = 2 then some .tbImp
        else if n = 3 then some .tbSin
        else if n = 4 then some .tbPls
        else if n = 5 then some .tb__1
        else if n = 6 then some .tb__2
        else if n = 7 then some .tb__3
        else if n = 8 then some .tb__4
        else src) = FMVib.wavetables.get? n.toNat := by
    intro n src h0 h8
    interval_cases n <;> rfl
  refine ⟨?_, ?_, ?_, rfl, by decide⟩
  · intro h0 h8
    have e : FMVib.FMWT.updateWaveform t source = FMVib.wavetables.get? (toInt t).toNat :=
      key (toInt t) source h0 h8
    refine ⟨e, ?_⟩
    rw [e]
    generalize toInt t = n at h0 h8
    interval_cases n <;> rfl
  · intro h0 h8 h0' h8' hne
    have e : FMVib.FMWT.updateWaveform t source = FMVib.wavetables.get? (toInt t).toNat :=
      key (toInt t) source h0 h8
    have e2 : FMVib.FMWT.updateWaveform t2 source2 = FMVib.wavetables.get? (toInt t2).toNat :=
      key (toInt t2) source2 h0' h8'
    rw [e, e2]
    generalize toInt t = n at h0 h8 hne
    generalize toInt t2 = m at h0' h8' hne
    interval_cases n <;> interval_cases m <;> first | exact absurd rfl hne | decide
  · intro h
    unfold FMVib.FMWT.updateWaveform
    have h' : toInt t < 0 ∨ 8 < toInt t := by
      by_contra hc
      exact h ⟨by omega, by omega⟩
    have n0 : toInt t ≠ 0 := by omega
    have n1 : toInt t ≠ 1 := by omega
    have n2 : toInt t ≠ 2 := by omega
    have n3 : toInt t ≠ 3 := by omega
    have n4 : toInt t ≠ 4 := by omega
    have n5 : toInt t ≠ 5 := by omega
    have n6 : toInt t ≠ 6 := by omega
    have n7 : toInt t ≠ 7 := by omega
    have n8 : toInt t ≠ 8 := by omega
    simp only [n0, n1, n2, n3, n4, n5, n6, n7, n8, if_false]

theorem toInt_of_nonneg (v : ℚ) (hv : 0 ≤ v) : toInt v = ⌊v⌋ := by
  rw [toInt, Int.tdiv_eq_ediv (Rat.num_nonneg.mpr hv) (Int.natCast_nonneg _), Rat.floor_def]

theorem toInt_eq (v : ℚ) (n : Int) (h0 : 0 ≤ n) (h1 : (n : ℚ) ≤ v) (h2 : v < (n : ℚ) + 1) :
    toInt v = n := by
  have hv : 0 ≤ v := le_trans (by exact_mod_cast h0) h1
  rw [toInt_of_nonneg v hv, Int.floor_eq_iff]
  exact ⟨h1, h2⟩

theorem toInt_sample_values : toInt 3.7 = 3 ∧ toInt 5 = 5 ∧ toInt 9.5 = 9 :=
  ⟨toInt_eq _ 3 (by decide) (by norm_num) (by norm_num),
    toInt_eq _ 5 (by decide) (by norm_num) (by norm_num),
    toInt_eq _ 9 (by decide) (by norm_num) (by norm_num)⟩

/-- C8 at the values 3.7 (table 3, `tbSin`), 5 (table 5, `tb__1`) and 9.5 (no
table: the carrier keeps `tbSaw`). -/
theorem updateWaveform_maps_table_number_witness :
    FMVib.FMWT.updateWaveform 3.7 none = some .tbSin ∧
      FMVib.FMWT.updateWaveform 3.7 none ≠ FMVib.FMWT.updateWaveform 5 none ∧
      FMVib.FMWT.updateWaveform 9.5 (some .tbSaw) = some .tbSaw :=
  ⟨by
      have h := ((updateWaveform_maps_table_number 3.7 5 none none).1
        (by rw [toInt_sample_values.1]; decide) (by rw [toInt_sample_values.1]; decide)).1
      rw [toInt_sample_values.1] at h
      exact h,
    (updateWaveform_maps_table_number 3.7 5 none none).2.1
      (by rw [toInt_sample_values.1]; decide) (by rw [toInt_sample_values.1]; decide)
      (by rw [toInt_sample_values.2.1]; decide) (by rw [toInt_sample_values.2.1]; decide)
      (by rw [toInt_sample_values.1, toInt_sample_values.2.1]; decide),
    (updateWaveform_maps_table_number 9.5 5 (some .tbSaw) none).2.2.1
      (by rw [toInt_sample_values.2.2]; decide)⟩

/-! ## The mesh drawn -/

theorem toInt_bounds (v : ℚ) (lo hi : Int) (hlo : 0 ≤ lo) (h0 : (lo : ℚ) ≤ v)
    (h1 : v ≤ (hi : ℚ)) : lo ≤ toInt v ∧ toInt v ≤ hi := by
  have hv : 0 ≤ v := le_trans (by exact_mod_cast hlo) h0
  rw [toInt_of_nonneg v hv]
  constructor
  · exact Int.le_floor.mpr h0
  · have h := Int.floor_le v
    have : ((⌊v⌋ : Int) : ℚ) ≤ (hi : ℚ) := le_trans h h1
    exact_mod_cast this

/-- C9: the mesh drawn is one of the `numb_waveform = 9` meshes.  For every
value of the parameter `table` within its declared range `[0, 8]`, the index
`shape = int(value)` used in `g.draw(mMesh[shape])` satisfies
`0 <= shape < numb_waveform`, so the access is inside the array; the range
declared for `table` is `[0, 8]` and 8 is `numb_waveform - 1`. -/
theorem shape_within_mesh_array (value : ℚ) (h0 : 0 ≤ value) (h8 : value ≤ 8) :
    0 ≤ FMVib.FMWT.shape value ∧
      FMVib.FMWT.shape value < FMVib.FMWT.numb_waveform ∧
      (∀ (μ : Type) (mMesh : List μ), mMesh.length = FMVib.FMWT.numb_waveform →
        (FMVib.FMWT.drawnMesh mMesh value).isSome = true) ∧
      (findParam FMVib.FMWT.parameters "table").map (fun p => (p.min, p.max)) = some (0, 8) ∧
      (8 : ℚ) = FMVib.FMWT.numb_waveform - 1 := by
  have hb := toInt_bounds value 0 8 le_rfl (by simpa using h0) (by simpa using h8)
  have hlt : FMVib.FMWT.shape value < FMVib.FMWT.numb_waveform := by
    have : toInt value < 9 := by omega
    simpa [FMVib.FMWT.shape, FMVib.FMWT.numb_waveform] using this
  refine ⟨hb.1, hlt, ?_, by decide, by norm_num [FMVib.FMWT.numb_waveform]⟩
  intro μ mMesh hlen
  have h1 : (FMVib.FMWT.shape value).toNat < mMesh.length := by
    rw [hlen]
    have := hb.2
    simp only [FMVib.FMWT.shape, FMVib.FMWT.numb_waveform]
    omega
  have h2 : (0 : Int) ≤ FMVib.FMWT.shape value := hb.1
  simp only [FMVib.FMWT.drawnMesh, h2, if_true]
  rw [List.get?_eq_get h1]
  rfl

/-- C9 at the value 3.7: mesh 3 of nine is drawn. -/
theorem shape_within_mesh_array_witness :
    (0 : ℚ) ≤ 3.7 ∧ (3.7 : ℚ) ≤ 8 ∧ FMVib.FMWT.shape 3.7 = 3 ∧
      FMVib.FMWT.shape 3.7 < FMVib.FMWT.numb_waveform ∧
      FMVib.FMWT.drawnMesh [10, 11, 12, 13, 14, 15, 16, 17, 18] 3.7 = some 13 :=
  ⟨by norm_num, by norm_num, toInt_sample_values.1,
    (shape_within_mesh_array 3.7 (by norm_num) (by norm_num)).2.1, by
      simp only [FMVib.FMWT.drawnMesh, FMVib.FMWT.shape, toInt_sample_values.1]
      rfl⟩

/-! ## The size of the spectrum -/

theorem FMVib.spectrogramLoop_isSome (spectrum : List FloatExpr) :
    ∀ (count i : Nat) (m : FMVib.Mesh), i + count ≤ spectrum.length →
      (FMVib.spectrogramLoop spectrum count i m).isSome = true := by
  intro count
  induction count with
  | zero => intro i m _; rfl
  | succ n ih =>
    intro i m h
    have hi : i < spectrum.length := by omega
    rw [FMVib.spectrogramLoop, List.get?_eq_get hi]
    exact ih (i + 1) _ (by omega)

theorem FMVib.binsLoop_some (binReal : Nat → FloatExpr) :
    ∀ (count k : Nat) (spectrum : List FloatExpr), k + count ≤ spectrum.length →
      ∃ after, FMVib.binsLoop binReal count k spectrum = some after ∧
        after.length = spectrum.length := by
  intro count
  induction count with
  | zero => intro k spectrum _; exact ⟨spectrum, rfl, rfl⟩
  | succ n ih =>
    intro k spectrum h
    have hk : k < spectrum.length := by omega
    rw [FMVib.binsLoop, if_pos hk]
    obtain ⟨after, h1, h2⟩ := ih (k + 1) (spectrum.set k _) (by simpa using by omega)
    exact ⟨after, h1, by simpa using h2⟩

/-- C10: the declared size of the spectrum covers every index used.  After
`onInit`, `spectrum` has `FFT_SIZE / 2 + 1 = 2025` entries (`FFT_SIZE` is
4048), so every index `i` with `0 <= i < FFT_SIZE / 2` read by `onDraw` is in
range and the loop of `onDraw` runs to its end; whenever
`stft.numBins() <= FFT_SIZE / 2 + 1`, every index `k < numBins()` written by
`onSound` is in range, the loop of `onSound` runs to its end and leaves the
size of `spectrum` as it was. -/
theorem spectrum_size_covers_indices (getPortCount : Nat) (getPortName : Nat → String)
    (before : List FloatExpr) (numBins : Nat) (binReal : Nat → FloatExpr) (showSpectro : Bool)
    (mSpectrogram : FMVib.Mesh) (hb : numBins ≤ FMVib.FFT_SIZE / 2 + 1) :
    FMVib.FFT_SIZE = 4048 ∧ FMVib.FFT_SIZE / 2 + 1 = 2025 ∧
      (FMVib.onInit getPortCount getPortName before).2.length = FMVib.FFT_SIZE / 2 + 1 ∧
      (∀ i, i < FMVib.FFT_SIZE / 2 →
        i < (FMVib.onInit getPortCount getPortName before).2.length) ∧
      (FMVib.onDraw showSpectro (FMVib.onInit getPortCount getPortName before).2
        mSpectrogram).isSome = true ∧
      (∀ k, k < numBins → k < (FMVib.onInit getPortCount getPortName before).2.length) ∧
      (∃ after, FMVib.onSoundBins numBins binReal
            (FMVib.onInit getPortCount getPortName before).2 = some after ∧
          after.length = FMVib.FFT_SIZE / 2 + 1 ∧
          (FMVib.onDraw showSpectro after mSpectrogram).isSome = true) := by
  have hlen : (FMVib.onInit getPortCount getPortName before).2.length =
      FMVib.FFT_SIZE / 2 + 1 := FMVib.resize_length _ _
  have hdraw : ∀ sp : List FloatExpr, sp.length = FMVib.FFT_SIZE / 2 + 1 →
      (FMVib.onDraw showSpectro sp mSpectrogram).isSome = true := by
    intro sp hsp
    unfold FMVib.onDraw
    cases showSpectro
    · rfl
    · exact FMVib.spectrogramLoop_isSome sp _ 0 _ (by omega)
  refine ⟨rfl, rfl, hlen, ?_, hdraw _ hlen, ?_, ?_⟩
  · intro i hi; omega
  · intro k hk; omega
  · obtain ⟨after, h1, h2⟩ := FMVib.binsLoop_some binReal numBins 0
      (FMVib.onInit getPortCount getPortName before).2 (by omega)
    exact ⟨after, h1, by omega, hdraw after (by omega)⟩

/-- C10 with no MIDI port, an empty `spectrum` before `onInit` and 2025
bins. -/
theorem spectrum_size_covers_indices_witness :
    2025 ≤ FMVib.FFT_SIZE / 2 + 1 ∧
      (FMVib.onInit 0 (fun _ => "") []).2.length = 2025 ∧
      (FMVib.onDraw true (FMVib.onInit 0 (fun _ => "") []).2 ⟨[], []⟩).isSome = true ∧
      (∃ after, FMVib.onSoundBins 2025 (fun _ => .var "bin")
            (FMVib.onInit 0 (fun _ => "") []).2 = some after ∧
          after.length = FMVib.FFT_SIZE / 2 + 1 ∧
          (FMVib.onDraw true after ⟨[], []⟩).isSome = true) :=
  ⟨by decide,
    (spectrum_size_covers_indices 0 (fun _ => "") [] 2025 (fun _ => .var "bin") true ⟨[], []⟩
      (by decide)).2.2.1,
    (spectrum_size_covers_indices 0 (fun _ => "") [] 2025 (fun _ => .var "bin") true ⟨[], []⟩
      (by decide)).2.2.2.2.1,
    (spectrum_size_covers_indices 0 (fun _ => "") [] 2025 (fun _ => .var "bin") true ⟨[], []⟩
      (by decide)).2.2.2.2.2.2⟩

/-! ## The spectrogram mesh -/

theorem FMVib.spectrogramLoop_lengths (spectrum : List FloatExpr) :
    ∀ (count i : Nat) (m : FMVib.Mesh), i + count ≤ spectrum.length →
      ∃ m2, FMVib.spectrogramLoop spectrum count i m = some m2 ∧
        m2.vertices.length = m.vertices.length + count ∧
        m2.colors.length = m.colors.length + count := by
  intro count
  induction count with
  | zero => intro i m _; exact ⟨m, rfl, rfl, rfl⟩
  | succ n ih =>
    intro i m h
    have hi : i < spectrum.length := by omega
    rw [FMVib.spectrogramLoop, List.get?_eq_get hi]
    obtain ⟨m2, h1, h2, h3⟩ := ih (i + 1) _ (by omega)
    refine ⟨m2, h1, ?_, ?_⟩
    · rw [h2]; simp only [List.length_append, List.length_singleton]; omega
    · rw [h3]; simp only [List.length_append, List.length_singleton]; omega

theorem FMVib.onDraw_lengths (showSpectro : Bool) (spectrum : List FloatExpr) (m : FMVib.Mesh)
    (h : FMVib.FFT_SIZE / 2 ≤ spectrum.length) :
    ∃ m2, FMVib.onDraw showSpectro spectrum m = some m2 ∧
      m2.vertices.length = (if showSpectro then FMVib.FFT_SIZE / 2 else 0) ∧
      m2.colors.length = (if showSpectro then FMVib.FFT_SIZE / 2 else 0) := by
  unfold FMVib.onDraw
  cases showSpectro
  · exact ⟨⟨[], []⟩, rfl, rfl, rfl⟩
  · obtain ⟨m2, h1, h2, h3⟩ :=
      FMVib.spectrogramLoop_lengths spectrum (FMVib.FFT_SIZE / 2) 0 m.reset (by omega)
    refine ⟨m2, h1, ?_, ?_⟩
    · rw [h2]; simp [FMVib.Mesh.reset]
    · rw [h3]; simp [FMVib.Mesh.reset]

theorem FMVib.onDrawFrames_append (frames : List (Bool × List FloatExpr)) :
    ∀ (m : FMVib.Mesh) (last : Bool × List FloatExpr),
      (∀ f ∈ frames, FMVib.FFT_SIZE / 2 ≤ f.2.length) →
      ∃ m1, FMVib.onDrawFrames (frames ++ [last]) m = FMVib.onDraw last.1 last.2 m1 := by
  induction frames with
  | nil =>
    intro m last _
    refine ⟨m, ?_⟩
    simp only [List.nil_append, FMVib.onDrawFrames]
    cases FMVib.onDraw last.1 last.2 m <;> rfl
  | cons f fs ih =>
    intro m last h
    obtain ⟨m2, h2, _, _⟩ := FMVib.onDraw_lengths f.1 f.2 m (h f (by simp))
    obtain ⟨m1, h1⟩ := ih m2 last (fun g hg => h g (List.mem_cons_of_mem _ hg))
    refine ⟨m1, ?_⟩
    rw [List.cons_append, FMVib.onDrawFrames, h2]
    exact h1

/-- C11: the spectrogram mesh is reset before new data is put in it.  After
every call of `MyApp::onDraw`, whatever frames were drawn before and whatever
the mesh held, `mSpectrogram` holds exactly `FFT_SIZE / 2 = 2024` vertices and
2024 colours when `showSpectro` is true, and none when it is false (the
spectrum having at least the `FFT_SIZE / 2` entries the loop reads, as it has
after `onInit`). -/
theorem onDraw_resets_spectrogram (earlier : List (Bool × List FloatExpr)) (showSpectro : Bool)
    (spectrum : List FloatExpr) (mSpectrogram : FMVib.Mesh)
    (hearlier : ∀ f ∈ earlier, FMVib.FFT_SIZE / 2 ≤ f.2.length)
    (hspectrum : FMVib.FFT_SIZE / 2 ≤ spectrum.length) :
    FMVib.FFT_SIZE / 2 = 2024 ∧
      ∃ m, FMVib.onDrawFrames (earlier ++ [(showSpectro, spectrum)]) mSpectrogram = some m ∧
        m.vertices.length = (if showSpectro then 2024 else 0) ∧
        m.colors.length = (if showSpectro then 2024 else 0) := by
  refine ⟨rfl, ?_⟩
  obtain ⟨m1, h1⟩ := FMVib.onDrawFrames_append earlier mSpectrogram (showSpectro, spectrum) hearlier
  obtain ⟨m, h2, h3, h4⟩ := FMVib.onDraw_lengths showSpectro spectrum m1 hspectrum
  exact ⟨m, by rw [h1]; exact h2, h3, h4⟩

/-- C11 on three frames (spectrogram shown, hidden, shown) of the spectrum
`onInit` leaves, starting from a mesh that already holds a vertex. -/
theorem onDraw_resets_spectrogram_witness :
    (∀ f ∈ [(true, (FMVib.onInit 0 (fun _ => "") []).2),
        (false, (FMVib.onInit 0 (fun _ => "") []).2)], FMVib.FFT_SIZE / 2 ≤ f.2.length) ∧
      FMVib.FFT_SIZE / 2 ≤ (FMVib.onInit 0 (fun _ => "") []).2.length ∧
      ∃ m, FMVib.onDrawFrames
          ([(true, (FMVib.onInit 0 (fun _ => "") []).2),
            (false, (FMVib.onInit 0 (fun _ => "") []).2)] ++
            [(true, (FMVib.onInit 0 (fun _ => "") []).2)])
          ⟨[⟨.lit 1, .lit 2, .lit 3⟩], [.lit 0]⟩ = some m ∧
        m.vertices.length = 2024 ∧ m.colors.length = 2024 :=
  have hlen : FMVib.FFT_SIZE / 2 ≤ (FMVib.onInit 0 (fun _ => "") []).2.length := by
    rw [show (FMVib.onInit 0 (fun _ => "") []).2.length = FMVib.FFT_SIZE / 2 + 1 from
      FMVib.resize_length _ _]
    omega
  have hall : ∀ f ∈ [(true, (FMVib.onInit 0 (fun _ => "") []).2),
      (false, (FMVib.onInit 0 (fun _ => "") []).2)], FMVib.FFT_SIZE / 2 ≤ f.2.length := by
    intro f hf
    simp only [List.mem_cons, List.mem_singleton, List.not_mem_nil, or_false] at hf
    rcases hf with rfl | rfl <;> exact hlen
  ⟨hall, hlen,
    (onDraw_resets_spectrogram _ true _ ⟨[⟨.lit 1, .lit 2, .lit 3⟩], [.lit 0]⟩ hall hlen).2⟩

/-! ## The three copies of the file reader -/

theorem split_trioLine {ν : Type} (stof : List Char → Option ν) (t : TrioLine ν)
    (h : t.WellFormed stof) :
    AlloPlayground.split t.text ',' = [t.xText, t.yText, t.zText] := by
  rw [TrioLine.text, split_line_cons _ _ _ h.1.2.1, split_line_cons _ _ _ h.2.1.2.1,
    split_single _ _ h.2.2.2.1 h.2.2.1]

theorem TrioLine.text_ne_either_tag {ν : Type} (t : TrioLine ν) :
    t.text ≠ openTag ∧ t.text ≠ closeTag := by
  have hm : ',' ∈ t.text := by simp [TrioLine.text]
  exact ⟨fun e => openTag_no_comma (e ▸ hm), fun e => closeTag_no_comma (e ▸ hm)⟩

theorem parseLine_trioLine {ν : Type} [Zero ν] (stof : List Char → Option ν) (t : TrioLine ν)
    (h : t.WellFormed stof) :
    UsMap.parseLine stof t.text = .ok ⟨t.x, t.y, t.z⟩ ∧
      Eq01.parseLine stof t.text = .ok ⟨t.x, t.y, 0⟩ ∧
      WorldMap.parseLine stof t.text = .ok ⟨t.x, t.y, 0⟩ := by
  have e : Eq01.parseLine stof t.text = .ok ⟨t.x, t.y, 0⟩ := by
    simp only [Eq01.parseLine, split_trioLine stof t h, partAt, List.get?, callStof,
      h.1.2.2.2, h.2.1.2.2.2, bind, Except.bind, pure, Except.pure]
  refine ⟨?_, e, e⟩
  simp only [UsMap.parseLine, split_trioLine stof t h, partAt, List.get?, callStof,
    h.1.2.2.2, h.2.1.2.2.2, h.2.2.2.2.2, bind, Except.bind, pure, Except.pure]

theorem readLoop_trios {ν : Type} [Zero ν] (stof : List Char → Option ν) :
    ∀ (lines : List (List Char)) (points : List (List (Vec3f ν))) (thisShape : List (Vec3f ν)),
      HoldsTrios stof lines →
      ∃ us, UsMap.readLoop stof lines points thisShape = .ok us ∧
        Eq01.readLoop stof lines (points.map (List.map Vec3f.withZeroZ))
          (thisShape.map Vec3f.withZeroZ) = .ok (us.map (List.map Vec3f.withZeroZ)) := by
  intro lines
  induction lines with
  | nil => intro points thisShape _; exact ⟨points, rfl, rfl⟩
  | cons l ls ih =>
    intro points thisShape h
    have hls : HoldsTrios stof ls := fun x hx => h x (List.mem_cons_of_mem _ hx)
    have hne : closeTag ≠ openTag := by decide
    by_cases h1 : l = openTag
    · subst h1
      obtain ⟨us, hu, hw⟩ := ih points thisShape hls
      refine ⟨us, ?_, ?_⟩
      · simpa only [UsMap.readLoop, if_true] using hu
      · rw [Eq01.readLoop_open]; exact hw
    · by_cases h2 : l = closeTag
      · subst h2
        obtain ⟨us, hu, hw⟩ := ih (points ++ [thisShape]) [] hls
        refine ⟨us, ?_, ?_⟩
        · simpa only [UsMap.readLoop, hne, if_true, if_false] using hu
        · rw [Eq01.readLoop_close]
          simpa using hw
      · obtain ⟨t, ht, rfl⟩ := h l (by simp) h1 h2
        obtain ⟨pu, pe, _⟩ := parseLine_trioLine stof t ht
        obtain ⟨us, hu, hw⟩ := ih points (thisShape ++ [⟨t.x, t.y, t.z⟩]) hls
        refine ⟨us, ?_, ?_⟩
        · simpa only [UsMap.readLoop, h1, h2, if_false, pu] using hu
        · rw [Eq01.readLoop_data stof _ _ _ _ h1 h2, pe]
          simpa [Vec3f.withZeroZ] using hw

/-- C13: the three copies of the file reader agree.  `split` is the same
function in `us_map.cpp`, `world_map_earthquakes.cpp` and `eq_01.cpp`;
`readPoints` of `eq_01.cpp` and of `world_map_earthquakes.cpp` give the same
result on every input; and on every input whose data lines each hold a trio
`x,y,z` of numbers, `readPoints` of `us_map.cpp` and the two world-map versions
all complete, with the same number of shapes, the same number of points in
each and the same `x` and `y`, `z` being the third field in `us_map.cpp` and 0
in the world-map versions. -/
theorem readers_agree {ν : Type} [Zero ν] (stof : List Char → Option ν) (content : List Char)
    (points : List (List (Vec3f ν))) (t : TrioLine ν)
    (htrios : HoldsTrios stof (AlloPlayground.split content '\n'))
    (ht : t.WellFormed stof) :
    (Eq01.split = WorldMap.split ∧ WorldMap.split = UsMap.split ∧
        UsMap.split = AlloPlayground.split) ∧
      (∀ (input : List Char) (before : List (List (Vec3f ν))),
        WorldMap.readPoints stof input before = Eq01.readPoints stof input before) ∧
      (UsMap.parseLine stof t.text = .ok ⟨t.x, t.y, t.z⟩ ∧
        Eq01.parseLine stof t.text = .ok ⟨t.x, t.y, 0⟩ ∧
        WorldMap.parseLine stof t.text = .ok ⟨t.x, t.y, 0⟩) ∧
      ∃ us, UsMap.readPoints stof content points = .ok us ∧
        Eq01.readPoints stof content (points.map (List.map Vec3f.withZeroZ)) =
          .ok (us.map (List.map Vec3f.withZeroZ)) ∧
        WorldMap.readPoints stof content (points.map (List.map Vec3f.withZeroZ)) =
          .ok (us.map (List.map Vec3f.withZeroZ)) ∧
        (us.map (List.map Vec3f.withZeroZ)).length = us.length ∧
        (us.map (List.map Vec3f.withZeroZ)).map List.length = us.map List.length := by
  have hw : ∀ (input : List Char) (before : List (List (Vec3f ν))),
      WorldMap.readPoints stof input before = Eq01.readPoints stof input before := by
    intro input before
    rw [WorldMap.readPoints, WorldMap.readLoop_eq]
    rfl
  refine ⟨⟨rfl, rfl, rfl⟩, hw, parseLine_trioLine stof t ht, ?_⟩
  obtain ⟨us, hu, he⟩ := readLoop_trios stof _ points [] htrios
  refine ⟨us, hu, he, ?_, by simp, ?_⟩
  · rw [hw]; exact he
  · simp [List.map_map, Function.comp]

theorem holdsTrios_sample :
    HoldsTrios digitsStof
      (AlloPlayground.split "<coordinates>\n1,2,3\n4,5,6\n</coordinates>\n".toList '\n') := by
  have hs : AlloPlayground.split "<coordinates>\n1,2,3\n4,5,6\n</coordinates>\n".toList '\n' =
      [openTag, "1,2,3".toList, "4,5,6".toList, closeTag] := by decide
  rw [hs]
  intro line hl h1 h2
  simp only [List.mem_cons, List.mem_singleton, List.not_mem_nil, or_false] at hl
  rcases hl with rfl | rfl | rfl | rfl
  · exact absurd rfl h1
  · exact ⟨⟨"1".toList, "2".toList, "3".toList, 1, 2, 3⟩, by decide, by decide⟩
  · exact ⟨⟨"4".toList, "5".toList, "6".toList, 4, 5, 6⟩, by decide, by decide⟩
  · exact absurd rfl h2

/-- C13 on a file of one block of two trios: `us_map.cpp` keeps the third
field, the world-map versions put 0. -/
theorem readers_agree_witness :
    HoldsTrios digitsStof
        (AlloPlayground.split "<coordinates>\n1,2,3\n4,5,6\n</coordinates>\n".toList '\n') ∧
      (⟨"1".toList, "2".toList, "3".toList, 1, 2, 3⟩ : TrioLine Nat).WellFormed digitsStof ∧
      UsMap.readPoints digitsStof "<coordinates>\n1,2,3\n4,5,6\n</coordinates>\n".toList [] =
        .ok [[⟨1, 2, 3⟩, ⟨4, 5, 6⟩]] ∧
      Eq01.readPoints digitsStof "<coordinates>\n1,2,3\n4,5,6\n</coordinates>\n".toList [] =
        .ok [[⟨1, 2, 0⟩, ⟨4, 5, 0⟩]] ∧
      ∃ us, UsMap.readPoints digitsStof
            "<coordinates>\n1,2,3\n4,5,6\n</coordinates>\n".toList [] = .ok us ∧
        Eq01.readPoints digitsStof "<coordinates>\n1,2,3\n4,5,6\n</coordinates>\n".toList
            (List.map (List.map Vec3f.withZeroZ) []) =
          .ok (us.map (List.map Vec3f.withZeroZ)) ∧
        WorldMap.readPoints digitsStof "<coordinates>\n1,2,3\n4,5,6\n</coordinates>\n".toList
            (List.map (List.map Vec3f.withZeroZ) []) =
          .ok (us.map (List.map Vec3f.withZeroZ)) ∧
        (us.map (List.map Vec3f.withZeroZ)).length = us.length ∧
        (us.map (List.map Vec3f.withZeroZ)).map List.length = us.map List.length :=
  ⟨holdsTrios_sample, by decide, by decide, by decide,
    (readers_agree digitsStof "<coordinates>\n1,2,3\n4,5,6\n</coordinates>\n".toList []
      ⟨"1".toList, "2".toList, "3".toList, 1, 2, 3⟩ holdsTrios_sample (by decide)).2.2.2⟩

/-! ## The envelopes of the FM voice -/

/-- C14 fails on the code: for every value of the parameters,
`FMWT::updateFromParameters` writes `mModEnv.lengths()[3]` (the release time)
and `mVibEnv.lengths()[3]`, and 3 is not below the three segments of
`gam::ADSR`; the other `lengths()` indices (0, 0, 1) and all `levels()` indices
(0 to 3) are in range.  The three-segment envelope of `eq_01.cpp` takes its
release time at index 2. -/
theorem updateFromParameters_writes_lengths_3 (getInternalParameterValue : String → FloatExpr) :
    FMVib.UpdateStep.setLength .mModEnv 3 (getInternalParameterValue "releaseTime") ∈
        FMVib.FMWT.updateFromParameters getInternalParameterValue ∧
      FMVib.UpdateStep.setLength .mVibEnv 3 (getInternalParameterValue "vibRise") ∈
        FMVib.FMWT.updateFromParameters getInternalParameterValue ∧
      ¬ (FMVib.UpdateStep.setLength .mModEnv 3 (getInternalParameterValue "releaseTime")).InRange ∧
      ¬ (∀ s ∈ FMVib.FMWT.updateFromParameters getInternalParameterValue, s.InRange) ∧
      (∀ env index value,
        FMVib.UpdateStep.setLevel env index value ∈
          FMVib.FMWT.updateFromParameters getInternalParameterValue →
        index < FMVib.ADSR.numLevels) ∧
      ((FMVib.FMWT.updateFromParameters getInternalParameterValue).filter
          (fun s => !decide s.InRange) =
        [.setLength .mModEnv 3 (getInternalParameterValue "releaseTime"),
          .setLength .mVibEnv 3 (getInternalParameterValue "vibRise")]) ∧
      (∀ s ∈ Eq01.SineEnv.envelopeWrites getInternalParameterValue, s.InRange) := by
  have h1 : FMVib.UpdateStep.setLength .mModEnv 3 (getInternalParameterValue "releaseTime") ∈
      FMVib.FMWT.updateFromParameters getInternalParameterValue := by
    simp [FMVib.FMWT.updateFromParameters]
  have h3 : ¬ (FMVib.UpdateStep.setLength .mModEnv 3
      (getInternalParameterValue "releaseTime")).InRange := by
    simp [FMVib.UpdateStep.InRange, FMVib.ADSR.numLengths]
  refine ⟨h1, by simp [FMVib.FMWT.updateFromParameters], h3, fun h => h3 (h _ h1), ?_, ?_, ?_⟩
  · intro env index value h
    simp only [FMVib.FMWT.updateFromParameters, List.mem_cons, List.mem_singleton,
      FMVib.UpdateStep.setLevel.injEq, List.not_mem_nil, or_false, reduceCtorEq, false_or,
      or_false] at h
    simp only [FMVib.ADSR.numLevels]
    rcases h with h | h | h | h <;> omega
  · simp [FMVib.FMWT.updateFromParameters, List.filter, FMVib.UpdateStep.InRange,
      FMVib.ADSR.numLengths, FMVib.ADSR.numLevels]
  · intro s hs
    simp only [Eq01.SineEnv.envelopeWrites, List.mem_cons, List.mem_singleton,
      List.not_mem_nil, or_false] at hs
    rcases hs with rfl | rfl <;> simp [FMVib.UpdateStep.InRange, FMVib.ADSR.numLengths]

/-! ## The tick loops -/

theorem forLoop_progression {σ : Type} (cond : ℚ → Bool) (next : ℚ → ℚ) (body : ℚ → σ → σ)
    (d : ℚ) (hnext : ∀ x, next x = x + d) :
    ∀ (n fuel : Nat) (v : ℚ) (s : σ), n < fuel →
      (∀ x ∈ progression n v d, cond x = true) → cond (v + n * d) = false →
      forLoop cond next body fuel v s =
        some ((progression n v d).foldl (fun s x => body x s) s) := by
  intro n
  induction n with
  | zero =>
    intro fuel v s hf _ hstop
    cases fuel with
    | zero => omega
    | succ f =>
      have hv : cond v = false := by simpa using hstop
      simp [forLoop, hv, progression]
  | succ n ih =>
    intro fuel v s hf hall hstop
    cases fuel with
    | zero => omega
    | succ f =>
      have hv : cond v = true := hall v (by simp [progression])
      have hstop2 : cond (v + d + (n : ℚ) * d) = false := by
        have e : v + d + (n : ℚ) * d = v + ((n + 1 : ℕ) : ℚ) * d := by push_cast; ring
        rw [e]; exact hstop
      have h := ih f (v + d) (body v s) (by omega)
        (fun x hx => hall x (by simp [progression, hx])) hstop2
      simp only [forLoop, hv, if_true, hnext, h, progression, List.foldl_cons]

theorem progression_eq_map (d : ℚ) :
    ∀ (n : Nat) (v : ℚ), progression n v d = (List.range n).map fun (k : Nat) => v + (k : ℚ) * d := by
  intro n
  induction n with
  | zero => intro v; rfl
  | succ n ih =>
    intro v
    rw [progression, ih, List.range_succ_eq_map, List.map_cons, List.map_map]
    simp only [Nat.cast_zero, zero_mul, add_zero, List.cons.injEq, true_and]
    apply List.map_congr_left
    intro k _
    simp only [Function.comp, Nat.succ_eq_add_one, Nat.cast_add, Nat.cast_one]
    ring

theorem progression_zero (n : Nat) (d : ℚ) : progression n 0 d = multiples n d := by
  rw [progression_eq_map, multiples]
  apply List.map_congr_left
  intro k _
  simp

theorem mem_multiples (n : Nat) (d x : ℚ) :
    x ∈ multiples n d ↔ ∃ k : Nat, k < n ∧ x = (k : ℚ) * d := by
  simp only [multiples, List.mem_map, List.mem_range]
  constructor
  · rintro ⟨k, hk, rfl⟩; exact ⟨k, hk, rfl⟩
  · rintro ⟨k, hk, rfl⟩; exact ⟨k, hk, rfl⟩

theorem forLoop_multiples {σ : Type} (cond : ℚ → Bool) (next : ℚ → ℚ) (body : ℚ → σ → σ)
    (d : ℚ) (hnext : ∀ x, next x = x + d) (n fuel : Nat) (s : σ) (hf : n < fuel)
    (hcount : ∀ k : Nat, k < n ↔ cond ((k : ℚ) * d) = true) :
    forLoop cond next body fuel 0 s = some ((multiples n d).foldl (fun s x => body x s) s) := by
  rw [← progression_zero]
  apply forLoop_progression cond next body d hnext n fuel 0 s hf
  · intro x hx
    rw [progression_zero, mem_multiples] at hx
    obtain ⟨k, hk, rfl⟩ := hx
    exact (hcount k).1 hk
  · have h := (hcount n).not.1 (lt_irrefl n)
    simpa using h

theorem forLoop_never_stops {σ : Type} (cond : ℚ → Bool) (next : ℚ → ℚ) (body : ℚ → σ → σ)
    (d : ℚ) (hnext : ∀ x, next x = x + d) :
    ∀ (fuel : Nat) (v : ℚ) (s : σ), (∀ k : Nat, cond (v + (k : ℚ) * d) = true) →
      forLoop cond next body fuel v s = none := by
  intro fuel
  induction fuel with
  | zero => intro v s _; rfl
  | succ f ih =>
    intro v s h
    have hv : cond v = true := by simpa using h 0
    rw [forLoop, if_pos hv, hnext]
    apply ih
    intro k
    have e : v + d + (k : ℚ) * d = v + ((k + 1 : ℕ) : ℚ) * d := by push_cast; ring
    rw [e]; exact h (k + 1)

theorem lt_upCountLt (maxX inc : ℚ) (hinc : 0 < inc) (k : Nat) :
    k < upCountLt maxX inc ↔ (k : ℚ) * inc < maxX := by
  unfold upCountLt
  by_cases h : 0 < maxX
  · rw [if_pos h, Int.lt_toNat, Int.lt_ceil, lt_div_iff₀ hinc]
    simp
  · rw [if_neg h]
    have : 0 ≤ (k : ℚ) * inc := mul_nonneg (Nat.cast_nonneg k) hinc.le
    constructor
    · intro hk; omega
    · intro hk; exact absurd (lt_of_le_of_lt this hk) h

theorem lt_upCountLe (maxY inc : ℚ) (hinc : 0 < inc) (k : Nat) :
    k < upCountLe maxY inc ↔ (k : ℚ) * inc ≤ maxY := by
  unfold upCountLe
  by_cases h : 0 ≤ maxY
  · have hfl : 0 ≤ ⌊maxY / inc⌋ := Int.floor_nonneg.2 (div_nonneg h hinc.le)
    rw [if_pos h, Nat.lt_succ_iff, Int.le_toNat hfl, Int.le_floor, le_div_iff₀ hinc]
    simp
  · rw [if_neg h]
    have : 0 ≤ (k : ℚ) * inc := mul_nonneg (Nat.cast_nonneg k) hinc.le
    constructor
    · intro hk; omega
    · intro hk; exact absurd (le_trans this hk) h

theorem lt_downCount (minX inc : ℚ) (hinc : 0 < inc) (k : Nat) :
    k < downCount minX inc ↔ minX ≤ (k : ℚ) * (-inc) := by
  unfold downCount
  by_cases h : minX ≤ 0
  · have hfl : 0 ≤ ⌊-minX / inc⌋ :=
      Int.floor_nonneg.2 (div_nonneg (neg_nonneg.2 h) hinc.le)
    rw [if_pos h, Nat.lt_succ_iff, Int.le_toNat hfl, Int.le_floor, le_div_iff₀ hinc]
    simp only [Int.cast_natCast]
    constructor <;> intro hk <;> linarith
  · rw [if_neg h]
    have : 0 ≤ (k : ℚ) * inc := mul_nonneg (Nat.cast_nonneg k) hinc.le
    constructor
    · intro hk; omega
    · intro hk; exfalso; apply h; linarith

theorem forLoop_upLt {σ : Type} (body : ℚ → σ → σ) (maxX inc : ℚ) (hinc : 0 < inc)
    (fuel : Nat) (s : σ) (hf : upCountLt maxX inc < fuel) :
    forLoop (fun x => decide (x < maxX)) (fun x => x + inc) body fuel 0 s =
      some ((multiples (upCountLt maxX inc) inc).foldl (fun s x => body x s) s) :=
  forLoop_multiples _ _ body inc (fun _ => rfl) _ fuel s hf
    (fun k => by simpa using lt_upCountLt maxX inc hinc k)

theorem forLoop_upLe {σ : Type} (body : ℚ → σ → σ) (maxY inc : ℚ) (hinc : 0 < inc)
    (fuel : Nat) (s : σ) (hf : upCountLe maxY inc < fuel) :
    forLoop (fun y => decide (y ≤ maxY)) (fun y => y + inc) body fuel 0 s =
      some ((multiples (upCountLe maxY inc) inc).foldl (fun s x => body x s) s) :=
  forLoop_multiples _ _ body inc (fun _ => rfl) _ fuel s hf
    (fun k => by simpa using lt_upCountLe maxY inc hinc k)

theorem forLoop_down {σ : Type} (body : ℚ → σ → σ) (minX inc : ℚ) (hinc : 0 < inc)
    (fuel : Nat) (s : σ) (hf : downCount minX inc < fuel) :
    forLoop (fun x => decide (x ≥ minX)) (fun x => x - inc) body fuel 0 s =
      some ((multiples (downCount minX inc) (-inc)).foldl (fun s x => body x s) s) :=
  forLoop_multiples _ _ body (-inc) (fun x => sub_eq_add_neg x inc) _ fuel s hf
    (fun k => by simpa using lt_downCount minX inc hinc k)

/-! ## What the axis helpers append -/

theorem foldl_proj_append {σ α : Type} (proj : σ → List α) (g : ℚ → List α) (body : ℚ → σ → σ)
    (h : ∀ x s, proj (body x s) = proj s ++ g x) :
    ∀ (ticks : List ℚ) (s : σ),
      proj (ticks.foldl (fun s x => body x s) s) = proj s ++ concatMap g ticks := by
  intro ticks
  induction ticks with
  | nil => intro s; simp [concatMap]
  | cons t ts ih =>
    intro s
    rw [List.foldl_cons, ih, h, concatMap, List.append_assoc]

theorem foldl_proj_keep {σ α : Type} (proj : σ → α) (body : ℚ → σ → σ)
    (h : ∀ x s, proj (body x s) = proj s) :
    ∀ (ticks : List ℚ) (s : σ), proj (ticks.foldl (fun s x => body x s) s) = proj s := by
  intro ticks
  induction ticks with
  | nil => intro s; rfl
  | cons t ts ih => intro s; rw [List.foldl_cons, ih, h]

theorem concatMap_append {α : Type} (g : ℚ → List α) :
    ∀ a b : List ℚ, concatMap g (a ++ b) = concatMap g a ++ concatMap g b := by
  intro a
  induction a with
  | nil => intro b; rfl
  | cons t ts ih => intro b; rw [List.cons_append, concatMap, concatMap, ih, List.append_assoc]

theorem concatMap_length {α : Type} (g : ℚ → List α) (c : Nat) (h : ∀ t, (g t).length = c) :
    ∀ ticks : List ℚ, (concatMap g ticks).length = c * ticks.length := by
  intro ticks
  induction ticks with
  | nil => rfl
  | cons t ts ih =>
    rw [concatMap, List.length_append, ih, h, List.length_cons, Nat.mul_succ, Nat.add_comm]

theorem multiples_length (n : Nat) (d : ℚ) : (multiples n d).length = n := by
  simp [multiples]

theorem xTicks_length (minX maxX inc : ℚ) :
    (xTicks minX maxX inc).length = upCountLt maxX inc + downCount minX inc := by
  simp [xTicks, multiples_length]

theorem yTicks_length (minY maxY inc : ℚ) :
    (yTicks minY maxY inc).length = upCountLe maxY inc + downCount minY inc := by
  simp [yTicks, multiples_length]

/-- The result of `drawXAxis` of `us_map.cpp` once both loops have fuel enough:
the two axis ends and the ticks of `xTicks` appended to `xAxis`, one label per
tick, then the colour and the drawing of the mesh. -/
theorem UsMap.drawXAxis_result (fuel : Nat)
    (minX maxX inc tickSize labelOffset fontSize : ℚ) (app : AxisApp) (hinc : 0 < inc)
    (hup : upCountLt maxX inc < fuel) (hdown : downCount minX inc < fuel) :
    UsMap.drawXAxis fuel minX maxX inc tickSize labelOffset fontSize app =
      some
        { xAxis := app.xAxis ++ [⟨minX, 0, 0⟩, ⟨maxX, 0, 0⟩] ++
            concatMap (xTickVertices tickSize) (xTicks minX maxX inc)
          yAxis := app.yAxis
          zAxis := app.zAxis
          calls := app.calls ++
            concatMap (fun x => [xLabel labelOffset fontSize x]) (xTicks minX maxX inc) ++
            [.color 1 1 0, .draw (app.xAxis ++ [⟨minX, 0, 0⟩, ⟨maxX, 0, 0⟩] ++
              concatMap (xTickVertices tickSize) (xTicks minX maxX inc))] } := by
  unfold UsMap.drawXAxis
  simp only [forLoop_upLt _ maxX inc hinc fuel _ hup, forLoop_down _ minX inc hinc fuel _ hdown,
    ← List.foldl_append]
  have hx := foldl_proj_append AxisApp.xAxis (xTickVertices tickSize)
    (UsMap.xTickBody tickSize labelOffset fontSize) (fun _ _ => rfl)
    (multiples (upCountLt maxX inc) inc ++ multiples (downCount minX inc) (-inc))
    { app with xAxis := app.xAxis ++ [⟨minX, 0, 0⟩, ⟨maxX, 0, 0⟩] }
  have hy := foldl_proj_keep AxisApp.yAxis
    (UsMap.xTickBody tickSize labelOffset fontSize) (fun _ _ => rfl)
    (multiples (upCountLt maxX inc) inc ++ multiples (downCount minX inc) (-inc))
    { app with xAxis := app.xAxis ++ [⟨minX, 0, 0⟩, ⟨maxX, 0, 0⟩] }
  have hz := foldl_proj_keep AxisApp.zAxis
    (UsMap.xTickBody tickSize labelOffset fontSize) (fun _ _ => rfl)
    (multiples (upCountLt maxX inc) inc ++ multiples (downCount minX inc) (-inc))
    { app with xAxis := app.xAxis ++ [⟨minX, 0, 0⟩, ⟨maxX, 0, 0⟩] }
  have hc := foldl_proj_append AxisApp.calls (fun x => [xLabel labelOffset fontSize x])
    (UsMap.xTickBody tickSize labelOffset fontSize) (fun _ _ => rfl)
    (multiples (upCountLt maxX inc) inc ++ multiples (downCount minX inc) (-inc))
    { app with xAxis := app.xAxis ++ [⟨minX, 0, 0⟩, ⟨maxX, 0, 0⟩] }
  simp only [xTicks, Option.some.injEq]
  rw [hx, hy, hz, hc]

/-- The result of `drawYAxis` of `us_map.cpp` once both loops have fuel
enough. -/
theorem UsMap.drawYAxis_result (fuel : Nat)
    (minY maxY inc tickSize labelOffset fontSize : ℚ) (app : AxisApp) (hinc : 0 < inc)
    (hup : upCountLe maxY inc < fuel) (hdown : downCount minY inc < fuel) :
    UsMap.drawYAxis fuel minY maxY inc tickSize labelOffset fontSize app =
      some
        { xAxis := app.xAxis
          yAxis := app.yAxis ++ [⟨0, minY, 0⟩, ⟨0, maxY, 0⟩] ++
            concatMap (yTickVertices tickSize) (yTicks minY maxY inc)
          zAxis := app.zAxis
          calls := app.calls ++
            concatMap (yLabelCalls labelOffset fontSize) (yTicks minY maxY inc) ++
            [.color 0 1 1, .draw (app.yAxis ++ [⟨0, minY, 0⟩, ⟨0, maxY, 0⟩] ++
              concatMap (yTickVertices tickSize) (yTicks minY maxY inc))] } := by
  unfold UsMap.drawYAxis
  simp only [forLoop_upLe _ maxY inc hinc fuel _ hup, forLoop_down _ minY inc hinc fuel _ hdown,
    ← List.foldl_append]
  have hx := foldl_proj_keep AxisApp.xAxis
    (UsMap.yTickBody tickSize labelOffset fontSize) (fun _ _ => rfl)
    (multiples (upCountLe maxY inc) inc ++ multiples (downCount minY inc) (-inc))
    { app with yAxis := app.yAxis ++ [⟨0, minY, 0⟩, ⟨0, maxY, 0⟩] }
  have hy := foldl_proj_append AxisApp.yAxis (yTickVertices tickSize)
    (UsMap.yTickBody tickSize labelOffset fontSize) (fun _ _ => rfl)
    (multiples (upCountLe maxY inc) inc ++ multiples (downCount minY inc) (-inc))
    { app with yAxis := app.yAxis ++ [⟨0, minY, 0⟩, ⟨0, maxY, 0⟩] }
  have hz := foldl_proj_keep AxisApp.zAxis
    (UsMap.yTickBody tickSize labelOffset fontSize) (fun _ _ => rfl)
    (multiples (upCountLe maxY inc) inc ++ multiples (downCount minY inc) (-inc))
    { app with yAxis := app.yAxis ++ [⟨0, minY, 0⟩, ⟨0, maxY, 0⟩] }
  have hc := foldl_proj_append AxisApp.calls (yLabelCalls labelOffset fontSize)
    (UsMap.yTickBody tickSize labelOffset fontSize)
    (fun _ _ => by simp [UsMap.yTickBody, UsMap.drawLabelY, yLabelCalls])
    (multiples (upCountLe maxY inc) inc ++ multiples (downCount minY inc) (-inc))
    { app with yAxis := app.yAxis ++ [⟨0, minY, 0⟩, ⟨0, maxY, 0⟩] }
  simp only [yTicks, Option.some.injEq]
  rw [hx, hy, hz, hc]

/-! ## The axis helpers are copies of one another -/

theorem forLoop_sim {σ τ : Type} (R : σ → τ → Prop) (cond : ℚ → Bool) (next : ℚ → ℚ)
    (b1 : ℚ → σ → σ) (b2 : ℚ → τ → τ) (h : ∀ x s t, R s t → R (b1 x s) (b2 x t)) :
    ∀ (fuel : Nat) (v : ℚ) (s : σ) (t : τ), R s t →
      (forLoop cond next b1 fuel v s = none ∧ forLoop cond next b2 fuel v t = none) ∨
        ∃ s2 t2, forLoop cond next b1 fuel v s = some s2 ∧
          forLoop cond next b2 fuel v t = some t2 ∧ R s2 t2 := by
  intro fuel
  induction fuel with
  | zero => intro v s t _; exact Or.inl ⟨rfl, rfl⟩
  | succ f ih =>
    intro v s t hr
    by_cases hc : cond v = true
    · simp only [forLoop, hc, if_true]
      exact ih (next v) (b1 v s) (b2 v t) (h v s t hr)
    · simp only [forLoop, hc, if_false, Bool.false_eq_true]
      exact Or.inr ⟨s, t, rfl, rfl, hr⟩

theorem forLoop_keep {σ α : Type} (proj : σ → α) (cond : ℚ → Bool) (next : ℚ → ℚ)
    (body : ℚ → σ → σ) (h : ∀ x s, proj (body x s) = proj s) :
    ∀ (fuel : Nat) (v : ℚ) (s s2 : σ), forLoop cond next body fuel v s = some s2 →
      proj s2 = proj s := by
  intro fuel
  induction fuel with
  | zero => intro v s s2 hs; simp [forLoop] at hs
  | succ f ih =>
    intro v s s2 hs
    by_cases hc : cond v = true
    · simp only [forLoop, hc, if_true] at hs
      rw [ih _ _ _ hs, h]
    · simp only [forLoop, hc, if_false, Bool.false_eq_true, Option.some.injEq] at hs
      rw [hs]

/-- Whenever `drawAxes` of `2D-axis-demo.cpp` returns, `drawXAxis` and
`drawYAxis` of `us_map.cpp` return on the same arguments, application and
fuel, with the same vertices in `xAxis` and in `yAxis`. -/
theorem drawAxes_vertices (fuel : Nat)
    (minX maxX minY maxY inc tickSize labelOffset fontSize : ℚ) (app a : AxisApp)
    (ha : AxisDemo.drawAxes fuel minX maxX minY maxY inc tickSize labelOffset fontSize app =
      some a) :
    ∃ x y, UsMap.drawXAxis fuel minX maxX inc tickSize labelOffset fontSize app = some x ∧
      UsMap.drawYAxis fuel minY maxY inc tickSize labelOffset fontSize app = some y ∧
      a.xAxis = x.xAxis ∧ a.yAxis = y.yAxis := by
  unfold AxisDemo.drawAxes at ha
  unfold UsMap.drawXAxis UsMap.drawYAxis
  have kx : ∀ x s, AxisApp.yAxis (AxisDemo.xTickBody tickSize labelOffset fontSize x s) =
      AxisApp.yAxis s := fun _ _ => rfl
  have ky : ∀ x s, AxisApp.xAxis (AxisDemo.yTickBody tickSize labelOffset fontSize x s) =
      AxisApp.xAxis s := fun _ _ => rfl
  rcases forLoop_sim (fun s t : AxisApp => s.xAxis = t.xAxis) (fun x => decide (x < maxX))
      (fun x => x + inc) (AxisDemo.xTickBody tickSize labelOffset fontSize)
      (UsMap.xTickBody tickSize labelOffset fontSize)
      (fun x s t (hr : s.xAxis = t.xAxis) => by
        show s.xAxis ++ _ = t.xAxis ++ _
        rw [hr]) fuel 0
      { app with
        xAxis := app.xAxis ++ [⟨minX, 0, 0⟩, ⟨maxX, 0, 0⟩]
        yAxis := app.yAxis ++ [⟨0, minY, 0⟩, ⟨0, maxY, 0⟩] }
      { app with xAxis := app.xAxis ++ [⟨minX, 0, 0⟩, ⟨maxX, 0, 0⟩] } rfl with
    ⟨h1, _⟩ | ⟨a2, x2, ha2, hx2, r2⟩
  · simp only [h1] at ha
    exact absurd ha (by simp)
  simp only [ha2] at ha
  rcases forLoop_sim (fun s t : AxisApp => s.xAxis = t.xAxis) (fun x => decide (x ≥ minX))
      (fun x => x - inc) (AxisDemo.xTickBody tickSize labelOffset fontSize)
      (UsMap.xTickBody tickSize labelOffset fontSize)
      (fun x s t (hr : s.xAxis = t.xAxis) => by
        show s.xAxis ++ _ = t.xAxis ++ _
        rw [hr]) fuel 0 a2 x2 r2 with
    ⟨h1, _⟩ | ⟨a3, x3, ha3, hx3, r3⟩
  · simp only [h1] at ha
    exact absurd ha (by simp)
  simp only [ha3] at ha
  have hy2 := forLoop_keep AxisApp.yAxis _ _ _ kx fuel 0 _ a2 ha2
  have hy3 := forLoop_keep AxisApp.yAxis _ _ _ kx fuel 0 _ a3 ha3
  rcases forLoop_sim (fun s t : AxisApp => s.yAxis = t.yAxis) (fun y => decide (y ≤ maxY))
      (fun y => y + inc) (AxisDemo.yTickBody tickSize labelOffset fontSize)
      (UsMap.yTickBody tickSize labelOffset fontSize)
      (fun x s t (hr : s.yAxis = t.yAxis) => by
        show s.yAxis ++ _ = t.yAxis ++ _
        rw [hr]) fuel 0 a3
      { app with yAxis := app.yAxis ++ [⟨0, minY, 0⟩, ⟨0, maxY, 0⟩] }
      (by show a3.yAxis = _; rw [hy3, hy2]) with
    ⟨h1, _⟩ | ⟨a4, y2, ha4, hy2', r4⟩
  · simp only [h1] at ha
    exact absurd ha (by simp)
  simp only [ha4] at ha
  rcases forLoop_sim (fun s t : AxisApp => s.yAxis = t.yAxis) (fun y => decide (y ≥ minY))
      (fun y => y - inc) (AxisDemo.yTickBody tickSize labelOffset fontSize)
      (UsMap.yTickBody tickSize labelOffset fontSize)
      (fun x s t (hr : s.yAxis = t.yAxis) => by
        show s.yAxis ++ _ = t.yAxis ++ _
        rw [hr]) fuel 0 a4 y2 r4 with
    ⟨h1, _⟩ | ⟨a5, y3, ha5, hy3', r5⟩
  · simp only [h1] at ha
    exact absurd ha (by simp)
  simp only [ha5, Option.some.injEq] at ha
  have hx4 := forLoop_keep AxisApp.xAxis _ _ _ ky fuel 0 _ a4 ha4
  have hx5 := forLoop_keep AxisApp.xAxis _ _ _ ky fuel 0 _ a5 ha5
  simp only [hx2, hx3, hy2', hy3']
  refine ⟨_, _, rfl, rfl, ?_, ?_⟩
  · rw [← ha]
    show a5.xAxis = x3.xAxis
    rw [hx5, hx4, r3]
  · rw [← ha]
    exact r5

theorem foldl_count (ticks : List ℚ) :
    ∀ n : Nat, ticks.foldl (fun count _ => count + 1) n = n + ticks.length := by
  induction ticks with
  | nil => intro n; rfl
  | cons t ts ih => intro n; rw [List.foldl_cons, ih, List.length_cons]; omega

theorem loopIterations_upLt (maxX inc : ℚ) (hinc : 0 < inc) (fuel : Nat)
    (hf : upCountLt maxX inc < fuel) :
    loopIterations (fun x => decide (x < maxX)) (fun x => x + inc) fuel =
      some (upCountLt maxX inc) := by
  rw [loopIterations, forLoop_upLt _ maxX inc hinc fuel _ hf, foldl_count, multiples_length,
    Nat.zero_add]

theorem loopIterations_upLe (maxY inc : ℚ) (hinc : 0 < inc) (fuel : Nat)
    (hf : upCountLe maxY inc < fuel) :
    loopIterations (fun y => decide (y ≤ maxY)) (fun y => y + inc) fuel =
      some (upCountLe maxY inc) := by
  rw [loopIterations, forLoop_upLe _ maxY inc hinc fuel _ hf, foldl_count, multiples_length,
    Nat.zero_add]

theorem loopIterations_down (minX inc : ℚ) (hinc : 0 < inc) (fuel : Nat)
    (hf : downCount minX inc < fuel) :
    loopIterations (fun x => decide (x ≥ minX)) (fun x => x - inc) fuel =
      some (downCount minX inc) := by
  rw [loopIterations, forLoop_down _ minX inc hinc fuel _ hf, foldl_count, multiples_length,
    Nat.zero_add]

/-- A loop that reaches its exit with one body reaches it with every body: the
loop variable does not depend on the body. -/
theorem forLoop_isSome_of_iterations {σ : Type} (cond : ℚ → Bool) (next : ℚ → ℚ)
    (body : ℚ → σ → σ) (fuel t : Nat) (s : σ) (h : loopIterations cond next fuel = some t) :
    ∃ s2, forLoop cond next body fuel 0 s = some s2 := by
  rcases forLoop_sim (fun (_ : Nat) (_ : σ) => True) cond next (fun _ count => count + 1) body
      (fun _ _ _ _ => trivial) fuel 0 0 s trivial with ⟨h1, _⟩ | ⟨_, s2, _, h2, _⟩
  · rw [loopIterations, h1] at h; exact absurd h (by simp)
  · exact ⟨s2, h2⟩

/-- A loop whose body appends `c` elements to a list of the state appends
`c * t` elements in all, `t` being the number of times it runs. -/
theorem forLoop_appends {σ α : Type} (proj : σ → List α) (cond : ℚ → Bool) (next : ℚ → ℚ)
    (body : ℚ → σ → σ) (c : Nat)
    (h : ∀ x s, ∃ added, proj (body x s) = proj s ++ added ∧ added.length = c) :
    ∀ (fuel : Nat) (v : ℚ) (s s2 : σ) (n0 : Nat), forLoop cond next body fuel v s = some s2 →
      ∃ t added, forLoop cond next (fun _ count => count + 1) fuel v n0 = some (n0 + t) ∧
        proj s2 = proj s ++ added ∧ added.length = c * t := by
  intro fuel
  induction fuel with
  | zero => intro v s s2 n0 hs; simp [forLoop] at hs
  | succ f ih =>
    intro v s s2 n0 hs
    by_cases hc : cond v = true
    · simp only [forLoop, hc, if_true] at hs ⊢
      obtain ⟨t, added, h1, h2, h3⟩ := ih (next v) (body v s) s2 (n0 + 1) hs
      obtain ⟨first, hb, hl⟩ := h v s
      refine ⟨t + 1, first ++ added, ?_, ?_, ?_⟩
      · rw [h1]; congr 1; omega
      · rw [h2, hb, List.append_assoc]
      · rw [List.length_append, hl, h3, Nat.mul_succ, Nat.add_comm]
    · simp only [forLoop, hc, if_false, Bool.false_eq_true, Option.some.injEq] at hs ⊢
      exact ⟨0, [], rfl, by rw [hs, List.append_nil], rfl⟩

theorem AxisDemo.drawAxes_isSome (fuel : Nat)
    (minX maxX minY maxY inc tickSize labelOffset fontSize : ℚ) (app : AxisApp) (hinc : 0 < inc)
    (h1 : upCountLt maxX inc < fuel) (h2 : downCount minX inc < fuel)
    (h3 : upCountLe maxY inc < fuel) (h4 : downCount minY inc < fuel) :
    ∃ a, AxisDemo.drawAxes fuel minX maxX minY maxY inc tickSize labelOffset fontSize app =
      some a := by
  unfold AxisDemo.drawAxes
  simp only [forLoop_upLt _ maxX inc hinc fuel _ h1, forLoop_down _ minX inc hinc fuel _ h2,
    forLoop_upLe _ maxY inc hinc fuel _ h3, forLoop_down _ minY inc hinc fuel _ h4]
  exact ⟨_, rfl⟩

/-- C12: the axis helpers are copies of one another.  `drawLabelX`,
`drawLabelY`, `drawXAxis` and `drawYAxis` of `us_map.cpp`,
`world_map_earthquakes.cpp` and `eq_01.cpp` are the same functions: on the same
arguments and the same application they append the same vertices and render
the same label texts at the same positions.  Whenever
`drawAxes(minX, maxX, minY, maxY, inc, tickSize, ...)` of `2D-axis-demo.cpp`
returns, `drawXAxis(minX, maxX, inc, tickSize, ...)` and
`drawYAxis(minY, maxY, inc, tickSize, ...)` return from the same meshes, and
`xAxis` and `yAxis` hold the same vertex sequences after `drawAxes` as after
them. -/
theorem axis_helpers_are_copies (fuel : Nat)
    (minX maxX minY maxY inc tickSize labelOffset fontSize : ℚ) (app a : AxisApp)
    (ha : AxisDemo.drawAxes fuel minX maxX minY maxY inc tickSize labelOffset fontSize app =
      some a) :
    (UsMap.drawLabelX = WorldMap.drawLabelX ∧ WorldMap.drawLabelX = Eq01.drawLabelX ∧
        UsMap.drawLabelY = WorldMap.drawLabelY ∧ WorldMap.drawLabelY = Eq01.drawLabelY ∧
        UsMap.drawXAxis = WorldMap.drawXAxis ∧ WorldMap.drawXAxis = Eq01.drawXAxis ∧
        UsMap.drawYAxis = WorldMap.drawYAxis ∧ WorldMap.drawYAxis = Eq01.drawYAxis) ∧
      ∃ x y, UsMap.drawXAxis fuel minX maxX inc tickSize labelOffset fontSize app = some x ∧
        UsMap.drawYAxis fuel minY maxY inc tickSize labelOffset fontSize app = some y ∧
        a.xAxis = x.xAxis ∧ a.yAxis = y.yAxis :=
  ⟨⟨rfl, rfl, rfl, rfl, rfl, rfl, rfl, rfl⟩,
    drawAxes_vertices fuel minX maxX minY maxY inc tickSize labelOffset fontSize app a ha⟩

/-! ## The axis meshes grow -/

/-- What one tick loop does to three lists of the state, when its body appends
four elements to the first and leaves the other two: it appends `4 * t`
elements to the first, `t` being the number of times the loop runs. -/
theorem tickLoop_effect {σ α : Type} (p1 p2 p3 : σ → List α) (cond : ℚ → Bool) (next : ℚ → ℚ)
    (body : ℚ → σ → σ)
    (h1 : ∀ x s, ∃ added, p1 (body x s) = p1 s ++ added ∧ added.length = 4)
    (h2 : ∀ x s, p2 (body x s) = p2 s) (h3 : ∀ x s, p3 (body x s) = p3 s)
    (fuel : Nat) (s s2 : σ) (hs : forLoop cond next body fuel 0 s = some s2) :
    ∃ t added, loopIterations cond next fuel = some t ∧ p1 s2 = p1 s ++ added ∧
      added.length = 4 * t ∧ p2 s2 = p2 s ∧ p3 s2 = p3 s := by
  obtain ⟨t, added, ht, ha, hl⟩ := forLoop_appends p1 cond next body 4 h1 fuel 0 s s2 0 hs
  refine ⟨t, added, ?_, ha, hl, forLoop_keep p2 cond next body h2 fuel 0 s s2 hs,
    forLoop_keep p3 cond next body h3 fuel 0 s s2 hs⟩
  rw [loopIterations, ht, Nat.zero_add]

/-- Each call of `drawXAxis` of `us_map.cpp` that returns has appended
`2 + 4 * t` vertices to `xAxis`, `t` being the number of runs of its two tick
loops, and has removed none. -/
theorem UsMap.drawXAxis_appends (fuel : Nat)
    (minX maxX inc tickSize labelOffset fontSize : ℚ) (app app2 : AxisApp)
    (h : UsMap.drawXAxis fuel minX maxX inc tickSize labelOffset fontSize app = some app2) :
    ∃ t1 t2 added,
      loopIterations (fun x => decide (x < maxX)) (fun x => x + inc) fuel = some t1 ∧
      loopIterations (fun x => decide (x ≥ minX)) (fun x => x - inc) fuel = some t2 ∧
      app2.xAxis = app.xAxis ++ added ∧ added.length = 2 + 4 * (t1 + t2) := by
  unfold UsMap.drawXAxis at h
  dsimp only at h
  split at h
  · exact absurd h (by simp)
  rename_i s2 e1
  split at h
  · exact absurd h (by simp)
  rename_i s3 e2
  simp only [Option.some.injEq] at h
  obtain ⟨t1, a1, i1, x1, l1, _, _⟩ := tickLoop_effect AxisApp.xAxis AxisApp.yAxis AxisApp.zAxis
    _ _ (UsMap.xTickBody tickSize labelOffset fontSize)
    (fun x s => ⟨xTickVertices tickSize x, rfl, rfl⟩) (fun _ _ => rfl) (fun _ _ => rfl)
    fuel _ s2 e1
  obtain ⟨t2, a2, i2, x2, l2, _, _⟩ := tickLoop_effect AxisApp.xAxis AxisApp.yAxis AxisApp.zAxis
    _ _ (UsMap.xTickBody tickSize labelOffset fontSize)
    (fun x s => ⟨xTickVertices tickSize x, rfl, rfl⟩) (fun _ _ => rfl) (fun _ _ => rfl)
    fuel _ s3 e2
  refine ⟨t1, t2, [⟨minX, 0, 0⟩, ⟨maxX, 0, 0⟩] ++ a1 ++ a2, i1, i2, ?_, ?_⟩
  · rw [← h]
    show s3.xAxis = _
    rw [x2, x1]
    simp only [List.append_assoc]
  · simp only [List.length_append, List.length_cons, List.length_nil, l1, l2]
    omega

/-- Each call of `drawYAxis` of `us_map.cpp` that returns has appended
`2 + 4 * t` vertices to `yAxis`. -/
theorem UsMap.drawYAxis_appends (fuel : Nat)
    (minY maxY inc tickSize labelOffset fontSize : ℚ) (app app2 : AxisApp)
    (h : UsMap.drawYAxis fuel minY maxY inc tickSize labelOffset fontSize app = some app2) :
    ∃ t1 t2 added,
      loopIterations (fun y => decide (y ≤ maxY)) (fun y => y + inc) fuel = some t1 ∧
      loopIterations (fun y => decide (y ≥ minY)) (fun y => y - inc) fuel = some t2 ∧
      app2.yAxis = app.yAxis ++ added ∧ added.length = 2 + 4 * (t1 + t2) := by
  unfold UsMap.drawYAxis at h
  dsimp only at h
  split at h
  · exact absurd h (by simp)
  rename_i s2 e1
  split at h
  · exact absurd h (by simp)
  rename_i s3 e2
  simp only [Option.some.injEq] at h
  obtain ⟨t1, a1, i1, x1, l1, _, _⟩ := tickLoop_effect AxisApp.yAxis AxisApp.xAxis AxisApp.zAxis
    _ _ (UsMap.yTickBody tickSize labelOffset fontSize)
    (fun y s => ⟨yTickVertices tickSize y, rfl, rfl⟩) (fun _ _ => rfl) (fun _ _ => rfl)
    fuel _ s2 e1
  obtain ⟨t2, a2, i2, x2, l2, _, _⟩ := tickLoop_effect AxisApp.yAxis AxisApp.xAxis AxisApp.zAxis
    _ _ (UsMap.yTickBody tickSize labelOffset fontSize)
    (fun y s => ⟨yTickVertices tickSize y, rfl, rfl⟩) (fun _ _ => rfl) (fun _ _ => rfl)
    fuel _ s3 e2
  refine ⟨t1, t2, [⟨0, minY, 0⟩, ⟨0, maxY, 0⟩] ++ a1 ++ a2, i1, i2, ?_, ?_⟩
  · rw [← h]
    show s3.yAxis = _
    rw [x2, x1]
    simp only [List.append_assoc]
  · simp only [List.length_append, List.length_cons, List.length_nil, l1, l2]
    omega

/-- Each call of `drawAxes` of `2D-axis-demo.cpp` that returns has appended
`2 + 4 * t` vertices to `xAxis` and to `yAxis`, `t` being for each axis the
number of runs of its two tick loops. -/
theorem AxisDemo.drawAxes_appends (fuel : Nat)
    (minX maxX minY maxY inc tickSize labelOffset fontSize : ℚ) (app app2 : AxisApp)
    (h : AxisDemo.drawAxes fuel minX maxX minY maxY inc tickSize labelOffset fontSize app =
      some app2) :
    ∃ t1 t2 t3 t4 addedX addedY,
      loopIterations (fun x => decide (x < maxX)) (fun x => x + inc) fuel = some t1 ∧
      loopIterations (fun x => decide (x ≥ minX)) (fun x => x - inc) fuel = some t2 ∧
      loopIterations (fun y => decide (y ≤ maxY)) (fun y => y + inc) fuel = some t3 ∧
      loopIterations (fun y => decide (y ≥ minY)) (fun y => y - inc) fuel = some t4 ∧
      app2.xAxis = app.xAxis ++ addedX ∧ addedX.length = 2 + 4 * (t1 + t2) ∧
      app2.yAxis = app.yAxis ++ addedY ∧ addedY.length = 2 + 4 * (t3 + t4) := by
  unfold AxisDemo.drawAxes at h
  dsimp only at h
  split at h
  · exact absurd h (by simp)
  rename_i s2 e1
  split at h
  · exact absurd h (by simp)
  rename_i s3 e2
  split at h
  · exact absurd h (by simp)
  rename_i s4 e3
  split at h
  · exact absurd h (by simp)
  rename_i s5 e4
  simp only [Option.some.injEq] at h
  obtain ⟨t1, a1, i1, x1, l1, y1, _⟩ := tickLoop_effect AxisApp.xAxis AxisApp.yAxis AxisApp.zAxis
    _ _ (AxisDemo.xTickBody tickSize labelOffset fontSize)
    (fun x s => ⟨xTickVertices tickSize x, rfl, rfl⟩) (fun _ _ => rfl) (fun _ _ => rfl)
    fuel _ s2 e1
  obtain ⟨t2, a2, i2, x2, l2, y2, _⟩ := tickLoop_effect AxisApp.xAxis AxisApp.yAxis AxisApp.zAxis
    _ _ (AxisDemo.xTickBody tickSize labelOffset fontSize)
    (fun x s => ⟨xTickVertices tickSize x, rfl, rfl⟩) (fun _ _ => rfl) (fun _ _ => rfl)
    fuel _ s3 e2
  obtain ⟨t3, a3, i3, y3, l3, x3, _⟩ := tickLoop_effect AxisApp.yAxis AxisApp.xAxis AxisApp.zAxis
    _ _ (AxisDemo.yTickBody tickSize labelOffset fontSize)
    (fun y s => ⟨yTickVertices tickSize y, rfl, rfl⟩) (fun _ _ => rfl) (fun _ _ => rfl)
    fuel _ s4 e3
  obtain ⟨t4, a4, i4, y4, l4, x4, _⟩ := tickLoop_effect AxisApp.yAxis AxisApp.xAxis AxisApp.zAxis
    _ _ (AxisDemo.yTickBody tickSize labelOffset fontSize)
    (fun y s => ⟨yTickVertices tickSize y, rfl, rfl⟩) (fun _ _ => rfl) (fun _ _ => rfl)
    fuel _ s5 e4
  refine ⟨t1, t2, t3, t4, [⟨minX, 0, 0⟩, ⟨maxX, 0, 0⟩] ++ a1 ++ a2,
    [⟨0, minY, 0⟩, ⟨0, maxY, 0⟩] ++ a3 ++ a4, i1, i2, i3, i4, ?_, ?_, ?_, ?_⟩
  · rw [← h]
    show s5.xAxis = _
    rw [x4, x3, x2, x1]
    simp only [List.append_assoc]
  · simp only [List.length_append, List.length_cons, List.length_nil, l1, l2]
    omega
  · rw [← h]
    show s5.yAxis = _
    rw [y4, y3, y2, y1]
    simp only [List.append_assoc]
  · simp only [List.length_append, List.length_cons, List.length_nil, l3, l4]
    omega

/-- Each call of `draw3DAxes` of `3D-axes.cpp` that returns has appended
`2 + 4 * t` vertices to each of `xAxis`, `yAxis` and `zAxis`, `t` being for
each axis the number of runs of its two tick loops. -/
theorem Axes3D.draw3DAxes_appends (fuel : Nat)
    (dim inc tickSize labelOffset fontSize : ℚ) (app app2 : AxisApp)
    (h : Axes3D.draw3DAxes fuel dim inc tickSize labelOffset fontSize app = some app2) :
    ∃ t1 t2 t3 t4 addedX addedY addedZ,
      loopIterations (fun x => decide (x < dim)) (fun x => x + inc) fuel = some t1 ∧
      loopIterations (fun x => decide (x ≥ -dim)) (fun x => x - inc) fuel = some t2 ∧
      loopIterations (fun y => decide (y ≤ dim)) (fun y => y + inc) fuel = some t3 ∧
      loopIterations (fun y => decide (y ≥ -dim)) (fun y => y - inc) fuel = some t4 ∧
      app2.xAxis = app.xAxis ++ addedX ∧ addedX.length = 2 + 4 * (t1 + t2) ∧
      app2.yAxis = app.yAxis ++ addedY ∧ addedY.length = 2 + 4 * (t3 + t4) ∧
      app2.zAxis = app.zAxis ++ addedZ ∧ addedZ.length = 2 + 4 * (t3 + t4) := by
  unfold Axes3D.draw3DAxes at h
  dsimp only at h
  split at h
  · exact absurd h (by simp)
  rename_i s7 e
  simp only [Option.some.injEq] at h
  unfold Axes3D.tickLoops at e
  split at e
  · exact absurd e (by simp)
  rename_i s2 e1
  split at e
  · exact absurd e (by simp)
  rename_i s3 e2
  split at e
  · exact absurd e (by simp)
  rename_i s4 e3
  split at e
  · exact absurd e (by simp)
  rename_i s5 e4
  split at e
  · exact absurd e (by simp)
  rename_i s6 e5
  obtain ⟨t1, a1, i1, x1, l1, y1, z1⟩ := tickLoop_effect AxisApp.xAxis AxisApp.yAxis AxisApp.zAxis
    _ _ (Axes3D.xTickBody tickSize labelOffset fontSize)
    (fun x s => ⟨xTickVertices tickSize x, rfl, rfl⟩) (fun _ _ => rfl) (fun _ _ => rfl)
    fuel _ s2 e1
  obtain ⟨t2, a2, i2, x2, l2, y2, z2⟩ := tickLoop_effect AxisApp.xAxis AxisApp.yAxis AxisApp.zAxis
    _ _ (Axes3D.xTickBody tickSize labelOffset fontSize)
    (fun x s => ⟨xTickVertices tickSize x, rfl, rfl⟩) (fun _ _ => rfl) (fun _ _ => rfl)
    fuel _ s3 e2
  obtain ⟨t3, a3, i3, y3, l3, x3, z3⟩ := tickLoop_effect AxisApp.yAxis AxisApp.xAxis AxisApp.zAxis
    _ _ (Axes3D.yTickBody tickSize labelOffset fontSize)
    (fun y s => ⟨yTickVertices tickSize y, rfl, rfl⟩) (fun _ _ => rfl) (fun _ _ => rfl)
    fuel _ s4 e3
  obtain ⟨t4, a4, i4, y4, l4, x4, z4⟩ := tickLoop_effect AxisApp.yAxis AxisApp.xAxis AxisApp.zAxis
    _ _ (Axes3D.yTickBody tickSize labelOffset fontSize)
    (fun y s => ⟨yTickVertices tickSize y, rfl, rfl⟩) (fun _ _ => rfl) (fun _ _ => rfl)
    fuel _ s5 e4
  obtain ⟨t5, a5, i5, z5, l5, x5, y5⟩ := tickLoop_effect AxisApp.zAxis AxisApp.xAxis AxisApp.yAxis
    _ _ (Axes3D.zTickBody tickSize labelOffset fontSize)
    (fun z s => ⟨zTickVertices tickSize z, rfl, rfl⟩) (fun _ _ => rfl) (fun _ _ => rfl)
    fuel _ s6 e5
  obtain ⟨t6, a6, i6, z6, l6, x6, y6⟩ := tickLoop_effect AxisApp.zAxis AxisApp.xAxis AxisApp.yAxis
    _ _ (Axes3D.zTickBody tickSize labelOffset fontSize)
    (fun z s => ⟨zTickVertices tickSize z, rfl, rfl⟩) (fun _ _ => rfl) (fun _ _ => rfl)
    fuel _ s7 e
  have e35 : t5 = t3 := by rw [i3] at i5; exact (Option.some.inj i5).symm
  have e46 : t6 = t4 := by rw [i4] at i6; exact (Option.some.inj i6).symm
  refine ⟨t1, t2, t3, t4, [⟨-dim, 0, 0⟩, ⟨dim, 0, 0⟩] ++ a1 ++ a2,
    [⟨0, -dim, 0⟩, ⟨0, dim, 0⟩] ++ a3 ++ a4, [⟨0, 0, -dim⟩, ⟨0, 0, dim⟩] ++ a5 ++ a6,
    i1, i2, i3, i4, ?_, ?_, ?_, ?_, ?_, ?_⟩
  · rw [← h]
    show s7.xAxis = _
    rw [x6, x5, x4, x3, x2, x1]
    simp only [List.append_assoc]
  · simp only [List.length_append, List.length_cons, List.length_nil, l1, l2]
    omega
  · rw [← h]
    show s7.yAxis = _
    rw [y6, y5, y4, y3, y2, y1]
    simp only [List.append_assoc]
  · simp only [List.length_append, List.length_cons, List.length_nil, l3, l4]
    omega
  · rw [← h]
    show s7.zAxis = _
    rw [z6, z5, z4, z3, z2, z1]
    simp only [List.append_assoc]
  · simp only [List.length_append, List.length_cons, List.length_nil, l5, l6, e35, e46]
    omega

theorem count_eq_of_iff (count n : Nat) (P : Nat → Prop) (h : ∀ k, k < count ↔ P k)
    (hlo : ∀ k, k < n → P k) (hhi : ¬ P n) : count = n := by
  rcases Nat.lt_trichotomy count n with hlt | heq | hgt
  · exact absurd ((h count).2 (hlo count hlt)) (lt_irrefl _)
  · exact heq
  · exact absurd ((h n).1 hgt) hhi

/-- The numbers of runs of the four tick loops of `onDraw` in `us_map.cpp`. -/
theorem usMap_tick_counts :
    upCountLe 90 30.0 = 4 ∧ downCount (-90) 30.0 = 4 ∧
      upCountLt 180 30.0 = 6 ∧ downCount (-180) 30.0 = 7 := by
  have hinc : (0 : ℚ) < 30.0 := by norm_num
  refine ⟨?_, ?_, ?_, ?_⟩
  · apply count_eq_of_iff _ 4 _ (lt_upCountLe 90 30.0 hinc)
    · intro k hk; interval_cases k <;> norm_num
    · norm_num
  · apply count_eq_of_iff _ 4 _ (lt_downCount (-90) 30.0 hinc)
    · intro k hk; interval_cases k <;> norm_num
    · norm_num
  · apply count_eq_of_iff _ 6 _ (lt_upCountLt 180 30.0 hinc)
    · intro k hk; interval_cases k <;> norm_num
    · norm_num
  · apply count_eq_of_iff _ 7 _ (lt_downCount (-180) 30.0 hinc)
    · intro k hk; interval_cases k <;> norm_num
    · norm_num

theorem UsMap.drawUnitedStates_keeps (points : List (List (Vec3f ℚ))) :
    ∀ app : AxisApp, (UsMap.drawUnitedStates points app).xAxis = app.xAxis ∧
      (UsMap.drawUnitedStates points app).yAxis = app.yAxis := by
  induction points with
  | nil => intro app; exact ⟨rfl, rfl⟩
  | cons p ps ih =>
    intro app
    have h := ih { app with calls := app.calls ++ [.color 1 1 1, .draw p] }
    exact h

/-- One call of `onDraw` of `us_map.cpp`, with fuel for eight tests of each loop
condition, returns, with 54 vertices more in `xAxis` and 34 more in `yAxis`,
none of those held before removed. -/
theorem UsMap.onDraw_appends (fuel : Nat) (points : List (List (Vec3f ℚ))) (app : AxisApp)
    (hf : 8 ≤ fuel) :
    ∃ app2 addedX addedY, UsMap.onDraw fuel points app = some app2 ∧
      app2.xAxis = app.xAxis ++ addedX ∧ addedX.length = 54 ∧
      app2.yAxis = app.yAxis ++ addedY ∧ addedY.length = 34 := by
  obtain ⟨c1, c2, c3, c4⟩ := usMap_tick_counts
  have hinc : (0 : ℚ) < 30.0 := by norm_num
  unfold UsMap.onDraw
  dsimp only
  rw [UsMap.drawYAxis_result fuel (-90) 90 30.0 5.0 5.0 10.0 _ hinc (by omega) (by omega)]
  dsimp only
  rw [UsMap.drawXAxis_result fuel (-180) 180 30.0 5.0 5.0 10.0 _ hinc (by omega) (by omega)]
  dsimp only
  refine ⟨_, [⟨-180, 0, 0⟩, ⟨180, 0, 0⟩] ++ concatMap (xTickVertices 5.0) (xTicks (-180) 180 30.0),
    [⟨0, -90, 0⟩, ⟨0, 90, 0⟩] ++ concatMap (yTickVertices 5.0) (yTicks (-90) 90 30.0),
    rfl, ?_, ?_, ?_, ?_⟩
  · rw [(UsMap.drawUnitedStates_keeps points _).1]
    exact List.append_assoc _ _ _
  · rw [List.length_append, concatMap_length (xTickVertices 5.0) 4 (fun _ => rfl),
      xTicks_length, c3, c4]
    rfl
  · rw [(UsMap.drawUnitedStates_keeps points _).2]
    exact List.append_assoc _ _ _
  · rw [List.length_append, concatMap_length (yTickVertices 5.0) 4 (fun _ => rfl),
      yTicks_length, c1, c2]
    rfl

theorem UsMap.onDrawFrames_lengths (fuel : Nat) (points : List (List (Vec3f ℚ)))
    (hf : 8 ≤ fuel) :
    ∀ (n : Nat) (app : AxisApp), ∃ app2, UsMap.onDrawFrames fuel points n app = some app2 ∧
      app2.xAxis.length = app.xAxis.length + 54 * n ∧
      app2.yAxis.length = app.yAxis.length + 34 * n := by
  intro n
  induction n with
  | zero => intro app; exact ⟨app, rfl, rfl, rfl⟩
  | succ n ih =>
    intro app
    obtain ⟨a1, ax, ay, h1, hx, lx, hy, ly⟩ := UsMap.onDraw_appends fuel points app hf
    obtain ⟨a2, h2, hx2, hy2⟩ := ih a1
    refine ⟨a2, ?_, ?_, ?_⟩
    · rw [UsMap.onDrawFrames, h1]; exact h2
    · rw [hx2, hx, List.length_append, lx]; omega
    · rw [hy2, hy, List.length_append, ly]; omega

/-- C15: the axis meshes are never cleared, so they grow with every frame.
Each call of `drawXAxis` or `drawYAxis` (`us_map.cpp`; the copies in
`world_map_earthquakes.cpp` and `eq_01.cpp` are the same functions), of
`drawAxes` (`2D-axis-demo.cpp`) and of `draw3DAxes` (`3D-axes.cpp`) that
returns has appended `2 + 4 * t` vertices to each axis mesh it fills, `t` being
the number of runs of the two tick loops of that axis, and has removed none.
Hence after `n` calls of `onDraw` in `us_map.cpp`, from empty meshes, `xAxis`
holds exactly `54 * n` vertices and `yAxis` exactly `34 * n`. -/
theorem axis_meshes_grow_every_frame (fuel n : Nat) (points : List (List (Vec3f ℚ)))
    (hf : 8 ≤ fuel) :
    (∀ (fuel2 : Nat) (minX maxX inc tickSize labelOffset fontSize : ℚ) (app app2 : AxisApp),
        UsMap.drawXAxis fuel2 minX maxX inc tickSize labelOffset fontSize app = some app2 →
        ∃ t1 t2 added,
          loopIterations (fun x => decide (x < maxX)) (fun x => x + inc) fuel2 = some t1 ∧
          loopIterations (fun x => decide (x ≥ minX)) (fun x => x - inc) fuel2 = some t2 ∧
          app2.xAxis = app.xAxis ++ added ∧ added.length = 2 + 4 * (t1 + t2)) ∧
      (∀ (fuel2 : Nat) (minY maxY inc tickSize labelOffset fontSize : ℚ) (app app2 : AxisApp),
        UsMap.drawYAxis fuel2 minY maxY inc tickSize labelOffset fontSize app = some app2 →
        ∃ t1 t2 added,
          loopIterations (fun y => decide (y ≤ maxY)) (fun y => y + inc) fuel2 = some t1 ∧
          loopIterations (fun y => decide (y ≥ minY)) (fun y => y - inc) fuel2 = some t2 ∧
          app2.yAxis = app.yAxis ++ added ∧ added.length = 2 + 4 * (t1 + t2)) ∧
      (∀ (fuel2 : Nat) (minX maxX minY maxY inc tickSize labelOffset fontSize : ℚ)
          (app app2 : AxisApp),
        AxisDemo.drawAxes fuel2 minX maxX minY maxY inc tickSize labelOffset fontSize app =
          some app2 →
        ∃ t1 t2 t3 t4 addedX addedY,
          loopIterations (fun x => decide (x < maxX)) (fun x => x + inc) fuel2 = some t1 ∧
          loopIterations (fun x => decide (x ≥ minX)) (fun x => x - inc) fuel2 = some t2 ∧
          loopIterations (fun y => decide (y ≤ maxY)) (fun y => y + inc) fuel2 = some t3 ∧
          loopIterations (fun y => decide (y ≥ minY)) (fun y => y - inc) fuel2 = some t4 ∧
          app2.xAxis = app.xAxis ++ addedX ∧ addedX.length = 2 + 4 * (t1 + t2) ∧
          app2.yAxis = app.yAxis ++ addedY ∧ addedY.length = 2 + 4 * (t3 + t4)) ∧
      (∀ (fuel2 : Nat) (dim inc tickSize labelOffset fontSize : ℚ) (app app2 : AxisApp),
        Axes3D.draw3DAxes fuel2 dim inc tickSize labelOffset fontSize app = some app2 →
        ∃ t1 t2 t3 t4 addedX addedY addedZ,
          loopIterations (fun x => decide (x < dim)) (fun x => x + inc) fuel2 = some t1 ∧
          loopIterations (fun x => decide (x ≥ -dim)) (fun x => x - inc) fuel2 = some t2 ∧
          loopIterations (fun y => decide (y ≤ dim)) (fun y => y + inc) fuel2 = some t3 ∧
          loopIterations (fun y => decide (y ≥ -dim)) (fun y => y - inc) fuel2 = some t4 ∧
          app2.xAxis = app.xAxis ++ addedX ∧ addedX.length = 2 + 4 * (t1 + t2) ∧
          app2.yAxis = app.yAxis ++ addedY ∧ addedY.length = 2 + 4 * (t3 + t4) ∧
          app2.zAxis = app.zAxis ++ addedZ ∧ addedZ.length = 2 + 4 * (t3 + t4)) ∧
      ∃ app2, UsMap.onDrawFrames fuel points n AxisApp.initial = some app2 ∧
        app2.xAxis.length = 54 * n ∧ app2.yAxis.length = 34 * n := by
  refine ⟨UsMap.drawXAxis_appends, UsMap.drawYAxis_appends, AxisDemo.drawAxes_appends,
    Axes3D.draw3DAxes_appends, ?_⟩
  obtain ⟨app2, h, hx, hy⟩ := UsMap.onDrawFrames_lengths fuel points hf n AxisApp.initial
  refine ⟨app2, h, ?_, ?_⟩
  · rw [hx]; simp [AxisApp.initial]
  · rw [hy]; simp [AxisApp.initial]

/-- C15 on three frames of `us_map.cpp`: 162 vertices in `xAxis`, 102 in
`yAxis`. -/
theorem axis_meshes_grow_every_frame_witness :
    8 ≤ 8 ∧ ∃ app2, UsMap.onDrawFrames 8 [[⟨1, 2, 0⟩, ⟨3, 4, 0⟩]] 3 AxisApp.initial = some app2 ∧
      app2.xAxis.length = 54 * 3 ∧ app2.yAxis.length = 34 * 3 :=
  ⟨le_refl 8,
    (axis_meshes_grow_every_frame 8 3 [[⟨1, 2, 0⟩, ⟨3, 4, 0⟩]] (le_refl 8)).2.2.2.2⟩

/-! ## Termination of the tick loops -/

theorem upCountLt_le_upCountLe (maxX inc : ℚ) (hinc : 0 < inc) :
    upCountLt maxX inc ≤ upCountLe maxX inc := by
  by_contra hlt
  have h1 : upCountLe maxX inc < upCountLt maxX inc := by omega
  have h2 := (lt_upCountLt maxX inc hinc _).1 h1
  have h3 := (lt_upCountLe maxX inc hinc (upCountLe maxX inc)).2 h2.le
  exact lt_irrefl _ h3

theorem UsMap.drawXAxis_isSome (fuel : Nat)
    (minX maxX inc tickSize labelOffset fontSize : ℚ) (app : AxisApp) (hinc : 0 < inc)
    (hup : upCountLt maxX inc < fuel) (hdown : downCount minX inc < fuel) :
    (UsMap.drawXAxis fuel minX maxX inc tickSize labelOffset fontSize app).isSome = true := by
  rw [UsMap.drawXAxis_result fuel minX maxX inc tickSize labelOffset fontSize app hinc hup hdown]
  rfl

theorem UsMap.drawYAxis_isSome (fuel : Nat)
    (minY maxY inc tickSize labelOffset fontSize : ℚ) (app : AxisApp) (hinc : 0 < inc)
    (hup : upCountLe maxY inc < fuel) (hdown : downCount minY inc < fuel) :
    (UsMap.drawYAxis fuel minY maxY inc tickSize labelOffset fontSize app).isSome = true := by
  rw [UsMap.drawYAxis_result fuel minY maxY inc tickSize labelOffset fontSize app hinc hup hdown]
  rfl

theorem Axes3D.draw3DAxes_isSome (fuel : Nat)
    (dim inc tickSize labelOffset fontSize : ℚ) (app : AxisApp) (hinc : 0 < inc)
    (h1 : upCountLt dim inc < fuel) (h2 : downCount (-dim) inc < fuel)
    (h3 : upCountLe dim inc < fuel) :
    (Axes3D.draw3DAxes fuel dim inc tickSize labelOffset fontSize app).isSome = true := by
  unfold Axes3D.draw3DAxes Axes3D.tickLoops
  simp only [forLoop_upLt _ dim inc hinc fuel _ h1, forLoop_down _ (-dim) inc hinc fuel _ h2,
    forLoop_upLe _ dim inc hinc fuel _ h3]
  rfl

/-- C17: the tick loops of `drawXAxis`, `drawYAxis`, `drawAxes` and
`draw3DAxes` terminate for every `tickIncrement > 0` and all bounds (exact
arithmetic).  With fuel enough, the loop `x = 0; x < maxX; x += inc` runs
`ceil(maxX / inc)` times when `maxX > 0` and 0 times otherwise, the loop
`x = 0; x >= minX; x -= inc` runs `floor(-minX / inc) + 1` times when
`minX <= 0` and 0 times otherwise, the loop `y = 0; y <= maxY; y += inc` of
the Y and Z axes reaches its exit too, and the four functions return.
Termination depends on `tickIncrement > 0`: with an increment `d <= 0` the first
loop never leaves when `maxX > 0`, nor the second when `minX <= 0`, whatever
the fuel. -/
theorem tick_loops_terminate (minX maxX minY maxY dim inc tickSize labelOffset fontSize : ℚ)
    (app : AxisApp) (hinc : 0 < inc) :
    (∃ N, ∀ fuel, N ≤ fuel →
        loopIterations (fun x => decide (x < maxX)) (fun x => x + inc) fuel =
          some (if 0 < maxX then ⌈maxX / inc⌉.toNat else 0) ∧
        loopIterations (fun x => decide (x ≥ minX)) (fun x => x - inc) fuel =
          some (if minX ≤ 0 then ⌊-minX / inc⌋.toNat + 1 else 0) ∧
        loopIterations (fun y => decide (y ≤ maxY)) (fun y => y + inc) fuel =
          some (if 0 ≤ maxY then ⌊maxY / inc⌋.toNat + 1 else 0) ∧
        (UsMap.drawXAxis fuel minX maxX inc tickSize labelOffset fontSize app).isSome = true ∧
        (UsMap.drawYAxis fuel minY maxY inc tickSize labelOffset fontSize app).isSome = true ∧
        (AxisDemo.drawAxes fuel minX maxX minY maxY inc tickSize labelOffset fontSize
          app).isSome = true ∧
        (Axes3D.draw3DAxes fuel dim inc tickSize labelOffset fontSize app).isSome = true) ∧
      (∀ d : ℚ, d ≤ 0 → 0 < maxX → ∀ fuel,
        loopIterations (fun x => decide (x < maxX)) (fun x => x + d) fuel = none) ∧
      (∀ d : ℚ, d ≤ 0 → minX ≤ 0 → ∀ fuel,
        loopIterations (fun x => decide (x ≥ minX)) (fun x => x - d) fuel = none) := by
  refine ⟨⟨upCountLe maxX inc + downCount minX inc + upCountLe maxY inc + downCount minY inc +
      upCountLe dim inc + downCount (-dim) inc + 1, ?_⟩, ?_, ?_⟩
  · intro fuel hf
    have hx := upCountLt_le_upCountLe maxX inc hinc
    have hd := upCountLt_le_upCountLe dim inc hinc
    refine ⟨loopIterations_upLt maxX inc hinc fuel (by omega),
      loopIterations_down minX inc hinc fuel (by omega),
      loopIterations_upLe maxY inc hinc fuel (by omega),
      UsMap.drawXAxis_isSome fuel minX maxX inc tickSize labelOffset fontSize app hinc
        (by omega) (by omega),
      UsMap.drawYAxis_isSome fuel minY maxY inc tickSize labelOffset fontSize app hinc
        (by omega) (by omega), ?_,
      Axes3D.draw3DAxes_isSome fuel dim inc tickSize labelOffset fontSize app hinc
        (by omega) (by omega) (by omega)⟩
    obtain ⟨a, ha⟩ := AxisDemo.drawAxes_isSome fuel minX maxX minY maxY inc tickSize labelOffset
      fontSize app hinc (by omega) (by omega) (by omega) (by omega)
    rw [ha]; rfl
  · intro d hd hmax fuel
    apply forLoop_never_stops _ _ _ d (fun _ => rfl)
    intro k
    have : (k : ℚ) * d ≤ 0 := mul_nonpos_of_nonneg_of_nonpos (Nat.cast_nonneg k) hd
    simp only [zero_add, decide_eq_true_eq]
    exact lt_of_le_of_lt this hmax
  · intro d hd hmin fuel
    apply forLoop_never_stops _ _ _ (-d) (fun x => sub_eq_add_neg x d)
    intro k
    have : 0 ≤ (k : ℚ) * (-d) := mul_nonneg (Nat.cast_nonneg k) (neg_nonneg.2 hd)
    simp only [zero_add, ge_iff_le, decide_eq_true_eq]
    exact le_trans hmin this

/-- C17 at the bounds and increment of `onDraw` in `us_map.cpp`; the four
loops run 6, 7, 4 and 4 times. -/
theorem tick_loops_terminate_witness :
    (0 : ℚ) < 30.0 ∧
      (upCountLt 180 30.0 = 6 ∧ downCount (-180) 30.0 = 7 ∧ upCountLe 90 30.0 = 4 ∧
        downCount (-90) 30.0 = 4) ∧
      ∃ N, ∀ fuel, N ≤ fuel →
        loopIterations (fun x => decide (x < 180)) (fun x => x + 30.0) fuel =
          some (if (0 : ℚ) < 180 then ⌈(180 : ℚ) / 30.0⌉.toNat else 0) ∧
        loopIterations (fun x => decide (x ≥ -180)) (fun x => x - 30.0) fuel =
          some (if (-180 : ℚ) ≤ 0 then ⌊-(-180 : ℚ) / 30.0⌋.toNat + 1 else 0) ∧
        loopIterations (fun y => decide (y ≤ 90)) (fun y => y + 30.0) fuel =
          some (if (0 : ℚ) ≤ 90 then ⌊(90 : ℚ) / 30.0⌋.toNat + 1 else 0) ∧
        (UsMap.drawXAxis fuel (-180) 180 30.0 5.0 5.0 10.0 AxisApp.initial).isSome = true ∧
        (UsMap.drawYAxis fuel (-90) 90 30.0 5.0 5.0 10.0 AxisApp.initial).isSome = true ∧
        (AxisDemo.drawAxes fuel (-180) 180 (-90) 90 30.0 5.0 5.0 10.0
          AxisApp.initial).isSome = true ∧
        (Axes3D.draw3DAxes fuel 5 30.0 5.0 5.0 10.0 AxisApp.initial).isSome = true :=
  ⟨by norm_num,
    ⟨usMap_tick_counts.2.2.1, usMap_tick_counts.2.2.2, usMap_tick_counts.1,
      usMap_tick_counts.2.1⟩,
    (tick_loops_terminate (-180) 180 (-90) 90 5 30.0 5.0 5.0 10.0 AxisApp.initial
      (by norm_num)).1⟩

/-! ## Where the ticks are -/

/-- C16, as stated, fails at `minX = -30`, `maxX = 0`, `tickIncrement = 30`:
the first loop of `drawXAxis` does not run (`0 < 0` is false) and the second
ticks 0 and -30, so `x = 0` is ticked once, not twice, and `maxX = 0` is
ticked. -/
theorem drawXAxis_ticks_maxX_zero :
    UsMap.drawXAxis 8 (-30) 0 30 5 5 10 AxisApp.initial =
      some
        { xAxis := [⟨-30, 0, 0⟩, ⟨0, 0, 0⟩,
            ⟨0, 0, 0⟩, ⟨0, 5, 0⟩, ⟨0, -5, 0⟩, ⟨0, 0, 0⟩,
            ⟨-30, 0, 0⟩, ⟨-30, 5, 0⟩, ⟨-30, -5, 0⟩, ⟨-30, 0, 0⟩]
          yAxis := []
          zAxis := []
          calls := [xLabel 5 10 0, xLabel 5 10 (-30), .color 1 1 0,
            .draw [⟨-30, 0, 0⟩, ⟨0, 0, 0⟩,
              ⟨0, 0, 0⟩, ⟨0, 5, 0⟩, ⟨0, -5, 0⟩, ⟨0, 0, 0⟩,
              ⟨-30, 0, 0⟩, ⟨-30, 5, 0⟩, ⟨-30, -5, 0⟩, ⟨-30, 0, 0⟩]] } ∧
      xTicks (-30) 0 30 = [0, -30] ∧
      (xTicks (-30) 0 30).count 0 = 1 ∧
      (0 : ℚ) ∈ xTicks (-30) 0 30 := by
  have hinc : (0 : ℚ) < 30 := by norm_num
  have c1 : upCountLt 0 30 = 0 := by
    apply count_eq_of_iff _ 0 _ (lt_upCountLt 0 30 hinc)
    · intro k hk; omega
    · norm_num
  have c2 : downCount (-30) 30 = 2 := by
    apply count_eq_of_iff _ 2 _ (lt_downCount (-30) 30 hinc)
    · intro k hk; interval_cases k <;> norm_num
    · norm_num
  have ht : xTicks (-30) 0 30 = [0, -30] := by
    rw [xTicks, c1, c2]
    norm_num [multiples, List.range_succ]
  refine ⟨?_, ht, ?_, ?_⟩
  · rw [UsMap.drawXAxis_result 8 (-30) 0 30 5 5 10 AxisApp.initial hinc (by omega) (by omega), ht]
    norm_num [concatMap, xTickVertices, AxisApp.initial, xLabel]
  · rw [ht]; norm_num [List.count_cons]
  · rw [ht]; simp

theorem multiples_succ (n : Nat) (d : ℚ) : multiples (n + 1) d = multiples n d ++ [(n : ℚ) * d] := by
  simp [multiples, List.range_succ]

theorem count_zero_multiples (d : ℚ) (hd : d ≠ 0) :
    ∀ n : Nat, (multiples n d).count 0 = if n = 0 then 0 else 1 := by
  intro n
  induction n with
  | zero => rfl
  | succ n ih =>
    rw [multiples_succ, List.count_append, ih]
    by_cases hn : n = 0
    · subst hn; simp
    · have hne : ¬ ((n : ℚ) * d = 0) := by
        intro h
        rcases mul_eq_zero.1 h with h1 | h1
        · exact hn (by exact_mod_cast h1)
        · exact hd h1
      simp [hn, List.count_cons, hne]

/-- C16, amended: `drawXAxis` creates the X tick marks and labels at the
multiples of `tickIncrement`.  For every `minX`, `maxX` and
`tickIncrement > 0` (exact arithmetic) it appends the two axis ends, then a
tick - the four vertices `(x,0)`, `(x,tickSize)`, `(x,-tickSize)`, `(x,0)` -
and renders one label at `x = k * inc` for exactly the integers `k >= 0` with
`k * inc < maxX`, then at `x = -k * inc` for exactly the integers `k >= 0` with
`-k * inc >= minX`.  So, when `minX <= 0 < maxX`, `x = 0` is ticked twice;
`minX` is ticked when it is `-k * inc` for an integer `k >= 0`; `maxX`, when
positive, is not ticked; whereas `drawYAxis` (loop bound `y <= maxY`) ticks
`maxY` when it is `k * inc` for an integer `k >= 0`. -/
theorem drawXAxis_ticks_multiples (fuel : Nat)
    (minX maxX minY maxY inc tickSize labelOffset fontSize : ℚ) (app : AxisApp) (hinc : 0 < inc)
    (hfuel : upCountLe maxX inc + downCount minX inc + upCountLe maxY inc +
      downCount minY inc < fuel) :
    UsMap.drawXAxis fuel minX maxX inc tickSize labelOffset fontSize app =
        some
          { xAxis := app.xAxis ++ [⟨minX, 0, 0⟩, ⟨maxX, 0, 0⟩] ++
              concatMap (xTickVertices tickSize) (xTicks minX maxX inc)
            yAxis := app.yAxis
            zAxis := app.zAxis
            calls := app.calls ++
              concatMap (fun x => [xLabel labelOffset fontSize x]) (xTicks minX maxX inc) ++
              [.color 1 1 0, .draw (app.xAxis ++ [⟨minX, 0, 0⟩, ⟨maxX, 0, 0⟩] ++
                concatMap (xTickVertices tickSize) (xTicks minX maxX inc))] } ∧
      xTicks minX maxX inc =
        multiples (upCountLt maxX inc) inc ++ multiples (downCount minX inc) (-inc) ∧
      (∀ k : Nat, k < upCountLt maxX inc ↔ (k : ℚ) * inc < maxX) ∧
      (∀ k : Nat, k < downCount minX inc ↔ -((k : ℚ) * inc) ≥ minX) ∧
      (minX ≤ 0 → 0 < maxX → (xTicks minX maxX inc).count 0 = 2) ∧
      (∀ k : Nat, minX = -((k : ℚ) * inc) → minX ∈ xTicks minX maxX inc) ∧
      (0 < maxX → maxX ∉ xTicks minX maxX inc) ∧
      UsMap.drawYAxis fuel minY maxY inc tickSize labelOffset fontSize app =
        some
          { xAxis := app.xAxis
            yAxis := app.yAxis ++ [⟨0, minY, 0⟩, ⟨0, maxY, 0⟩] ++
              concatMap (yTickVertices tickSize) (yTicks minY maxY inc)
            zAxis := app.zAxis
            calls := app.calls ++
              concatMap (yLabelCalls labelOffset fontSize) (yTicks minY maxY inc) ++
              [.color 0 1 1, .draw (app.yAxis ++ [⟨0, minY, 0⟩, ⟨0, maxY, 0⟩] ++
                concatMap (yTickVertices tickSize) (yTicks minY maxY inc))] } ∧
      yTicks minY maxY inc =
        multiples (upCountLe maxY inc) inc ++ multiples (downCount minY inc) (-inc) ∧
      (∀ k : Nat, k < upCountLe maxY inc ↔ (k : ℚ) * inc ≤ maxY) ∧
      (∀ k : Nat, maxY = (k : ℚ) * inc → maxY ∈ yTicks minY maxY inc) := by
  have hle := upCountLt_le_upCountLe maxX inc hinc
  have hdn : ∀ (m : ℚ) (k : Nat), k < downCount m inc ↔ -((k : ℚ) * inc) ≥ m := by
    intro m k
    rw [lt_downCount m inc hinc k, mul_neg]
  refine ⟨UsMap.drawXAxis_result fuel minX maxX inc tickSize labelOffset fontSize app hinc
      (by omega) (by omega), rfl, lt_upCountLt maxX inc hinc, hdn minX, ?_, ?_, ?_,
    UsMap.drawYAxis_result fuel minY maxY inc tickSize labelOffset fontSize app hinc
      (by omega) (by omega), rfl, lt_upCountLe maxY inc hinc, ?_⟩
  · intro hmin hmax
    have h1 : upCountLt maxX inc ≠ 0 := by
      have := (lt_upCountLt maxX inc hinc 0).2 (by simpa using hmax)
      omega
    have h2 : downCount minX inc ≠ 0 := by
      have := (lt_downCount minX inc hinc 0).2 (by simpa using hmin)
      omega
    rw [xTicks, List.count_append, count_zero_multiples inc hinc.ne',
      count_zero_multiples (-inc) (neg_ne_zero.2 hinc.ne'), if_neg h1, if_neg h2]
  · intro k hk
    rw [xTicks, List.mem_append, mem_multiples, mem_multiples]
    refine Or.inr ⟨k, (hdn minX k).2 (by rw [hk]), ?_⟩
    rw [hk, mul_neg]
  · intro hmax hmem
    rw [xTicks, List.mem_append, mem_multiples, mem_multiples] at hmem
    rcases hmem with ⟨k, hk, he⟩ | ⟨k, _, he⟩
    · have := (lt_upCountLt maxX inc hinc k).1 hk
      rw [← he] at this
      exact lt_irrefl _ this
    · have h0 : 0 ≤ (k : ℚ) * inc := mul_nonneg (Nat.cast_nonneg k) hinc.le
      rw [he, mul_neg] at hmax
      linarith
  · intro k hk
    rw [yTicks, List.mem_append, mem_multiples]
    exact Or.inl ⟨k, (lt_upCountLe maxY inc hinc k).2 (by rw [hk]), hk⟩

/-- C16 at the axis of `us_map.cpp`, `drawXAxis(-180, 180, 30, ...)` and
`drawYAxis(-90, 90, 30, ...)`: 0 is ticked twice on the X axis, -180 is ticked,
180 is not, and 90 is ticked on the Y axis. -/
theorem drawXAxis_ticks_multiples_witness :
    (0 : ℚ) < 30.0 ∧
      upCountLe 180 30.0 + downCount (-180) 30.0 + upCountLe 90 30.0 + downCount (-90) 30.0 <
        30 ∧
      (xTicks (-180) 180 30.0).count 0 = 2 ∧
      (-180 : ℚ) ∈ xTicks (-180) 180 30.0 ∧
      (180 : ℚ) ∉ xTicks (-180) 180 30.0 ∧
      (90 : ℚ) ∈ yTicks (-90) 90 30.0 ∧
      (UsMap.drawXAxis 30 (-180) 180 30.0 5.0 5.0 10.0 AxisApp.initial).isSome = true :=
  have hinc : (0 : ℚ) < 30.0 := by norm_num
  have h7 : upCountLe 180 30.0 = 7 := by
    apply count_eq_of_iff _ 7 _ (lt_upCountLe 180 30.0 hinc)
    · intro k hk; interval_cases k <;> norm_num
    · norm_num
  have hfuel : upCountLe 180 30.0 + downCount (-180) 30.0 + upCountLe 90 30.0 +
      downCount (-90) 30.0 < 30 := by
    rw [h7, usMap_tick_counts.1, usMap_tick_counts.2.1, usMap_tick_counts.2.2.2]
    decide
  have h := drawXAxis_ticks_multiples 30 (-180) 180 (-90) 90 30.0 5.0 5.0 10.0 AxisApp.initial
    hinc hfuel
  ⟨hinc, hfuel, h.2.2.2.2.1 (by norm_num) (by norm_num),
    h.2.2.2.2.2.1 6 (by norm_num), h.2.2.2.2.2.2.1 (by norm_num),
    h.2.2.2.2.2.2.2.2.2.2 3 (by norm_num), by rw [h.1]; rfl⟩

/-- C12 at the axes of the map tutorials: `drawAxes(-180, 180, -90, 90, 30, ...)`
returns, and leaves in `xAxis` and `yAxis` the vertices that
`drawXAxis(-180, 180, 30, ...)` and `drawYAxis(-90, 90, 30, ...)` leave. -/
theorem axis_helpers_are_copies_witness :
    ∃ a x y, AxisDemo.drawAxes 8 (-180) 180 (-90) 90 30.0 5.0 5.0 10.0 AxisApp.initial = some a ∧
      UsMap.drawXAxis 8 (-180) 180 30.0 5.0 5.0 10.0 AxisApp.initial = some x ∧
      UsMap.drawYAxis 8 (-90) 90 30.0 5.0 5.0 10.0 AxisApp.initial = some y ∧
      a.xAxis = x.xAxis ∧ a.yAxis = y.yAxis ∧ x.xAxis.length = 54 ∧ y.yAxis.length = 34 := by
  obtain ⟨c1, c2, c3, c4⟩ := usMap_tick_counts
  have hinc : (0 : ℚ) < 30.0 := by norm_num
  obtain ⟨a, ha⟩ := AxisDemo.drawAxes_isSome 8 (-180) 180 (-90) 90 30.0 5.0 5.0 10.0
    AxisApp.initial hinc (by omega) (by omega) (by omega) (by omega)
  obtain ⟨_, x, y, hx, hy, ex, ey⟩ :=
    axis_helpers_are_copies 8 (-180) 180 (-90) 90 30.0 5.0 5.0 10.0 AxisApp.initial a ha
  refine ⟨a, x, y, ha, hx, hy, ex, ey, ?_, ?_⟩
  · rw [UsMap.drawXAxis_result 8 (-180) 180 30.0 5.0 5.0 10.0 AxisApp.initial hinc (by omega)
      (by omega), Option.some.injEq] at hx
    rw [← hx]
    show (AxisApp.initial.xAxis ++ _ ++ concatMap (xTickVertices 5.0) _).length = 54
    rw [List.length_append, concatMap_length (xTickVertices 5.0) 4 (fun _ => rfl),
      xTicks_length, c3, c4]
    rfl
  · rw [UsMap.drawYAxis_result 8 (-90) 90 30.0 5.0 5.0 10.0 AxisApp.initial hinc (by omega)
      (by omega), Option.some.injEq] at hy
    rw [← hy]
    show (AxisApp.initial.yAxis ++ _ ++ concatMap (yTickVertices 5.0) _).length = 34
    rw [List.length_append, concatMap_length (yTickVertices 5.0) 4 (fun _ => rfl),
      yTicks_length, c1, c2]
    rfl

end AlloPlayground
